import Mathlib

/-!
# P.I.G.S-GUI settings synchronisation: embedding of `guiwindow.cpp`

The definitions follow `Source/Version-2.00/guiwindow.cpp`: the settings
document held in the globals and in the members of `guiWindow`, the diff
count (`DiffUpdate`), the snapshot reconciliation (`SyncSettings`), the commit
sequence (`on_confirmButton_clicked`) and the pin resolver
(`pinBoxes_activated`).
-/

namespace PIGS

/-! ## Machine integers and containers -/

/-- The C type `int8_t`: the integers from -128 to 127. -/
abbrev I8 := {z : Int // -128 ≤ z ∧ z ≤ 127}

/-- The C type `uint8_t`. -/
abbrev U8 := Fin 256

/-- Conversion of a C `int` to `int8_t` (two's complement wrap). -/
def i8 (z : Int) : I8 := ⟨(z + 128) % 256 - 128, by omega⟩

/-- Conversion of a C `int` to `uint8_t` (wrap modulo 256). -/
def u8 (z : Int) : U8 := ⟨(z % 256).toNat, by omega⟩

/-- Conversion of a C `int` to `uint16_t` (wrap modulo 65536). -/
def u16 (z : Int) : Nat := (z % 65536).toNat

/-- Conversion of a C `int` to `bool`: every non-zero value is `true`. -/
def toBool (z : Int) : Bool := z != 0

/-- The integer held by a `uint8_t`, as C promotes it. -/
def U8.toInt (k : U8) : Int := (k.val : Int)

/-- `QMap<uint8_t, int8_t>`: a finite map, `none` where the key is absent. -/
abbrev QMap := U8 → Option I8

/-- The map without any key (`QMap::clear`, or a freshly constructed map). -/
def QMap.empty : QMap := fun _ => none

/-- `QMap::value(key)`: the stored value, or a default-constructed `0`. -/
def QMap.value (m : QMap) (k : U8) : I8 := (m k).getD (i8 0)

/-- `map[key] = v`: inserts the key or overwrites its value. -/
def QMap.set (m : QMap) (k : U8) (v : I8) : QMap :=
  fun j => if j = k then some v else m j

/-- Every `uint8_t` key in ascending order. -/
def allKeys : List U8 := (List.range 256).map (fun (n : Nat) => u8 (n : Int))

/-- `QMap::keys(v)`: the keys holding the value `v`, in ascending order. -/
def QMap.keys (m : QMap) (v : I8) : List U8 :=
  allKeys.filter (fun k => m k == some v)

/-- `a != b` on two maps: some key is present in one only, or holds
different values. -/
def QMap.ne (a b : QMap) : Bool := allKeys.any (fun k => a k != b k)

/-- A counted `for` loop `for (i = lo; i < hi; i++) body`. -/
def forLoop {σ : Type} (lo hi : Nat) (body : Nat → σ → σ) (init : σ) : σ :=
  (List.range' lo (hi - lo)).foldl (fun acc i => body i acc) init

/-- Assignment `arr[i] = v` to a fixed-size array. -/
def arrSet {n : Nat} {α : Type} (arr : Fin n → α) (i : Fin n) (v : α) : Fin n → α :=
  fun j => if j = i then v else arr j

/-- `QString::contains` on lists of characters. -/
def containsChars (s t : List Char) : Bool :=
  match s with
  | [] => t.isEmpty
  | c :: cs => t.isPrefixOf (c :: cs) || containsChars cs t

/-- `QString::contains(token)`: `token` occurs somewhere in `line`. -/
def contains (line token : String) : Bool := containsChars line.toList token.toList

/-! ## The settings document -/

/-- Modelled from the spec: `boardInfo_s` and the board-type enumeration are
declared in `constants.h`, which is not among the sources. Spec §3 names the
board types; `nothing` is the value `PrettifyName` tests for an unset board. -/
inductive BoardType where
  | nothing | rpipico | adafruitItsyRP2040 | adafruitKB2040 | arduinoNanoRP2040 | generic
  deriving DecidableEq, Repr

/-- Modelled from the spec: the fields of `boardInfo_s` that `guiwindow.cpp`
uses (declared in `constants.h`, not among the sources). The floating-point
`versionNumber` is left out. -/
structure boardInfo_s where
  type : BoardType
  versionCodename : String
  selectedProfile : U8
  previousProfile : U8

/-- Modelled from the spec: `tinyUSBtable_s` (declared in `constants.h`), the
two identity strings. -/
structure tinyUSBtable_s where
  tinyUSBid : String
  tinyUSBname : String

/-- Modelled from the spec: `profilesTable_s` (declared in `constants.h`). Spec
§3 gives four signed calibration integers, `irSensitivity` and `runMode`. -/
structure profilesTable_s where
  xScale : Int
  yScale : Int
  xCenter : Int
  yCenter : Int
  irSensitivity : Int
  runMode : Int

/-- Modelled from the spec: index of the custom-pins flag in `boolSettings`
(`constants.h`); spec §3 and §9 place it at the reserved index 0. -/
def customPins : Fin 8 := 0

/-- Modelled from the spec: the "unmapped" entry of `boardInputs_e`
(`constants.h`); it is entry 0 of `valuesNameList` and the value `!index`
tests for. -/
def btnUnmapped : Int := 0

/-- The constant `INPUTS_COUNT`. -/
def INPUTS_COUNT : Nat := 25

/-- The globals of `guiwindow.cpp` and the data members of `guiWindow`.
`pinBoxesOldIndex` is `int[30]` in the source and is indexed there with
`uint8_t` keys of `currentPins` without a bounds check; the table here has a
slot for each `uint8_t`, the first 30 being the array. `confirmEnabled` is the
enabled state of `ui->confirmButton`. -/
structure State where
  board : boardInfo_s
  tinyUSBtable : tinyUSBtable_s
  tinyUSBtable_orig : tinyUSBtable_s
  profilesTable : Fin 4 → profilesTable_s
  profilesTable_orig : Fin 4 → profilesTable_s
  currentPins : QMap
  inputsMap : QMap
  inputsMap_orig : QMap
  settingsDiff : Nat
  boolSettings : Fin 8 → Bool
  boolSettings_orig : Fin 8 → Bool
  settingsTable : Fin 8 → Nat
  settingsTable_orig : Fin 8 → Nat
  pinBoxesOldIndex : U8 → Int
  irSensOldIndex : Fin 4 → Nat
  runModeOldIndex : Fin 4 → Nat
  serialActive : Bool
  testMode : Bool
  confirmEnabled : Bool

/-! ## Diff engine and snapshot reconciliation -/

/-- `settingsDiff++` on the `uint8_t` counter. -/
def bump (d : Nat) : Nat := (d + 1) % 256

/-- `if (c) settingsDiff++;` -/
def bumpIf (c : Bool) (d : Nat) : Nat := if c then bump d else d

/-- The body of the profile loop of `DiffUpdate`: six comparisons. -/
def diffProfile (s : State) (i : Nat) (d : Nat) : Nat :=
  let d := bumpIf ((s.profilesTable_orig (Fin.ofNat i)).xScale != (s.profilesTable (Fin.ofNat i)).xScale) d
  let d := bumpIf ((s.profilesTable_orig (Fin.ofNat i)).yScale != (s.profilesTable (Fin.ofNat i)).yScale) d
  let d := bumpIf ((s.profilesTable_orig (Fin.ofNat i)).xCenter != (s.profilesTable (Fin.ofNat i)).xCenter) d
  let d := bumpIf ((s.profilesTable_orig (Fin.ofNat i)).yCenter != (s.profilesTable (Fin.ofNat i)).yCenter) d
  let d := bumpIf ((s.profilesTable_orig (Fin.ofNat i)).irSensitivity != (s.profilesTable (Fin.ofNat i)).irSensitivity) d
  bumpIf ((s.profilesTable_orig (Fin.ofNat i)).runMode != (s.profilesTable (Fin.ofNat i)).runMode) d

/-- The value `DiffUpdate` leaves in `settingsDiff`. -/
def diffCount (s : State) : Nat :=
  let d := 0
  let d := if s.boolSettings customPins then bumpIf (s.inputsMap_orig.ne s.inputsMap) d else d
  let d := forLoop 1 8 (fun i d =>
    bumpIf (s.boolSettings_orig (Fin.ofNat i) != s.boolSettings (Fin.ofNat i)) d) d
  let d := forLoop 0 8 (fun i d =>
    bumpIf (s.settingsTable_orig (Fin.ofNat i) != s.settingsTable (Fin.ofNat i)) d) d
  let d := bumpIf (s.tinyUSBtable_orig.tinyUSBid != s.tinyUSBtable.tinyUSBid) d
  let d := bumpIf (s.tinyUSBtable_orig.tinyUSBname != s.tinyUSBtable.tinyUSBname) d
  let d := bumpIf (s.board.selectedProfile != s.board.previousProfile) d
  forLoop 0 4 (diffProfile s) d

/-- `guiWindow::DiffUpdate`: recomputes `settingsDiff` and enables the confirm
button exactly when it is non-zero. -/
def DiffUpdate (s : State) : State :=
  { s with settingsDiff := diffCount s, confirmEnabled := diffCount s != 0 }

/-- `guiWindow::SyncSettings`. -/
def SyncSettings (s : State) : State :=
  let s := forLoop 0 8 (fun i s =>
    { s with boolSettings_orig := arrSet s.boolSettings_orig (Fin.ofNat i) (s.boolSettings (Fin.ofNat i)) }) s
  let s := if s.boolSettings_orig customPins then
      { s with inputsMap_orig := s.inputsMap }
    else
      forLoop 0 INPUTS_COUNT (fun i s =>
        { s with inputsMap_orig := s.inputsMap_orig.set (u8 i) (i8 (-1)) }) s
  let s := forLoop 0 8 (fun i s =>
    { s with settingsTable_orig := arrSet s.settingsTable_orig (Fin.ofNat i) (s.settingsTable (Fin.ofNat i)) }) s
  let s := { s with tinyUSBtable_orig := { s.tinyUSBtable_orig with tinyUSBid := s.tinyUSBtable.tinyUSBid } }
  let s := { s with tinyUSBtable_orig := { s.tinyUSBtable_orig with tinyUSBname := s.tinyUSBtable.tinyUSBname } }
  let s := { s with board := { s.board with previousProfile := s.board.selectedProfile } }
  forLoop 0 4 (fun i s =>
    let s := { s with profilesTable_orig := arrSet s.profilesTable_orig (Fin.ofNat i) { (s.profilesTable_orig (Fin.ofNat i)) with irSensitivity := (s.profilesTable (Fin.ofNat i)).irSensitivity } }
    { s with profilesTable_orig := arrSet s.profilesTable_orig (Fin.ofNat i) { (s.profilesTable_orig (Fin.ofNat i)) with runMode := (s.profilesTable (Fin.ofNat i)).runMode } }) s

/-! ## Serial transport -/

/-- The `QSerialPort` as the program sees it. `inbuf` holds the lines that
have arrived and are not read yet; `sent` is everything written, oldest
first. The device and the link are a script: `arrivals` lists the outcome of
each coming `waitForReadyRead` (`none`: the wait times out; `some ls`: the
lines `ls` arrive), `writeAcks` the outcome of each coming
`waitForBytesWritten`. An exhausted script means silence. -/
structure SerialPort where
  isOpen : Bool
  inbuf : List String
  sent : List String
  arrivals : List (Option (List String))
  writeAcks : List Bool

/-- `serialPort.write(cmd)`. -/
def SerialPort.write (p : SerialPort) (cmd : String) : SerialPort :=
  { p with sent := p.sent ++ [cmd] }

/-- `serialPort.waitForBytesWritten(ms)`. -/
def SerialPort.waitForBytesWritten (p : SerialPort) : Bool × SerialPort :=
  (p.writeAcks.headD false, { p with writeAcks := p.writeAcks.tail })

/-- `serialPort.readLine()`: the oldest unread line, empty when there is none. -/
def SerialPort.readLine (p : SerialPort) : String × SerialPort :=
  (p.inbuf.headD "", { p with inbuf := p.inbuf.tail })

/-- `serialPort.atEnd()`. -/
def SerialPort.atEnd (p : SerialPort) : Bool := p.inbuf.isEmpty

/-- `serialPort.readAll()`. -/
def SerialPort.readAll (p : SerialPort) : SerialPort := { p with inbuf := [] }

/-- The loop `while(!serialPort.atEnd()) serialPort.readLine();`. -/
def SerialPort.drain (p : SerialPort) : SerialPort := { p with inbuf := [] }

/-- `guiWindow::serialPort_readyRead` while `serialActive` is set: nothing is
interpreted; in test mode the slot still takes one line for the overlay. -/
def readyReadBusy (testMode : Bool) (p : SerialPort) : SerialPort :=
  if testMode then p.readLine.2 else p

/-- `serialPort.waitForReadyRead(ms)` issued while `serialActive` is set. When
data arrives Qt emits `readyRead` before returning, which runs the slot. -/
def SerialPort.waitForReadyRead (p : SerialPort) (testMode : Bool) : Bool × SerialPort :=
  match p.arrivals with
  | [] => (false, p)
  | none :: rest => (false, { p with arrivals := rest })
  | some ls :: rest =>
    (true, readyReadBusy testMode { p with inbuf := p.inbuf ++ ls, arrivals := rest })

/-! ## Commit sequence -/

/-- The text `QString::arg` substitutes for a `bool`. -/
def boolText (b : Bool) : String := if b then "1" else "0"

/-- The queue `serialQueue` that `on_confirmButton_clicked` builds. -/
def buildQueue (s : State) : List String :=
  let q : List String := []
  let q := forLoop 1 8 (fun i q =>
    q ++ ["Xm.0." ++ toString (i - 1) ++ "." ++ boolText (s.boolSettings (Fin.ofNat i))]) q
  let q := if s.boolSettings customPins then
      let q := q ++ ["Xm.1.0.1"]
      forLoop 0 INPUTS_COUNT (fun i q =>
        q ++ ["Xm.1." ++ toString (i + 1) ++ "." ++ toString (s.inputsMap.value (u8 i)).val]) q
    else q ++ ["Xm.1.0.0"]
  let q := forLoop 0 8 (fun i q =>
    q ++ ["Xm.2." ++ toString i ++ "." ++ toString (s.settingsTable (Fin.ofNat i))]) q
  let q := q ++ ["Xm.3.0." ++ s.tinyUSBtable.tinyUSBid]
  let q := if !s.tinyUSBtable.tinyUSBname.isEmpty then
      q ++ ["Xm.3.1." ++ s.tinyUSBtable.tinyUSBname] else q
  let q := forLoop 0 4 (fun i q =>
    let q := q ++ ["Xm.P.i." ++ toString i ++ "." ++ toString (s.profilesTable (Fin.ofNat i)).irSensitivity]
    q ++ ["Xm.P.r." ++ toString i ++ "." ++ toString (s.profilesTable (Fin.ofNat i)).runMode]) q
  q ++ ["XS"]

/-- The acknowledgement loop of `on_confirmButton_clicked`, from index `i` on:
`todo` is `serialQueue` from `i`, `len` is `serialQueue.length()`, `success`
the flag. The result is the final flag and port. The counter is `uint8_t` in
the source; the queue has at most 52 entries. -/
def commitLoop (testMode : Bool) (len : Nat) :
    Nat → List String → Bool → SerialPort → Bool × SerialPort
  | _, [], success, p => (success, p)
  | i, cmd :: rest, success, p =>
    let p := p.write cmd
    let p := p.waitForBytesWritten.2
    match p.waitForReadyRead testMode with
    | (true, p) =>
      let buffer := p.readLine.1
      let p := p.readLine.2
      if contains buffer "OK:" || contains buffer "NOENT:" then
        commitLoop testMode len (i + 1) rest success p
      else if ((i : Int) == (len : Int) - 1) && contains buffer "Saving preferences..." then
        let buffer := p.readLine.1
        let p := p.readLine.2
        if contains buffer "Settings saved to" then
          commitLoop testMode len (i + 1) rest true p.drain
        else
          commitLoop testMode len (i + 1) rest success p
      else
        (false, p)
    | (false, p) => commitLoop testMode len (i + 1) rest success p

/-- `guiWindow::on_confirmButton_clicked`; `yes` is the answer to the
confirmation box. -/
def on_confirmButton_clicked (s : State) (p : SerialPort) (yes : Bool) : State × SerialPort :=
  if yes then
    if p.isOpen then
      let s := { s with serialActive := true }
      let p := p.write "Xm"
      let p := p.waitForBytesWritten.2
      let s := { s with confirmEnabled := false }
      let serialQueue := buildQueue s
      let success := true
      let p := p.drain
      let r := commitLoop s.testMode serialQueue.length 0 serialQueue success p
      let success := r.1
      let p := r.2
      let s := if !success then s else DiffUpdate (SyncSettings s)
      let s := { s with serialActive := false }
      let p := if !p.atEnd then p.readAll else p
      (s, p)
    else (s, p)
  else (s, p)

/-! ## Editing handlers -/

/-- The boolean toggle slots (`on_rumbleToggle_stateChanged` and its
siblings for solenoid, autofire and hold-to-pause): `boolSettings[flag] = arg1;
DiffUpdate();`. The index `flag` is an enumerator of `constants.h`. -/
def on_toggle_stateChanged (flag : Fin 8) (s : State) (arg1 : Int) : State :=
  DiffUpdate { s with boolSettings := arrSet s.boolSettings flag (toBool arg1) }

/-- `guiWindow::pinBoxes_activated(index)`; `pin` is the position of the
sending box in `pinBoxes`, found by the search that opens the function. -/
def pinBoxes_activated (s : State) (pin : U8) (index : Int) : State :=
  let s :=
    if index == 0 then
      let s := { s with inputsMap := s.inputsMap.set (u8 ((s.currentPins.value pin).val - 1)) (i8 (-1)) }
      { s with currentPins := s.currentPins.set pin (i8 btnUnmapped) }
    else if s.pinBoxesOldIndex pin != index then
      let btnRequest : I8 := i8 (index - 1)
      let s := { s with inputsMap := s.inputsMap.set (u8 btnRequest.val) (i8 (-1)) }
      let s := if (s.currentPins.value pin).val > 0 then
          { s with inputsMap := s.inputsMap.set (u8 ((s.currentPins.value pin).val - 1)) (i8 (-1)) }
        else s
      let foundList := s.currentPins.keys (i8 index)
      let s := foundList.foldl (fun s k =>
        let s := { s with currentPins := s.currentPins.set k (i8 btnUnmapped) }
        { s with pinBoxesOldIndex := Function.update s.pinBoxesOldIndex k btnUnmapped }) s
      let s := { s with currentPins := s.currentPins.set pin (i8 index) }
      { s with inputsMap := s.inputsMap.set (u8 btnRequest.val) (i8 pin.toInt) }
    else s
  let s := { s with pinBoxesOldIndex := Function.update s.pinBoxesOldIndex pin index }
  DiffUpdate s

/-- The pin map as the constructor leaves it: inputs 0..24 unmapped. -/
def unmappedPins : QMap := forLoop 0 INPUTS_COUNT (fun i m => m.set (u8 i) (i8 (-1))) QMap.empty

/-- The pin tables as the constructor of `guiWindow` leaves them: entries
0..24 of `inputsMap` unmapped and `currentPins` without a key. -/
def AllUnmapped (s : State) : Prop :=
  s.inputsMap = unmappedPins ∧ s.currentPins = QMap.empty

/-- States reached from `s0` by calls of `pinBoxes_activated`. -/
inductive PinReachable (s0 : State) : State → Prop where
  | start : PinReachable s0 s0
  | step (s : State) (pin : U8) (index : Int) :
      PinReachable s0 s → PinReachable s0 (pinBoxes_activated s pin index)

/-! ## Text of the wire protocol (Qt string functions) -/

/-- `QChar::isSpace` on the ASCII characters of the wire protocol: the blank
and the control characters 9 to 13. -/
def isSpace (c : Char) : Bool := c == ' ' || (9 ≤ c.toNat && c.toNat ≤ 13)

/-- `QString::trimmed()`: white space removed at both ends. -/
def trimmed (s : String) : String :=
  String.mk ((s.toList.dropWhile isSpace).reverse.dropWhile isSpace).reverse

/-- `QString::right(n)`: the `n` rightmost characters, the whole string when
it is shorter. -/
def right (s : String) (n : Nat) : String :=
  String.mk (s.toList.drop (s.toList.length - n))

/-- The value of a run of decimal digits, `none` when another character
occurs. -/
def digitsValue : List Char → Nat → Option Nat
  | [], acc => some acc
  | c :: cs, acc =>
    if 48 ≤ c.toNat && c.toNat ≤ 57 then digitsValue cs (acc * 10 + (c.toNat - 48)) else none

/-- `QString::toInt()`: surrounding white space is ignored, an optional sign
and decimal digits are read; the result is 0 when the conversion fails or the
value does not fit an `int`. -/
def toInt (s : String) : Int :=
  match (trimmed s).toList with
  | [] => 0
  | '-' :: ds =>
    if ds.isEmpty then 0
    else match digitsValue ds 0 with
      | some n => if n ≤ 2147483648 then -(n : Int) else 0
      | none => 0
  | '+' :: ds =>
    if ds.isEmpty then 0
    else match digitsValue ds 0 with
      | some n => if n ≤ 2147483647 then (n : Int) else 0
      | none => 0
  | ds =>
    match digitsValue ds 0 with
    | some n => if n ≤ 2147483647 then (n : Int) else 0
    | none => 0

/-! ## Handshake and load sequence -/

/-- One pass of the boolean loop of `SerialLoad`. -/
def loadBoolean (i : Nat) (sp : State × SerialPort) : State × SerialPort :=
  let buffer := trimmed sp.2.readLine.1
  let p := sp.2.readLine.2
  let s := { sp.1 with boolSettings := arrSet sp.1.boolSettings (Fin.ofNat i) (toBool (toInt buffer)) }
  let s := { s with boolSettings_orig := arrSet s.boolSettings_orig (Fin.ofNat i) (s.boolSettings (Fin.ofNat i)) }
  (s, p)

/-- The boolean phase of `SerialLoad`: `for(i = 1; i < sizeof(boolSettings); i++)`. -/
def loadBooleans (sp : State × SerialPort) : State × SerialPort :=
  forLoop 1 8 loadBoolean sp

/-- The start of the pin phase of `SerialLoad`: the request `Xlp` and the line
holding the custom-pins flag. -/
def loadPinFlag (sp : State × SerialPort) : State × SerialPort :=
  let p := sp.2.write "Xlp"
  let p := (p.waitForReadyRead sp.1.testMode).2
  let buffer := trimmed p.readLine.1
  let p := p.readLine.2
  let s := { sp.1 with boolSettings := arrSet sp.1.boolSettings customPins (toBool (toInt buffer)) }
  let s := { s with boolSettings_orig := arrSet s.boolSettings_orig customPins (s.boolSettings customPins) }
  (s, p)

/-- The keep-alive of the pin loops: `if(i == 14) { write("."); waitForReadyRead(1000); }`. -/
def pinPing (testMode : Bool) (i : Nat) (p : SerialPort) : SerialPort :=
  if i == 14 then ((p.write ".").waitForReadyRead testMode).2 else p

/-- One pass of the pin loop of `SerialLoad` with custom pins on. -/
def loadPinOn (testMode : Bool) (i : Nat) (sp : State × SerialPort) : State × SerialPort :=
  let buffer := sp.2.readLine.1
  let p := sp.2.readLine.2
  let s := { sp.1 with inputsMap_orig := sp.1.inputsMap_orig.set (u8 i) (i8 (toInt buffer)) }
  (s, pinPing testMode i p)

/-- One pass of the pin loop of `SerialLoad` with custom pins off. -/
def loadPinOff (testMode : Bool) (i : Nat) (sp : State × SerialPort) : State × SerialPort :=
  let p := sp.2.readLine.2
  let s := { sp.1 with inputsMap := sp.1.inputsMap.set (u8 i) (i8 (-1)) }
  let s := { s with inputsMap_orig := s.inputsMap_orig.set (u8 i) (i8 (-1)) }
  (s, pinPing testMode i p)

/-- The pin lines of `SerialLoad`, after the flag line: the branch on
`boolSettings[customPins]` with its two loops. -/
def loadPinLines (sp : State × SerialPort) : State × SerialPort :=
  if sp.1.boolSettings customPins then
    let r := forLoop 0 INPUTS_COUNT (loadPinOn sp.1.testMode) sp
    ({ r.1 with inputsMap := r.1.inputsMap_orig }, r.2)
  else
    forLoop 0 INPUTS_COUNT (loadPinOff sp.1.testMode) sp

/-- One pass of the tunables loop of `SerialLoad`. -/
def loadTunable (i : Nat) (sp : State × SerialPort) : State × SerialPort :=
  let buffer := trimmed sp.2.readLine.1
  let p := sp.2.readLine.2
  let s := { sp.1 with settingsTable := arrSet sp.1.settingsTable (Fin.ofNat i) (u16 (toInt buffer)) }
  let s := { s with settingsTable_orig := arrSet s.settingsTable_orig (Fin.ofNat i) (s.settingsTable (Fin.ofNat i)) }
  (s, p)

/-- The tunables phase of `SerialLoad`: the request `Xls` and eight lines. -/
def loadTunables (sp : State × SerialPort) : State × SerialPort :=
  let p := sp.2.write "Xls"
  let p := p.waitForBytesWritten.2
  let p := (p.waitForReadyRead sp.1.testMode).2
  forLoop 0 8 loadTunable (sp.1, p)

/-- One pass of the profile loop of `SerialLoad`: the request `XlP<i>` and six
lines, each stored in the working record and copied to the synced one. -/
def loadProfile (i : Nat) (sp : State × SerialPort) : State × SerialPort :=
  let s := sp.1
  let p := sp.2.write ("XlP" ++ toString i)
  let p := p.waitForBytesWritten.2
  let p := (p.waitForReadyRead s.testMode).2
  let buffer := trimmed p.readLine.1
  let p := p.readLine.2
  let s := { s with profilesTable := arrSet s.profilesTable (Fin.ofNat i) { (s.profilesTable (Fin.ofNat i)) with xScale := toInt buffer } }
  let s := { s with profilesTable_orig := arrSet s.profilesTable_orig (Fin.ofNat i) { (s.profilesTable_orig (Fin.ofNat i)) with xScale := (s.profilesTable (Fin.ofNat i)).xScale } }
  let buffer := trimmed p.readLine.1
  let p := p.readLine.2
  let s := { s with profilesTable := arrSet s.profilesTable (Fin.ofNat i) { (s.profilesTable (Fin.ofNat i)) with yScale := toInt buffer } }
  let s := { s with profilesTable_orig := arrSet s.profilesTable_orig (Fin.ofNat i) { (s.profilesTable_orig (Fin.ofNat i)) with yScale := (s.profilesTable (Fin.ofNat i)).yScale } }
  let buffer := trimmed p.readLine.1
  let p := p.readLine.2
  let s := { s with profilesTable := arrSet s.profilesTable (Fin.ofNat i) { (s.profilesTable (Fin.ofNat i)) with xCenter := toInt buffer } }
  let s := { s with profilesTable_orig := arrSet s.profilesTable_orig (Fin.ofNat i) { (s.profilesTable_orig (Fin.ofNat i)) with xCenter := (s.profilesTable (Fin.ofNat i)).xCenter } }
  let buffer := trimmed p.readLine.1
  let p := p.readLine.2
  let s := { s with profilesTable := arrSet s.profilesTable (Fin.ofNat i) { (s.profilesTable (Fin.ofNat i)) with yCenter := toInt buffer } }
  let s := { s with profilesTable_orig := arrSet s.profilesTable_orig (Fin.ofNat i) { (s.profilesTable_orig (Fin.ofNat i)) with yCenter := (s.profilesTable (Fin.ofNat i)).yCenter } }
  let buffer := trimmed p.readLine.1
  let p := p.readLine.2
  let s := { s with profilesTable := arrSet s.profilesTable (Fin.ofNat i) { (s.profilesTable (Fin.ofNat i)) with irSensitivity := toInt buffer } }
  let s := { s with profilesTable_orig := arrSet s.profilesTable_orig (Fin.ofNat i) { (s.profilesTable_orig (Fin.ofNat i)) with irSensitivity := (s.profilesTable (Fin.ofNat i)).irSensitivity } }
  let s := { s with irSensOldIndex := arrSet s.irSensOldIndex (Fin.ofNat i) (u8 (s.profilesTable (Fin.ofNat i)).irSensitivity).val }
  let buffer := trimmed p.readLine.1
  let p := p.readLine.2
  let s := { s with profilesTable := arrSet s.profilesTable (Fin.ofNat i) { (s.profilesTable (Fin.ofNat i)) with runMode := toInt buffer } }
  let s := { s with profilesTable_orig := arrSet s.profilesTable_orig (Fin.ofNat i) { (s.profilesTable_orig (Fin.ofNat i)) with runMode := (s.profilesTable (Fin.ofNat i)).runMode } }
  let s := { s with runModeOldIndex := arrSet s.runModeOldIndex (Fin.ofNat i) (u8 (s.profilesTable (Fin.ofNat i)).runMode).val }
  (s, p)

/-- The profile phase of `SerialLoad`. -/
def loadProfiles (sp : State × SerialPort) : State × SerialPort :=
  forLoop 0 4 loadProfile sp

/-- The state and port of `SerialLoad` at its sentinel check: after the
boolean phase and the pin phase; `p` is the port on which the first reply
has arrived. -/
def loadToSentinel (s : State) (p : SerialPort) : State × SerialPort :=
  loadPinLines (loadPinFlag (loadBooleans (s, p)))

/-- `guiWindow::SerialLoad`. Messages to the operator are left out. -/
def SerialLoad (s : State) (p : SerialPort) : State × SerialPort :=
  let s := { s with serialActive := true }
  let p := p.write "Xlb"
  let w := p.waitForBytesWritten
  if w.1 then
    let r := w.2.waitForReadyRead s.testMode
    if r.1 then
      let sp := loadToSentinel s r.2
      let buffer := trimmed sp.2.readLine.1
      let p := sp.2.readLine.2
      if buffer != "-127" then
        (sp.1, p)
      else
        let sp := loadProfiles (loadTunables (sp.1, p))
        ({ sp.1 with serialActive := false }, sp.2)
    else (s, r.2)
  else (s, w.2)

/-- The board type named by the token of the probe reply. -/
def boardTypeOf (buffer : String) : BoardType :=
  if buffer == "rpipico" then BoardType.rpipico
  else if buffer == "adafruitItsyRP2040" then BoardType.adafruitItsyRP2040
  else if buffer == "adafruitKB2040" then BoardType.adafruitKB2040
  else if buffer == "arduinoNanoRP2040" then BoardType.arduinoNanoRP2040
  else BoardType.generic

/-- `guiWindow::SerialInit`; `openOk` is the outcome of `serialPort.open`. The
result is the returned flag, the state and the port. The check mark put on
the radio button of the selected profile and the messages are left out. -/
def SerialInit (s : State) (p : SerialPort) (openOk : Bool) : Bool × State × SerialPort :=
  if openOk then
    let p := { p with isOpen := true }
    let s := { s with serialActive := true }
    let p := p.write "XP"
    let w := p.waitForBytesWritten
    if w.1 then
      let r := w.2.waitForReadyRead s.testMode
      if r.1 then
        let p := r.2.readLine.2
        let p := p.readLine.2
        let buffer := p.readLine.1
        let p := p.readLine.2
        let s := { s with board := { s.board with versionCodename := trimmed buffer } }
        let buffer := trimmed p.readLine.1
        let p := p.readLine.2
        let s := { s with board := { s.board with type := boardTypeOf buffer } }
        let buffer := trimmed p.readLine.1
        let p := p.readLine.2
        let s := { s with board := { s.board with selectedProfile := u8 (toInt buffer) } }
        let s := { s with board := { s.board with previousProfile := s.board.selectedProfile } }
        let p := p.write "Xln"
        let p := (p.waitForReadyRead s.testMode).2
        let buffer := p.readLine.1
        let p := p.readLine.2
        let s := if trimmed buffer == "SERIALREADERR01" then
            { s with tinyUSBtable := { s.tinyUSBtable with tinyUSBname := "" } }
          else { s with tinyUSBtable := { s.tinyUSBtable with tinyUSBname := trimmed buffer } }
        let s := { s with tinyUSBtable_orig := { s.tinyUSBtable_orig with tinyUSBname := s.tinyUSBtable.tinyUSBname } }
        let p := p.write "Xli"
        let p := (p.waitForReadyRead s.testMode).2
        let buffer := p.readLine.1
        let p := p.readLine.2
        let s := { s with tinyUSBtable := { s.tinyUSBtable with tinyUSBid := trimmed buffer } }
        let s := { s with tinyUSBtable_orig := { s.tinyUSBtable_orig with tinyUSBid := s.tinyUSBtable.tinyUSBid } }
        let r := SerialLoad s p
        (true, r.1, r.2)
      else (true, s, r.2)
    else (false, s, w.2)
  else (false, s, p)

/-! ## Further editing handlers and the status feed -/

/-- The tunable slots (`on_rumbleIntensityBox_valueChanged` and its six
siblings): `settingsTable[slot] = arg1; DiffUpdate();`. The index `slot` is an
enumerator of `constants.h`. -/
def on_box_valueChanged (slot : Fin 8) (s : State) (arg1 : Int) : State :=
  DiffUpdate { s with settingsTable := arrSet s.settingsTable slot (u16 arg1) }

/-- `guiWindow::on_nunChuckToggle_stateChanged`; `nunChuck` is an enumerator
of `constants.h`, `Qt::Checked` is 2. -/
def on_nunChuckToggle_stateChanged (nunChuck : Fin 8) (s : State) (p : SerialPort)
    (arg1 : Int) : State × SerialPort :=
  let s := { s with boolSettings := arrSet s.boolSettings nunChuck (toBool arg1) }
  let p := p.write (if arg1 == 2 then "NUNCHUCK\n" else "JOYSTICK\n")
  (DiffUpdate s, p)

/-- `guiWindow::irBoxes_activated(index)`; `slot` is the position of the
sending box in `irSens`. -/
def irBoxes_activated (s : State) (slot : Fin 4) (index : Int) : State :=
  let s := if index != (s.irSensOldIndex slot : Int) then
      { s with profilesTable := arrSet s.profilesTable slot { (s.profilesTable slot) with irSensitivity := index } }
    else s
  let s := { s with irSensOldIndex := arrSet s.irSensOldIndex slot (u8 index).val }
  DiffUpdate s

/-- `guiWindow::runModeBoxes_activated(index)`; `slot` is the position of the
sending box in `runMode`. -/
def runModeBoxes_activated (s : State) (slot : Fin 4) (index : Int) : State :=
  let s := if index != (s.runModeOldIndex slot : Int) then
      { s with profilesTable := arrSet s.profilesTable slot { (s.profilesTable slot) with runMode := index } }
    else s
  let s := { s with runModeOldIndex := arrSet s.runModeOldIndex slot (u8 index).val }
  DiffUpdate s

/-- `guiWindow::selectedProfile_isChecked(isChecked)`; `slot` is the position
of the sending radio button in `selectedProfile`. -/
def selectedProfile_isChecked (s : State) (p : SerialPort) (slot : Fin 4) (isChecked : Bool) :
    State × SerialPort :=
  if isChecked && !s.serialActive then
    if u8 slot.val != s.board.selectedProfile then
      let p := p.write ("XC" ++ toString (slot.val + 1))
      let s := { s with board := { s.board with selectedProfile := u8 slot.val } }
      (DiffUpdate s, p)
    else (s, p)
  else (s, p)

/-- One pass of the idle loop of `serialPort_readyRead` on the line
`idleBuffer` just read. Pictures and labels are left out, so the button
events change nothing here. An `UpdatedProf` event naming a profile outside
0..3 indexes `profilesTable` out of range: the result is `none`. Checking the
radio button of another profile emits `toggled`, which runs
`selectedProfile_isChecked`; in the `Profile:` branch that slot finds the
selection already stored and does nothing. -/
def statusEvent (s : State) (p : SerialPort) (idleBuffer : String) : Option (State × SerialPort) :=
  if contains idleBuffer "Pressed:" then some (s, p)
  else if contains idleBuffer "Released:" then some (s, p)
  else if contains idleBuffer "Profile: " then
    let selection := u8 (toInt (trimmed (right idleBuffer 3)))
    let s := if selection != s.board.selectedProfile then
        { s with board := { s.board with selectedProfile := selection } }
      else s
    some (DiffUpdate s, p)
  else if contains idleBuffer "UpdatedProf: " then
    let selection := u8 (toInt (trimmed (right idleBuffer 3)))
    if h : selection.val < 4 then
      let slot : Fin 4 := ⟨selection.val, h⟩
      let sp := if selection != s.board.selectedProfile then
          selectedProfile_isChecked s p slot true
        else (s, p)
      let s := { sp.1 with board := { sp.1.board with selectedProfile := selection } }
      let p := sp.2
      let s := { s with profilesTable := arrSet s.profilesTable slot { (s.profilesTable slot) with xScale := toInt (trimmed p.readLine.1) } }
      let p := p.readLine.2
      let s := { s with profilesTable := arrSet s.profilesTable slot { (s.profilesTable slot) with yScale := toInt (trimmed p.readLine.1) } }
      let p := p.readLine.2
      let s := { s with profilesTable := arrSet s.profilesTable slot { (s.profilesTable slot) with xCenter := toInt (trimmed p.readLine.1) } }
      let p := p.readLine.2
      let s := { s with profilesTable := arrSet s.profilesTable slot { (s.profilesTable slot) with yCenter := toInt (trimmed p.readLine.1) } }
      let p := p.readLine.2
      some (DiffUpdate s, p)
    else none
  else some (s, p)

/-- The loop `while(!serialPort.atEnd())` of `serialPort_readyRead`; every
pass takes at least one line, so `fuel` = number of buffered lines ends it. -/
def idleLoop : Nat → State → SerialPort → Option (State × SerialPort)
  | 0, s, p => some (s, p)
  | fuel + 1, s, p =>
    if p.atEnd then some (s, p)
    else
      match statusEvent s p.readLine.2 p.readLine.1 with
      | some sp => idleLoop fuel sp.1 sp.2
      | none => none

/-- `guiWindow::serialPort_readyRead`. The drawing of the test overlay is left
out: in test mode the slot only takes the line. -/
def serialPort_readyRead (s : State) (p : SerialPort) : Option (State × SerialPort) :=
  if !s.serialActive then idleLoop p.inbuf.length s p
  else if s.testMode then some (s, p.readLine.2)
  else some (s, p)

/-! ## Port discovery -/

/-- The part of `QSerialPortInfo` that `PortsSearch` reads. -/
structure QSerialPortInfo where
  vendorIdentifier : Nat
  productIdentifier : Nat
  systemLocation : String
  deriving DecidableEq, Repr

/-- The table `piggieMap` of `PortsSearch`: the recognised vendor/product
pairs and their display names. -/
def piggieMap : List ((Nat × Nat) × String) :=
  [((0x0321, 0x0420), "Piggie 1"), ((0x0322, 0x0421), "Piggie 2"),
   ((0x0323, 0x0422), "Piggie 3"), ((0x0324, 0x0423), "Piggie 4")]

/-- `QString::remove(str)` on lists of characters: every occurrence of `t` is
taken out, scanning from the left; `skip` counts the characters of a found
occurrence that are still to drop. -/
def removeChars (t : List Char) : Nat → List Char → List Char
  | _, [] => []
  | skip + 1, _ :: cs => removeChars t skip cs
  | 0, c :: cs =>
    if !t.isEmpty && t.isPrefixOf (c :: cs) then removeChars t (t.length - 1) cs
    else c :: removeChars t 0 cs

/-- `QString::remove(str)`. -/
def remove (s t : String) : String := String.mk (removeChars t.toList 0 s.toList)

/-- The loop of `PortsSearch` over `serialFoundList`: an entry is added to the
dropdown for each port whose vendor/product pair is in `piggieMap`. The
accumulator is the list of entries and `lightgunFound`. -/
def addPortItems (serialFoundList : List QSerialPortInfo) (acc : List String × Bool) :
    List String × Bool :=
  serialFoundList.foldl (fun acc portInfo =>
    let vidPid := (portInfo.vendorIdentifier, portInfo.productIdentifier)
    match piggieMap.lookup vidPid with
    | some displayName =>
      let cleanedLocation := remove portInfo.systemLocation "\\\\.\\"
      (acc.1 ++ [displayName ++ " (" ++ cleanedLocation ++ ")"], true)
    | none => acc) acc

/-- `guiWindow::PortsSearch`; `available` is what
`QSerialPortInfo::availablePorts()` returns and `items` are the entries of
`comPortSelector` before the call. The result is `serialFoundList` and the
entries after the call; the popups are left out. -/
def PortsSearch (available : List QSerialPortInfo) (items : List String) :
    List QSerialPortInfo × List String :=
  let serialFoundList := available
  let placeholderText := "Pick LightGun Here"
  let items := if items.headD "" != placeholderText then [placeholderText] else items
  let items := items.take 1
  if serialFoundList.isEmpty then
    (serialFoundList, items ++ ["Plug in LightGun"])
  else
    let r := addPortItems serialFoundList (items, false)
    let items := if !r.2 then r.1 ++ ["Plug in LightGun"] else r.1
    (serialFoundList, items)

/-- The statement `serialPort.setPort(serialFoundList[portNum])` that opens
`SerialInit(portNum)`: the port handed to the serial layer, none when the
index is outside the list. -/
def SerialInit_setPort (serialFoundList : List QSerialPortInfo) (portNum : Int) :
    Option QSerialPortInfo :=
  if 0 ≤ portNum then serialFoundList[portNum.toNat]? else none

/-- The port that `on_comPortSelector_currentIndexChanged(index)` opens: for
`index > 0` it calls `SerialInit(index - 1)`. -/
def on_comPortSelector_currentIndexChanged_port (serialFoundList : List QSerialPortInfo)
    (index : Int) : Option QSerialPortInfo :=
  if index > 0 then SerialInit_setPort serialFoundList (index - 1) else none

/-! ## Auxiliary definitions for the statements -/

/-- Number of `true` entries, as the sum of their indicators. -/
def tally : List Bool → Nat
  | [] => 0
  | c :: cs => c.toNat + tally cs

/-- The comparisons of `DiffUpdate` in source order. -/
def diffConds (s : State) : List Bool :=
  [s.boolSettings customPins && s.inputsMap_orig.ne s.inputsMap,
   s.boolSettings_orig 1 != s.boolSettings 1, s.boolSettings_orig 2 != s.boolSettings 2,
   s.boolSettings_orig 3 != s.boolSettings 3, s.boolSettings_orig 4 != s.boolSettings 4,
   s.boolSettings_orig 5 != s.boolSettings 5, s.boolSettings_orig 6 != s.boolSettings 6,
   s.boolSettings_orig 7 != s.boolSettings 7,
   s.settingsTable_orig 0 != s.settingsTable 0, s.settingsTable_orig 1 != s.settingsTable 1,
   s.settingsTable_orig 2 != s.settingsTable 2, s.settingsTable_orig 3 != s.settingsTable 3,
   s.settingsTable_orig 4 != s.settingsTable 4, s.settingsTable_orig 5 != s.settingsTable 5,
   s.settingsTable_orig 6 != s.settingsTable 6, s.settingsTable_orig 7 != s.settingsTable 7,
   s.tinyUSBtable_orig.tinyUSBid != s.tinyUSBtable.tinyUSBid,
   s.tinyUSBtable_orig.tinyUSBname != s.tinyUSBtable.tinyUSBname,
   s.board.selectedProfile != s.board.previousProfile,
   (s.profilesTable_orig 0).xScale != (s.profilesTable 0).xScale,
   (s.profilesTable_orig 0).yScale != (s.profilesTable 0).yScale,
   (s.profilesTable_orig 0).xCenter != (s.profilesTable 0).xCenter,
   (s.profilesTable_orig 0).yCenter != (s.profilesTable 0).yCenter,
   (s.profilesTable_orig 0).irSensitivity != (s.profilesTable 0).irSensitivity,
   (s.profilesTable_orig 0).runMode != (s.profilesTable 0).runMode,
   (s.profilesTable_orig 1).xScale != (s.profilesTable 1).xScale,
   (s.profilesTable_orig 1).yScale != (s.profilesTable 1).yScale,
   (s.profilesTable_orig 1).xCenter != (s.profilesTable 1).xCenter,
   (s.profilesTable_orig 1).yCenter != (s.profilesTable 1).yCenter,
   (s.profilesTable_orig 1).irSensitivity != (s.profilesTable 1).irSensitivity,
   (s.profilesTable_orig 1).runMode != (s.profilesTable 1).runMode,
   (s.profilesTable_orig 2).xScale != (s.profilesTable 2).xScale,
   (s.profilesTable_orig 2).yScale != (s.profilesTable 2).yScale,
   (s.profilesTable_orig 2).xCenter != (s.profilesTable 2).xCenter,
   (s.profilesTable_orig 2).yCenter != (s.profilesTable 2).yCenter,
   (s.profilesTable_orig 2).irSensitivity != (s.profilesTable 2).irSensitivity,
   (s.profilesTable_orig 2).runMode != (s.profilesTable 2).runMode,
   (s.profilesTable_orig 3).xScale != (s.profilesTable 3).xScale,
   (s.profilesTable_orig 3).yScale != (s.profilesTable 3).yScale,
   (s.profilesTable_orig 3).xCenter != (s.profilesTable 3).xCenter,
   (s.profilesTable_orig 3).yCenter != (s.profilesTable 3).yCenter,
   (s.profilesTable_orig 3).irSensitivity != (s.profilesTable 3).irSensitivity,
   (s.profilesTable_orig 3).runMode != (s.profilesTable 3).runMode]

/-- The synced pin map that `SyncSettings` leaves when custom pins are off. -/
def clearedPins (m : QMap) : QMap := fun k => if k.val < 25 then some (i8 (-1)) else m k

/-- A synced profile record after `SyncSettings`: the two editable fields
taken from the working record, the calibration fields kept. -/
def syncedProfile (o w : profilesTable_s) : profilesTable_s :=
  { o with irSensitivity := w.irSensitivity, runMode := w.runMode }

/-- The port on which the acknowledgement loop of `on_confirmButton_clicked`
starts: after the pause command and the flush. -/
def commitStart (p : SerialPort) : SerialPort := ((p.write "Xm").waitForBytesWritten.2).drain

/-- The result of the acknowledgement loop of `on_confirmButton_clicked`
(confirmed, port open): the final `success` flag and the port. -/
def commitRun (s : State) (p : SerialPort) : Bool × SerialPort :=
  commitLoop s.testMode (buildQueue s).length 0 (buildQueue s) true (commitStart p)

/-- A state as left by a load from a device with default settings and custom
pins off: every working copy equals its synced copy. -/
def loadedState : State where
  board := { type := BoardType.rpipico, versionCodename := "Heartful", selectedProfile := 0, previousProfile := 0 }
  tinyUSBtable := { tinyUSBid := "1", tinyUSBname := "Piggie" }
  tinyUSBtable_orig := { tinyUSBid := "1", tinyUSBname := "Piggie" }
  profilesTable := fun _ => { xScale := 0, yScale := 0, xCenter := 0, yCenter := 0, irSensitivity := 0, runMode := 0 }
  profilesTable_orig := fun _ => { xScale := 0, yScale := 0, xCenter := 0, yCenter := 0, irSensitivity := 0, runMode := 0 }
  currentPins := QMap.empty
  inputsMap := unmappedPins
  inputsMap_orig := unmappedPins
  settingsDiff := 0
  boolSettings := fun _ => false
  boolSettings_orig := fun _ => false
  settingsTable := fun _ => 0
  settingsTable_orig := fun _ => 0
  pinBoxesOldIndex := fun _ => 0
  irSensOldIndex := fun _ => 0
  runModeOldIndex := fun _ => 0
  serialActive := false
  testMode := false
  confirmEnabled := false

/-- The state `s` with the working record of profile `i` replaced by `r`. -/
def setProfile (s : State) (i : Fin 4) (r : profilesTable_s) : State :=
  { s with profilesTable := arrSet s.profilesTable i r }

/-- Number of the six fields in which a synced record `o` and a working
record `w` differ. -/
def profileDiffs (o w : profilesTable_s) : Nat :=
  tally [o.xScale != w.xScale, o.yScale != w.yScale, o.xCenter != w.xCenter,
    o.yCenter != w.yCenter, o.irSensitivity != w.irSensitivity, o.runMode != w.runMode]

/-- The loaded state after the device reported a calibration of profile 0
(an `UpdatedProf` event): only the working `xScale` changed, from 0 to 5. -/
def calibratedState : State :=
  setProfile loadedState 0 { (loadedState.profilesTable 0) with xScale := 5 }

/-- The state `calibratedState` (custom pins off) after Trigger (entry 1) was
chosen on pin 5. -/
def remappedState : State := pinBoxes_activated calibratedState 5 1

/-- The loaded state after the operator switched rumble (index 1) on. -/
def editedState : State :=
  { loadedState with boolSettings := arrSet loadedState.boolSettings 1 true }

/-- An open port on which the device acknowledges each of the 26 set commands
and confirms the save. -/
def ackPort : SerialPort where
  isOpen := true
  inbuf := []
  sent := []
  arrivals := List.replicate 26 (some ["OK: set"]) ++
    [some ["Saving preferences...", "Settings saved to flash"]]
  writeAcks := List.replicate 28 true

/-- An open port whose device rejects the first command. -/
def rejectPort : SerialPort where
  isOpen := true
  inbuf := []
  sent := []
  arrivals := [some ["Unknown command"]]
  writeAcks := List.replicate 28 true

/-- An open port whose device acknowledges the first command and rejects the
second. -/
def secondRejectPort : SerialPort where
  isOpen := true
  inbuf := []
  sent := []
  arrivals := [some ["OK: set"], some ["Unknown command"]]
  writeAcks := List.replicate 28 true

/-- The port `ackPort`, except that the reply to the fifth command never
arrives. -/
def timeoutPort : SerialPort :=
  { ackPort with arrivals := List.replicate 4 (some ["OK: set"]) ++ [none] ++
      List.replicate 21 (some ["OK: set"]) ++
      [some ["Saving preferences...", "Settings saved to flash"]] }

/-- The port `ackPort`, except that the save is announced and never confirmed. -/
def unsavedPort : SerialPort :=
  { ackPort with arrivals := List.replicate 26 (some ["OK: set"]) ++
      [some ["Saving preferences..."]] }

/-- The map `m` after the sweep of `pinBoxes_activated`: every key holding
`v` is set to unmapped. -/
def sweptPins (m : QMap) (v : I8) : QMap :=
  fun k => if m k = some v then some (i8 btnUnmapped) else m k

/-- The pin invariant of C8: a pin bound to a logical input is the value of
that input in `inputsMap`. -/
def PinInv (s : State) : Prop :=
  ∀ p : U8, p.val < 30 → (s.currentPins.value p).val ≠ btnUnmapped →
    (s.inputsMap.value (u8 ((s.currentPins.value p).val - 1))).val = p.toInt

/-- The inverse direction (C9): a logical input in 0..24 mapped to pin `p`
is the entry of `p` in `currentPins`. -/
def PinInverse (s : State) : Prop :=
  ∀ i : Nat, i < 25 → 0 ≤ (s.inputsMap.value (u8 i)).val →
    (s.currentPins.value (u8 (s.inputsMap.value (u8 i)).val)).val = (i : Int) + 1

/-- A loaded state of a device with custom pins on and no input mapped. -/
def customState : State :=
  { loadedState with
    boolSettings := arrSet loadedState.boolSettings customPins true
    boolSettings_orig := arrSet loadedState.boolSettings_orig customPins true }

/-- The state `customState` after Trigger (entry 1) was chosen on pin 5. -/
def triggerState : State := pinBoxes_activated customState 5 1

/-- The commit queue as C13 describes it: the seven boolean commands, the pin
group, the eight tunable commands, the identity commands, the two commands
of each profile, and the save command. -/
def specQueue (s : State) : List String :=
  (List.range' 1 7).map (fun (i : Nat) =>
      "Xm.0." ++ toString (i - 1) ++ "." ++ boolText (s.boolSettings (Fin.ofNat i)))
  ++ (if s.boolSettings customPins = true then
        "Xm.1.0.1" :: (List.range' 0 25).map (fun (i : Nat) =>
          "Xm.1." ++ toString (i + 1) ++ "." ++ toString (s.inputsMap.value (u8 i)).val)
      else ["Xm.1.0.0"])
  ++ (List.range' 0 8).map (fun (i : Nat) =>
      "Xm.2." ++ toString i ++ "." ++ toString (s.settingsTable (Fin.ofNat i)))
  ++ ["Xm.3.0." ++ s.tinyUSBtable.tinyUSBid]
  ++ (if s.tinyUSBtable.tinyUSBname.isEmpty = true then []
      else ["Xm.3.1." ++ s.tinyUSBtable.tinyUSBname])
  ++ ((List.range' 0 4).map (fun (i : Nat) =>
      ["Xm.P.i." ++ toString i ++ "." ++ toString (s.profilesTable (Fin.ofNat i)).irSensitivity,
       "Xm.P.r." ++ toString i ++ "." ++ toString (s.profilesTable (Fin.ofNat i)).runMode])).flatten
  ++ ["XS"]

/-- The state `s` with the working pin map `m` and the synced pin map `m'`. -/
def withMaps (s : State) (m m' : QMap) : State :=
  { s with inputsMap := m, inputsMap_orig := m' }

/-- The state `s` with the working custom-pins flag set to `b`. -/
def setFlag (s : State) (b : Bool) : State :=
  { s with boolSettings := arrSet s.boolSettings customPins b }

/-- The loaded state (custom pins off) after Trigger (entry 1) was chosen on
pin 5: the working pin map differs from the synced one. -/
def strayPinState : State := pinBoxes_activated loadedState 5 1

/-- Working copies equal to synced copies everywhere. -/
def Synced (s : State) : Prop :=
  s.boolSettings_orig = s.boolSettings ∧ s.settingsTable_orig = s.settingsTable ∧
  s.inputsMap_orig = s.inputsMap ∧ s.tinyUSBtable_orig = s.tinyUSBtable ∧
  s.profilesTable_orig = s.profilesTable ∧ s.board.previousProfile = s.board.selectedProfile

/-- The synced copies: the fields that load and a successful commit write. -/
def syncedCopies (s : State) :
    (Fin 8 → Bool) × (Fin 8 → Nat) × QMap × tinyUSBtable_s × (Fin 4 → profilesTable_s) × U8 :=
  (s.boolSettings_orig, s.settingsTable_orig, s.inputsMap_orig, s.tinyUSBtable_orig,
    s.profilesTable_orig, s.board.previousProfile)

/-- A port on which, while the program is idle, a button event, a profile
change and a calibration update of profile 1 have arrived. -/
def feedPort : SerialPort where
  isOpen := true
  inbuf := ["Pressed: 1\r\n", "Profile: 2\r\n", "UpdatedProf: 1\r\n", "512\r\n", "384\r\n",
    "1000\r\n", "800\r\n"]
  sent := []
  arrivals := []
  writeAcks := []

/-- The state with both copies of the boolean table blanked: what the boolean
phase and the flag line of a load leave alone. -/
def maskBools (s : State) : State :=
  { s with boolSettings := fun _ => false, boolSettings_orig := fun _ => false }

/-- The state with both pin maps blanked: what the pin lines of a load leave alone. -/
def maskPins (s : State) : State :=
  { s with inputsMap := QMap.empty, inputsMap_orig := QMap.empty }

/-- The state with both copies of the tunables table blanked. -/
def maskTunables (s : State) : State :=
  { s with settingsTable := fun _ => 0, settingsTable_orig := fun _ => 0 }

/-- The state with both copies of the profile records and the remembered
dropdown positions blanked. -/
def maskProfiles (s : State) : State :=
  { s with profilesTable := fun _ => ⟨0, 0, 0, 0, 0, 0⟩, profilesTable_orig := fun _ => ⟨0, 0, 0, 0, 0, 0⟩, irSensOldIndex := fun _ => 0, runModeOldIndex := fun _ => 0 }

/-- The port of a pin loop of `SerialLoad` after `n` passes from index `lo`:
each pass takes one line, and the pass of index 14 then pings. -/
def pinPort (tm : Bool) : Nat → Nat → SerialPort → SerialPort
  | _, 0, p => p
  | lo, n + 1, p => pinPort tm (lo + 1) n (pinPing tm lo p.readLine.2)

/-- The port of a pin loop of `SerialLoad` after its ping: fifteen lines have
been taken, `.` has been written and the wait for an answer is over. -/
def pinPingPort (tm : Bool) (p : SerialPort) : SerialPort :=
  pinPing tm 14 { p with inbuf := p.inbuf.drop 15 }

/-- The line that pass `i` of a pin loop reads, `p` being the port before the
first pass: one of the first fifteen unread lines, or a line unread at the end
of the ping. -/
def pinLine (tm : Bool) (p : SerialPort) (i : Nat) : String :=
  if i < 15 then p.inbuf.getD i "" else (pinPingPort tm p).inbuf.getD (i - 15) ""

/-- The lines that the next wait for data on the port brings in. -/
def nextArrival (p : SerialPort) : List String :=
  match p.arrivals with
  | some ls :: _ => ls
  | _ => []

/-- A port holding, unread, the 25 pin lines of a device (line `i` names pin
`i + 2`, the last two inputs are unmapped) and the sentinel; nothing arrives
at the ping. -/
def pinsPort : SerialPort where
  isOpen := true
  inbuf := (List.range 23).map (fun (i : Nat) => toString (i + 2) ++ "\r\n") ++
    ["-1\r\n", "-1\r\n", "-127\r\n"]
  sent := ["Xlb", "Xlp"]
  arrivals := [none]
  writeAcks := []

/-- The state and port of `SerialLoad s p` at its sentinel check, when the
request `Xlb` was written and answered in time. -/
def sentinelPoint (s : State) (p : SerialPort) : State × SerialPort :=
  loadToSentinel { s with serialActive := true }
    (((p.write "Xlb").waitForBytesWritten.2).waitForReadyRead s.testMode).2

/-- A port whose device answers `Xlb` with the seven booleans and `Xlp` with
the flag (off) and one line too few: 24 pin lines and then the sentinel, which
the pin loop takes as its last line. -/
def shortPort : SerialPort where
  isOpen := true
  inbuf := []
  sent := []
  arrivals := [some ["0\r\n", "1\r\n", "0\r\n", "0\r\n", "1\r\n", "0\r\n", "0\r\n"],
    some ("0\r\n" :: (List.replicate 24 "-1\r\n" ++ ["-127\r\n"])), none,
    some ["1\r\n", "2\r\n", "3\r\n", "4\r\n", "5\r\n", "6\r\n", "7\r\n", "8\r\n"]]
  writeAcks := [true, true]

/-- What a load that ran to its end leaves: every working copy equal to its
synced copy, the pin maps under the condition that custom pins are on. -/
def Loaded (s : State) : Prop :=
  s.boolSettings_orig = s.boolSettings ∧ s.settingsTable_orig = s.settingsTable ∧
  (s.boolSettings customPins = true → s.inputsMap_orig = s.inputsMap) ∧
  s.tinyUSBtable_orig = s.tinyUSBtable ∧ s.profilesTable_orig = s.profilesTable ∧
  s.board.previousProfile = s.board.selectedProfile

/-- A port that is still closed, with the script of a device that answers the
probe (selected profile 1, name `Piggie`, id 2), the four requests of the
load (custom pins on, the pin lines of `pinsPort`, the sentinel, eight
tunables, four profiles of six lines) and then acknowledges the 51 set
commands of a commit and confirms the save. -/
def devicePort : SerialPort where
  isOpen := false
  inbuf := []
  sent := []
  arrivals :=
    [some ["P.I.G.S\r\n", "2.0\r\n", "Heartful\r\n", "rpipico\r\n", "1\r\n"],
     some ["Piggie\r\n"], some ["2\r\n"],
     some ["1\r\n", "0\r\n", "1\r\n", "0\r\n", "0\r\n", "1\r\n", "0\r\n"],
     some ("1\r\n" :: pinsPort.inbuf), none,
     some ["3\r\n", "255\r\n", "150\r\n", "45\r\n", "2500\r\n", "1\r\n", "0\r\n", "6\r\n"],
     some ["500\r\n", "480\r\n", "2048\r\n", "1536\r\n", "1\r\n", "0\r\n"],
     some ["510\r\n", "470\r\n", "2000\r\n", "1500\r\n", "2\r\n", "1\r\n"],
     some ["0\r\n", "0\r\n", "0\r\n", "0\r\n", "0\r\n", "0\r\n"],
     some ["-3\r\n", "7\r\n", "12\r\n", "9\r\n", "0\r\n", "2\r\n"]] ++
    List.replicate 51 (some ["OK: set"]) ++
    [some ["Saving preferences...", "Settings saved to flash"]]
  writeAcks := List.replicate 64 true

/-- The loaded state while a command sequence is in flight: `serialActive` set. -/
def busyState : State := { loadedState with serialActive := true }

/-- A port on which the first request of a load is written and never answered. -/
def mutePort : SerialPort where
  isOpen := true
  inbuf := []
  sent := []
  arrivals := [none]
  writeAcks := [true]

/-- A port on which no write completes in time. -/
def stuckPort : SerialPort where
  isOpen := true
  inbuf := []
  sent := []
  arrivals := []
  writeAcks := [false]

/-- The port of `SerialInit` after the probe `XP` was written and waited for,
when the port opened. -/
def probePort (s : State) (p : SerialPort) : SerialPort :=
  (((({ p with isOpen := true } : SerialPort).write "XP").waitForBytesWritten.2).waitForReadyRead
    s.testMode).2

/-- Line `i` (from 0) of what is unread on the port once the reply to the
probe has arrived: 0 the banner, 1 the version, 2 the codename, 3 the board
token, 4 the selected profile. -/
def probeLine (s : State) (p : SerialPort) (i : Nat) : String :=
  (probePort s p).inbuf.getD i ""

/-- A port that opens and takes the probe, with a device that never answers. -/
def silentPort : SerialPort where
  isOpen := false
  inbuf := []
  sent := []
  arrivals := [none]
  writeAcks := [true]

/-- A port whose device answers the probe with the board token `tok` and the
selected profile `prof`, and nothing after that. -/
def tokenPort (tok prof : String) : SerialPort where
  isOpen := false
  inbuf := []
  sent := []
  arrivals := [some ["P.I.G.S\r\n", "2.0\r\n", "Heartful\r\n", tok ++ "\r\n", prof ++ "\r\n"]]
  writeAcks := [true]

/-- The state after an `UpdatedProf` event for profile `n` with payload
`x`, `y`, `cx`, `cy`, as C21 describes it: profile `n` selected, its four
calibration fields replaced, and the count recomputed. -/
def updatedProfState (s : State) (n : Fin 4) (x y cx cy : Int) : State :=
  DiffUpdate { s with
    board := { s.board with selectedProfile := u8 n.val }
    profilesTable := arrSet s.profilesTable n { (s.profilesTable n) with xScale := x, yScale := y, xCenter := cx, yCenter := cy } }

/-- The state after a `Profile` event naming `sel`, as C21 describes it: only
the selection changed, and the count recomputed. -/
def profileEventState (s : State) (sel : U8) : State :=
  DiffUpdate { s with board := { s.board with selectedProfile := sel } }

/-- A port holding the four payload lines of a calibration update. -/
def payloadPort : SerialPort where
  isOpen := true
  inbuf := ["512\r\n", "384\r\n", "1000\r\n", "800\r\n"]
  sent := []
  arrivals := []
  writeAcks := []

/-- The state with the stored count and the button state blanked. -/
def maskDiff (s : State) : State := { s with settingsDiff := 0, confirmEnabled := false }

/-- The state with the selected profile, the stored count and the button
state blanked: what `selectedProfile_isChecked` leaves alone. -/
def maskSelection (s : State) : State :=
  { s with board := { s.board with selectedProfile := 0 }, settingsDiff := 0, confirmEnabled := false }

/-- The second half of the `UpdatedProf` branch of `serialPort_readyRead`,
from `board.selectedProfile = selection;` on: the four payload lines. -/
def payloadStep (sp : State × SerialPort) (selection : U8) (slot : Fin 4) : State × SerialPort :=
  let s := { sp.1 with board := { sp.1.board with selectedProfile := selection } }
  let p := sp.2
  let s := { s with profilesTable := arrSet s.profilesTable slot { (s.profilesTable slot) with xScale := toInt (trimmed p.readLine.1) } }
  let p := p.readLine.2
  let s := { s with profilesTable := arrSet s.profilesTable slot { (s.profilesTable slot) with yScale := toInt (trimmed p.readLine.1) } }
  let p := p.readLine.2
  let s := { s with profilesTable := arrSet s.profilesTable slot { (s.profilesTable slot) with xCenter := toInt (trimmed p.readLine.1) } }
  let p := p.readLine.2
  let s := { s with profilesTable := arrSet s.profilesTable slot { (s.profilesTable slot) with yCenter := toInt (trimmed p.readLine.1) } }
  let p := p.readLine.2
  (DiffUpdate s, p)

/-- No field that `DiffUpdate` counts differs: the pin maps agree when custom
pins are on, and the booleans 1..7, the tunables, the identity strings, the
profile selection and the six fields of each profile agree. -/
def CountedEqual (s : State) : Prop :=
  (s.boolSettings customPins = true → s.inputsMap_orig = s.inputsMap) ∧
  (∀ i : Fin 8, i ≠ 0 → s.boolSettings_orig i = s.boolSettings i) ∧
  (∀ i : Fin 8, s.settingsTable_orig i = s.settingsTable i) ∧
  s.tinyUSBtable_orig.tinyUSBid = s.tinyUSBtable.tinyUSBid ∧
  s.tinyUSBtable_orig.tinyUSBname = s.tinyUSBtable.tinyUSBname ∧
  s.board.selectedProfile = s.board.previousProfile ∧
  (∀ i : Fin 4, s.profilesTable_orig i = s.profilesTable i)

/-- The comparisons of the calibration fields of the four profiles. -/
def calibConds (s : State) : List Bool :=
  [(s.profilesTable_orig 0).xScale != (s.profilesTable 0).xScale,
   (s.profilesTable_orig 0).yScale != (s.profilesTable 0).yScale,
   (s.profilesTable_orig 0).xCenter != (s.profilesTable 0).xCenter,
   (s.profilesTable_orig 0).yCenter != (s.profilesTable 0).yCenter,
   (s.profilesTable_orig 1).xScale != (s.profilesTable 1).xScale,
   (s.profilesTable_orig 1).yScale != (s.profilesTable 1).yScale,
   (s.profilesTable_orig 1).xCenter != (s.profilesTable 1).xCenter,
   (s.profilesTable_orig 1).yCenter != (s.profilesTable 1).yCenter,
   (s.profilesTable_orig 2).xScale != (s.profilesTable 2).xScale,
   (s.profilesTable_orig 2).yScale != (s.profilesTable 2).yScale,
   (s.profilesTable_orig 2).xCenter != (s.profilesTable 2).xCenter,
   (s.profilesTable_orig 2).yCenter != (s.profilesTable 2).yCenter,
   (s.profilesTable_orig 3).xScale != (s.profilesTable 3).xScale,
   (s.profilesTable_orig 3).yScale != (s.profilesTable 3).yScale,
   (s.profilesTable_orig 3).xCenter != (s.profilesTable 3).xCenter,
   (s.profilesTable_orig 3).yCenter != (s.profilesTable 3).yCenter]

/-- The working copies and the fields that are not settings: everything but
the synced copies. -/
def workingCopies (s : State) : State :=
  { s with
    boolSettings_orig := fun _ => false
    settingsTable_orig := fun _ => 0
    inputsMap_orig := QMap.empty
    tinyUSBtable_orig := ⟨"", ""⟩
    profilesTable_orig := fun _ => ⟨0, 0, 0, 0, 0, 0⟩
    board := { s.board with previousProfile := 0 } }

/-- The ports for which `PortsSearch` adds an entry, in the order of their
entries: the ports with a recognised vendor/product pair. -/
def shownPorts (available : List QSerialPortInfo) : List QSerialPortInfo :=
  available.filter (fun i => (piggieMap.lookup (i.vendorIdentifier, i.productIdentifier)).isSome)

/-- The text of the entry that `PortsSearch` adds for a recognised port. -/
def portLabel (i : QSerialPortInfo) : String :=
  (piggieMap.lookup (i.vendorIdentifier, i.productIdentifier)).getD "" ++ " (" ++
    remove i.systemLocation "\\\\.\\" ++ ")"

/-- Two discovered ports: a USB serial adapter on COM3 that is not a light
gun, and after it a recognised light gun on COM7. -/
def mixedPorts : List QSerialPortInfo :=
  [{ vendorIdentifier := 0x1A86, productIdentifier := 0x7523, systemLocation := "\\\\.\\COM3" },
   { vendorIdentifier := 0x0321, productIdentifier := 0x0420, systemLocation := "\\\\.\\COM7" }]

/-- A port on which, while the program is idle, a profile change and then a
calibration update naming profile 4 (the profiles are 0..3) have arrived. -/
def strayFeedPort : SerialPort where
  isOpen := true
  inbuf := ["Profile: 2\r\n", "UpdatedProf: 4\r\n", "512\r\n", "384\r\n", "1000\r\n", "800\r\n"]
  sent := []
  arrivals := []
  writeAcks := []

/-! ## Theorems -/

theorem tally_le (l : List Bool) : tally l ≤ l.length := by
  induction l with
  | nil => simp [tally]
  | cons c cs ih =>
    cases c <;> simp [tally] <;> omega

theorem foldl_bumpIf (l : List Bool) (d : Nat) (h : d + l.length ≤ 255) :
    l.foldl (fun d c => bumpIf c d) d = d + tally l := by
  induction l generalizing d with
  | nil => simp [tally]
  | cons c cs ih =>
    simp only [List.foldl_cons, List.length_cons] at h ⊢
    have hb : bumpIf c d = d + c.toNat := by
      cases c
      · simp [bumpIf]
      · simp only [bumpIf, bump, if_true, Bool.toNat_true]
        exact Nat.mod_eq_of_lt (by omega)
    rw [hb, ih _ (by cases c <;> simp <;> omega), tally]
    omega

theorem diffCount_fold (s : State) :
    diffCount s = (diffConds s).foldl (fun d c => bumpIf c d) 0 := by
  cases h : s.boolSettings customPins
  · simp only [diffCount, diffConds, h, forLoop, List.range', List.foldl, diffProfile]
    rfl
  · simp only [diffCount, diffConds, h, forLoop, List.range', List.foldl, diffProfile]
    rfl

theorem diffCount_eq (s : State) : diffCount s = tally (diffConds s) := by
  rw [diffCount_fold, foldl_bumpIf _ _ (by simp [diffConds])]
  simp

theorem arrSet_all8 {α : Type} (a b : Fin 8 → α) :
    arrSet (arrSet (arrSet (arrSet (arrSet (arrSet (arrSet (arrSet a 0 (b 0)) 1 (b 1)) 2 (b 2)) 3 (b 3)) 4 (b 4)) 5 (b 5)) 6 (b 6)) 7 (b 7) = b := by
  funext j
  fin_cases j <;> simp [arrSet]

theorem u8_natCast_val (n : Nat) (h : n < 256) : (u8 (n : Int)).val = n := by
  simp only [u8]
  omega

theorem u8_val (k : U8) : u8 (k.val : Int) = k := by
  apply Fin.ext
  exact u8_natCast_val k.val k.isLt

theorem eq_u8_natCast_iff (k : U8) (n : Nat) (h : n < 256) : k = u8 (n : Int) ↔ k.val = n := by
  constructor
  · intro hk; rw [hk]; exact u8_natCast_val n h
  · intro hk; apply Fin.ext; rw [u8_natCast_val n h]; exact hk

theorem foldl_set_range (v : I8) (n : Nat) : ∀ (lo : Nat) (m : QMap) (k : U8), lo + n ≤ 256 →
    (List.range' lo n).foldl (fun m (i : Nat) => QMap.set m (u8 (i : Int)) v) m k
      = if lo ≤ k.val ∧ k.val < lo + n then some v else m k := by
  induction n with
  | zero =>
    intro lo m k _
    simp only [List.range', List.foldl]
    rw [if_neg (by omega)]
  | succ n ih =>
    intro lo m k h
    simp only [List.range', List.foldl]
    rw [ih (lo + 1) _ k (by omega)]
    simp only [QMap.set, eq_u8_natCast_iff k lo (by omega)]
    split_ifs <;> first | rfl | (exfalso; omega)

theorem clearedPins_loop (m : QMap) :
    forLoop 0 INPUTS_COUNT (fun i m => QMap.set m (u8 i) (i8 (-1))) m = clearedPins m := by
  funext k
  simp only [forLoop, INPUTS_COUNT, clearedPins]
  rw [foldl_set_range (i8 (-1)) 25 0 m k (by omega)]
  simp

theorem sync_bools (s : State) :
    forLoop 0 8 (fun i s =>
      { s with boolSettings_orig := arrSet s.boolSettings_orig (Fin.ofNat i) (s.boolSettings (Fin.ofNat i)) }) s
    = { s with boolSettings_orig := s.boolSettings } := by
  simp only [forLoop, List.range', List.foldl]
  congr 1
  funext j
  fin_cases j <;> rfl

theorem sync_pins (s : State) :
    forLoop 0 INPUTS_COUNT (fun i s =>
        { s with inputsMap_orig := s.inputsMap_orig.set (u8 i) (i8 (-1)) }) s
    = { s with inputsMap_orig := clearedPins s.inputsMap_orig } := by
  rw [← clearedPins_loop]
  simp only [forLoop, INPUTS_COUNT, List.range', List.foldl]

theorem sync_tunables (s : State) :
    forLoop 0 8 (fun i s =>
      { s with settingsTable_orig := arrSet s.settingsTable_orig (Fin.ofNat i) (s.settingsTable (Fin.ofNat i)) }) s
    = { s with settingsTable_orig := s.settingsTable } := by
  simp only [forLoop, List.range', List.foldl]
  congr 1
  funext j
  fin_cases j <;> rfl

theorem sync_profiles (s : State) :
    forLoop 0 4 (fun i s =>
    let s := { s with profilesTable_orig := arrSet s.profilesTable_orig (Fin.ofNat i) { (s.profilesTable_orig (Fin.ofNat i)) with irSensitivity := (s.profilesTable (Fin.ofNat i)).irSensitivity } }
    { s with profilesTable_orig := arrSet s.profilesTable_orig (Fin.ofNat i) { (s.profilesTable_orig (Fin.ofNat i)) with runMode := (s.profilesTable (Fin.ofNat i)).runMode } }) s
    = { s with profilesTable_orig := fun i => syncedProfile (s.profilesTable_orig i) (s.profilesTable i) } := by
  simp only [forLoop, List.range', List.foldl]
  congr 1
  funext j
  fin_cases j <;> rfl

theorem SyncSettings_eq (s : State) : SyncSettings s =
    { s with
      boolSettings_orig := s.boolSettings
      inputsMap_orig := if s.boolSettings customPins then s.inputsMap
                        else clearedPins s.inputsMap_orig
      settingsTable_orig := s.settingsTable
      tinyUSBtable_orig := s.tinyUSBtable
      board := { s.board with previousProfile := s.board.selectedProfile }
      profilesTable_orig := fun i => syncedProfile (s.profilesTable_orig i) (s.profilesTable i) } := by
  unfold SyncSettings
  simp only [sync_bools, sync_pins, sync_tunables, sync_profiles]
  cases h : s.boolSettings customPins <;> simp [sync_pins, sync_tunables, sync_profiles]

theorem buildQueue_flags (s : State) (a b : Bool) :
    buildQueue { s with serialActive := a, confirmEnabled := b } = buildQueue s := rfl

theorem on_confirmButton_clicked_eq (s : State) (p : SerialPort) (h : p.isOpen = true) :
    (on_confirmButton_clicked s p true).1 =
      if (commitRun s p).1 then
        { DiffUpdate (SyncSettings { s with serialActive := true, confirmEnabled := false })
            with serialActive := false }
      else { s with serialActive := false, confirmEnabled := false } := by
  have e : (on_confirmButton_clicked s p true).1 =
      { (if (!(commitRun s p).1) = true then { s with serialActive := true, confirmEnabled := false }
         else DiffUpdate (SyncSettings { s with serialActive := true, confirmEnabled := false }))
        with serialActive := false } := by
    unfold on_confirmButton_clicked
    rw [if_pos rfl, if_pos h]
    rfl
  rw [e]
  cases (commitRun s p).1 <;> rfl

theorem sent_write (p : SerialPort) (c : String) : (p.write c).sent = p.sent ++ [c] := rfl

theorem sent_waitForBytesWritten (p : SerialPort) : p.waitForBytesWritten.2.sent = p.sent := rfl

theorem sent_readLine (p : SerialPort) : p.readLine.2.sent = p.sent := rfl

theorem sent_drain (p : SerialPort) : p.drain.sent = p.sent := rfl

theorem sent_waitForReadyRead (p : SerialPort) (tm : Bool) :
    (p.waitForReadyRead tm).2.sent = p.sent := by
  unfold SerialPort.waitForReadyRead
  rcases h : p.arrivals with _ | ⟨a, rest⟩
  · rfl
  · cases a
    · rfl
    · cases tm <;> rfl

/-- One iteration of the acknowledgement loop on the command `cmd`. -/
theorem commitLoop_cons (tm : Bool) (len i : Nat) (cmd : String) (rest : List String)
    (success : Bool) (p : SerialPort) :
    commitLoop tm len i (cmd :: rest) success p =
      (let w := ((p.write cmd).waitForBytesWritten.2).waitForReadyRead tm
       if w.1 then
         (if contains w.2.readLine.1 "OK:" || contains w.2.readLine.1 "NOENT:" then
            commitLoop tm len (i + 1) rest success w.2.readLine.2
          else if ((i : Int) == (len : Int) - 1) && contains w.2.readLine.1 "Saving preferences..." then
            (if contains w.2.readLine.2.readLine.1 "Settings saved to" then
               commitLoop tm len (i + 1) rest true w.2.readLine.2.readLine.2.drain
             else commitLoop tm len (i + 1) rest success w.2.readLine.2.readLine.2)
          else (false, w.2.readLine.2))
       else commitLoop tm len (i + 1) rest success w.2) := by
  rw [commitLoop]
  rcases h : ((p.write cmd).waitForBytesWritten.2).waitForReadyRead tm with ⟨b, q⟩
  cases b <;> simp

/-- A run that ends with the flag set has written every command of the queue. -/
theorem commitLoop_sent (tm : Bool) (len : Nat) (todo : List String) :
    ∀ (i : Nat) (success : Bool) (p : SerialPort),
      (commitLoop tm len i todo success p).1 = true →
      (commitLoop tm len i todo success p).2.sent = p.sent ++ todo := by
  induction todo with
  | nil => intro i success p _; simp [commitLoop]
  | cons cmd rest ih =>
    intro i success p
    rw [commitLoop_cons]
    have hs : ∀ q : SerialPort, q.sent = p.sent ++ [cmd] → q.sent ++ rest = p.sent ++ cmd :: rest := by
      intro q hq; rw [hq]; simp
    have hw : (((p.write cmd).waitForBytesWritten.2).waitForReadyRead tm).2.sent = p.sent ++ [cmd] := by
      rw [sent_waitForReadyRead, sent_waitForBytesWritten, sent_write]
    simp only
    split_ifs
    · intro h; rw [ih _ _ _ h]; exact hs _ (by rw [sent_readLine, hw])
    · intro h; rw [ih _ _ _ h]; exact hs _ (by rw [sent_drain, sent_readLine, sent_readLine, hw])
    · intro h; rw [ih _ _ _ h]; exact hs _ (by rw [sent_readLine, sent_readLine, hw])
    · intro h; exact absurd h (by simp)
    · intro h; rw [ih _ _ _ h]; exact hs _ hw

/-- Once the flag is cleared the loop has ended: a run over `pre` that ends
with the flag set continues with the rest of the queue. -/
theorem commitLoop_append (tm : Bool) (len : Nat) (pre suf : List String) :
    ∀ (i : Nat) (success : Bool) (p : SerialPort),
      (commitLoop tm len i pre success p).1 = true →
      commitLoop tm len i (pre ++ suf) success p =
        commitLoop tm len (i + pre.length) suf true (commitLoop tm len i pre success p).2 := by
  induction pre with
  | nil => intro i success p h; simp only [commitLoop] at h; simp [commitLoop, h]
  | cons cmd rest ih =>
    intro i success p
    rw [List.cons_append, commitLoop_cons, commitLoop_cons]
    have hl : i + (cmd :: rest).length = i + 1 + rest.length := by simp; omega
    rw [hl]
    simp only
    split_ifs
    · intro h; exact ih _ _ _ h
    · intro h; exact ih _ _ _ h
    · intro h; exact ih _ _ _ h
    · intro h; exact absurd h (by simp)
    · intro h; exact ih _ _ _ h

theorem mem_allKeys (k : U8) : k ∈ allKeys := by
  simp only [allKeys, List.mem_map, List.mem_range]
  exact ⟨k.val, k.isLt, u8_val k⟩

theorem QMap.ne_iff (a b : QMap) : a.ne b = true ↔ a ≠ b := by
  simp only [QMap.ne, List.any_eq_true, bne_iff_ne, ne_eq]
  constructor
  · rintro ⟨k, _, hk⟩ hab
    exact hk (by rw [hab])
  · intro hab
    by_contra hno
    apply hab
    funext k
    by_contra hk
    exact hno ⟨k, mem_allKeys k, hk⟩

theorem QMap.ne_self (m : QMap) : m.ne m = false := by
  cases h : m.ne m
  · rfl
  · exact absurd rfl ((QMap.ne_iff m m).1 h)

theorem diffCount_SyncSettings (s : State)
    (hcal : ∀ i, (s.profilesTable_orig i).xScale = (s.profilesTable i).xScale ∧
      (s.profilesTable_orig i).yScale = (s.profilesTable i).yScale ∧
      (s.profilesTable_orig i).xCenter = (s.profilesTable i).xCenter ∧
      (s.profilesTable_orig i).yCenter = (s.profilesTable i).yCenter) :
    diffCount (SyncSettings s) = 0 := by
  rw [diffCount_eq, SyncSettings_eq]
  have h0 := hcal 0
  have h1 := hcal 1
  have h2 := hcal 2
  have h3 := hcal 3
  cases hc : s.boolSettings customPins <;>
    simp [diffConds, tally, syncedProfile, hc, QMap.ne_self, h0, h1, h2, h3]

/-- C1 (as amended). After a commit that ends with `success` set (every run in
which all queued commands are acknowledged and the save is confirmed is one),
the synced booleans, tunables, identity strings, previous profile,
`irSensitivity` and `runMode` equal their working copies; the synced pin map
equals the working one when custom pins are on and is unmapped on 0..24
otherwise; and the count stored by `DiffUpdate` is 0 whenever the calibration
fields of the synced and working records agreed. -/
theorem commit_success_reconciles (s : State) (p : SerialPort)
    (hopen : p.isOpen = true) (hok : (commitRun s p).1 = true) :
    (on_confirmButton_clicked s p true).1.boolSettings_orig
        = (on_confirmButton_clicked s p true).1.boolSettings ∧
    (on_confirmButton_clicked s p true).1.settingsTable_orig
        = (on_confirmButton_clicked s p true).1.settingsTable ∧
    (on_confirmButton_clicked s p true).1.tinyUSBtable_orig
        = (on_confirmButton_clicked s p true).1.tinyUSBtable ∧
    (on_confirmButton_clicked s p true).1.board.previousProfile
        = (on_confirmButton_clicked s p true).1.board.selectedProfile ∧
    (∀ i, ((on_confirmButton_clicked s p true).1.profilesTable_orig i).irSensitivity
          = ((on_confirmButton_clicked s p true).1.profilesTable i).irSensitivity ∧
        ((on_confirmButton_clicked s p true).1.profilesTable_orig i).runMode
          = ((on_confirmButton_clicked s p true).1.profilesTable i).runMode) ∧
    (s.boolSettings customPins = true →
      (on_confirmButton_clicked s p true).1.inputsMap_orig
        = (on_confirmButton_clicked s p true).1.inputsMap) ∧
    (s.boolSettings customPins = false → ∀ k : U8, k.val < 25 →
      (on_confirmButton_clicked s p true).1.inputsMap_orig k = some (i8 (-1))) ∧
    ((∀ i, (s.profilesTable_orig i).xScale = (s.profilesTable i).xScale ∧
        (s.profilesTable_orig i).yScale = (s.profilesTable i).yScale ∧
        (s.profilesTable_orig i).xCenter = (s.profilesTable i).xCenter ∧
        (s.profilesTable_orig i).yCenter = (s.profilesTable i).yCenter) →
      (on_confirmButton_clicked s p true).1.settingsDiff = 0 ∧
      diffCount (on_confirmButton_clicked s p true).1 = 0) := by
  rw [on_confirmButton_clicked_eq s p hopen, if_pos hok]
  refine ⟨?_, ?_, ?_, ?_, ?_, ?_, ?_, ?_⟩
  · simp [DiffUpdate, SyncSettings_eq]
  · simp [DiffUpdate, SyncSettings_eq]
  · simp [DiffUpdate, SyncSettings_eq]
  · simp [DiffUpdate, SyncSettings_eq]
  · intro i; simp [DiffUpdate, SyncSettings_eq, syncedProfile]
  · intro hc; simp [DiffUpdate, SyncSettings_eq, hc]
  · intro hc k hk; simp [DiffUpdate, SyncSettings_eq, hc, clearedPins, hk]
  · intro hcal
    have h := diffCount_SyncSettings { s with serialActive := true, confirmEnabled := false } hcal
    refine ⟨by simpa [DiffUpdate] using h, ?_⟩
    have e : diffCount ({ DiffUpdate (SyncSettings { s with serialActive := true, confirmEnabled := false })
        with serialActive := false }) = diffCount (SyncSettings { s with serialActive := true, confirmEnabled := false }) := rfl
    rw [e, h]

/-- Witness for C1: the rumble flag was edited, every command is acknowledged
and the save confirmed. -/
theorem commit_success_reconciles_witness :
    ackPort.isOpen = true ∧ (commitRun editedState ackPort).1 = true ∧
    (on_confirmButton_clicked editedState ackPort true).1.boolSettings_orig
        = (on_confirmButton_clicked editedState ackPort true).1.boolSettings ∧
    (on_confirmButton_clicked editedState ackPort true).1.settingsDiff = 0 :=
  ⟨rfl, by decide,
    (commit_success_reconciles editedState ackPort rfl (by decide)).1,
    ((commit_success_reconciles editedState ackPort rfl (by decide)).2.2.2.2.2.2.2
      (fun _ => ⟨rfl, rfl, rfl, rfl⟩)).1⟩

set_option maxRecDepth 1000000 in
/-- C1 as stated fails: on `remappedState` every command is acknowledged and
the save confirmed, yet afterwards the synced entry of input 0 is unmapped
while the working one is pin 5 (custom pins are off), the synced `xScale` of
profile 0 still differs from the working one, and the recomputed count is 1. -/
theorem commit_success_count_not_zero :
    (commitRun remappedState ackPort).1 = true ∧
    ((on_confirmButton_clicked remappedState ackPort true).1.inputsMap_orig.value 0).val = -1 ∧
    ((on_confirmButton_clicked remappedState ackPort true).1.inputsMap.value 0).val = 5 ∧
    ((on_confirmButton_clicked remappedState ackPort true).1.profilesTable_orig 0).xScale = 0 ∧
    ((on_confirmButton_clicked remappedState ackPort true).1.profilesTable 0).xScale = 5 ∧
    (on_confirmButton_clicked remappedState ackPort true).1.settingsDiff = 1 := by
  decide

/-- C2. A commit whose acknowledgement loop ends with `success = false`
leaves every working and every synced copy as it was: the resulting state is
the starting state with the busy flag cleared and the confirm button
disabled, so the stored count and the count `DiffUpdate` would compute are
unchanged. -/
theorem commit_failure_keeps_state (s : State) (p : SerialPort)
    (hopen : p.isOpen = true) (hfail : (commitRun s p).1 = false) :
    (on_confirmButton_clicked s p true).1
        = { s with serialActive := false, confirmEnabled := false } ∧
    (on_confirmButton_clicked s p true).1.settingsDiff = s.settingsDiff ∧
    diffCount (on_confirmButton_clicked s p true).1 = diffCount s := by
  rw [on_confirmButton_clicked_eq s p hopen, hfail]
  exact ⟨rfl, rfl, rfl⟩

/-- Witness for C2: the device rejects the first command. -/
theorem commit_failure_keeps_state_witness :
    rejectPort.isOpen = true ∧ (commitRun editedState rejectPort).1 = false ∧
    diffCount (on_confirmButton_clicked editedState rejectPort true).1 = diffCount editedState :=
  ⟨rfl, by decide,
    (commit_failure_keeps_state editedState rejectPort rfl (by decide)).2.2⟩

set_option maxRecDepth 100000 in
/-- C3, the code at the failing input: the reply to the fifth command times
out, and the loop still writes all 27 queued commands, ends with `success`
set and runs `SyncSettings`: the synced rumble flag is overwritten and the
count drops from 1 to 0. -/
theorem commit_timeout_still_syncs :
    (commitRun editedState timeoutPort).1 = true ∧
    (commitRun editedState timeoutPort).2.sent.length = 28 ∧
    (commitRun editedState timeoutPort).2.sent.getLast? = some "XS" ∧
    diffCount editedState = 1 ∧
    editedState.boolSettings_orig 1 = false ∧
    (on_confirmButton_clicked editedState timeoutPort true).1.boolSettings_orig 1 = true ∧
    (on_confirmButton_clicked editedState timeoutPort true).1.settingsDiff = 0 := by
  decide

set_option maxRecDepth 100000 in
/-- C5, the code at the failing input: the reply to `XS` announces the save
and no confirmation line follows; the loop still ends with `success` set and
`SyncSettings` runs. -/
theorem commit_unconfirmed_save_syncs :
    (commitRun editedState unsavedPort).1 = true ∧
    diffCount editedState = 1 ∧
    (on_confirmButton_clicked editedState unsavedPort true).1.boolSettings_orig 1 = true ∧
    (on_confirmButton_clicked editedState unsavedPort true).1.settingsDiff = 0 := by
  decide

/-- C4. Let the loop reach command `k` of the queue `pre ++ cmd :: post`
(`pre` are the commands before it) and let a reply to it be received. If the
line read holds `OK:` or `NOENT:`, the run goes on with the commands after
`k`, the flag still set. If it holds neither and is not the save reply of the
last command, the run ends there with the flag cleared, and what has been
written is `pre` and `cmd`: no command after `k`. -/
theorem commitLoop_reply_decides (tm : Bool) (pre : List String) (cmd : String)
    (post : List String) (p : SerialPort)
    (hreach : (commitLoop tm (pre ++ cmd :: post).length 0 pre true p).1 = true)
    (hrecv : (((((commitLoop tm (pre ++ cmd :: post).length 0 pre true p).2).write cmd
      ).waitForBytesWritten.2).waitForReadyRead tm).1 = true) :
    (contains (((((commitLoop tm (pre ++ cmd :: post).length 0 pre true p).2).write cmd
        ).waitForBytesWritten.2).waitForReadyRead tm).2.readLine.1 "OK:" = true ∨
      contains (((((commitLoop tm (pre ++ cmd :: post).length 0 pre true p).2).write cmd
        ).waitForBytesWritten.2).waitForReadyRead tm).2.readLine.1 "NOENT:" = true →
      commitLoop tm (pre ++ cmd :: post).length 0 (pre ++ cmd :: post) true p
        = commitLoop tm (pre ++ cmd :: post).length (pre.length + 1) post true
            (((((commitLoop tm (pre ++ cmd :: post).length 0 pre true p).2).write cmd
              ).waitForBytesWritten.2).waitForReadyRead tm).2.readLine.2) ∧
    (contains (((((commitLoop tm (pre ++ cmd :: post).length 0 pre true p).2).write cmd
        ).waitForBytesWritten.2).waitForReadyRead tm).2.readLine.1 "OK:" = false →
      contains (((((commitLoop tm (pre ++ cmd :: post).length 0 pre true p).2).write cmd
        ).waitForBytesWritten.2).waitForReadyRead tm).2.readLine.1 "NOENT:" = false →
      ¬ (post = [] ∧ contains (((((commitLoop tm (pre ++ cmd :: post).length 0 pre true p).2).write cmd
        ).waitForBytesWritten.2).waitForReadyRead tm).2.readLine.1 "Saving preferences..." = true) →
      (commitLoop tm (pre ++ cmd :: post).length 0 (pre ++ cmd :: post) true p).1 = false ∧
      (commitLoop tm (pre ++ cmd :: post).length 0 (pre ++ cmd :: post) true p).2.sent
        = p.sent ++ pre ++ [cmd]) := by
  have hl : (pre ++ cmd :: post).length = pre.length + 1 + post.length := by
    simp only [List.length_append, List.length_cons]; omega
  generalize (pre ++ cmd :: post).length = len at hl hreach hrecv ⊢
  have hsent := commitLoop_sent tm len pre 0 true p hreach
  rw [commitLoop_append tm len pre (cmd :: post) 0 true p hreach, commitLoop_cons]
  generalize (commitLoop tm len 0 pre true p).2 = q at hrecv hsent ⊢
  generalize hw : ((q.write cmd).waitForBytesWritten.2).waitForReadyRead tm = w at hrecv ⊢
  have hws : w.2.sent = p.sent ++ pre ++ [cmd] := by
    rw [← hw, sent_waitForReadyRead, sent_waitForBytesWritten, sent_write, hsent]
  simp only [hrecv, if_true, Nat.zero_add]
  constructor
  · intro hack
    rw [if_pos (by rcases hack with h | h <;> simp [h])]
  · intro h1 h2 h3
    rw [if_neg (by simp [h1, h2])]
    have hlast : ¬ ((((pre.length : Nat) : Int) == ((len : Nat) : Int) - 1) = true ∧
        contains w.2.readLine.1 "Saving preferences..." = true) := by
      rintro ⟨ha, hb⟩
      apply h3
      refine ⟨?_, hb⟩
      have hz : post.length = 0 := by
        have := eq_of_beq ha
        omega
      exact List.length_eq_zero.mp hz
    rw [if_neg (by simpa using hlast)]
    exact ⟨rfl, by rw [sent_readLine, hws]⟩

/-- Witness for C4: the device acknowledges the first of three commands and
rejects the second; the third is never written. -/
theorem commitLoop_reply_decides_witness :
    (commitLoop false (["Xm.0.0.0"] ++ "Xm.0.1.1" :: ["XS"]).length 0 ["Xm.0.0.0"] true
      secondRejectPort).1 = true ∧
    (commitLoop false (["Xm.0.0.0"] ++ "Xm.0.1.1" :: ["XS"]).length 0
      (["Xm.0.0.0"] ++ "Xm.0.1.1" :: ["XS"]) true secondRejectPort).1 = false ∧
    (commitLoop false (["Xm.0.0.0"] ++ "Xm.0.1.1" :: ["XS"]).length 0
      (["Xm.0.0.0"] ++ "Xm.0.1.1" :: ["XS"]) true secondRejectPort).2.sent
        = secondRejectPort.sent ++ ["Xm.0.0.0"] ++ ["Xm.0.1.1"] :=
  ⟨by decide,
    (commitLoop_reply_decides false ["Xm.0.0.0"] "Xm.0.1.1" ["XS"] secondRejectPort
      (by decide) (by decide)).2 (by decide) (by decide) (by decide)⟩

/-- C6 as stated fails: changing only the working `xScale` of profile 0
raises the count from 0 to 1. -/
theorem calibration_field_is_counted :
    calibratedState = setProfile loadedState 0 { (loadedState.profilesTable 0) with xScale := 5 } ∧
    diffCount loadedState = 0 ∧ diffCount calibratedState = 1 := by
  refine ⟨rfl, ?_, ?_⟩ <;> rw [diffCount_eq] <;> decide

/-- C6 (as amended). `DiffUpdate` counts all six fields of each profile:
replacing the working record of profile `i` changes the count by the change
in the number of its fields (`xScale`, `yScale`, `xCenter`, `yCenter`,
`irSensitivity`, `runMode`) that differ from the synced record. -/
theorem diffCount_setProfile (s : State) (i : Fin 4) (r : profilesTable_s) :
    diffCount (setProfile s i r) + profileDiffs (s.profilesTable_orig i) (s.profilesTable i)
      = diffCount s + profileDiffs (s.profilesTable_orig i) r := by
  rw [diffCount_eq, diffCount_eq]
  fin_cases i <;> simp only [diffConds, tally, setProfile, arrSet, profileDiffs] <;>
    simp <;> omega

/-- C7. For a flag `i` in 1..7 whose working value equals the synced one,
the toggle slot with the opposite value makes the count one more than before
(so at least 1), and the slot with the old value brings it back. -/
theorem toggle_flip_counts (s : State) (i : Fin 8) (arg1 arg2 : Int)
    (hi : i ≠ 0) (heq : s.boolSettings i = s.boolSettings_orig i)
    (h1 : toBool arg1 = !s.boolSettings i) (h2 : toBool arg2 = s.boolSettings i) :
    (on_toggle_stateChanged i s arg1).settingsDiff = diffCount s + 1 ∧
    1 ≤ (on_toggle_stateChanged i s arg1).settingsDiff ∧
    (on_toggle_stateChanged i (on_toggle_stateChanged i s arg1) arg2).settingsDiff
      = diffCount s := by
  have key : (on_toggle_stateChanged i s arg1).settingsDiff = diffCount s + 1 ∧
      (on_toggle_stateChanged i (on_toggle_stateChanged i s arg1) arg2).settingsDiff
        = diffCount s := by
    simp only [on_toggle_stateChanged, DiffUpdate, diffCount_eq, h1, h2]
    fin_cases i
    · exact absurd rfl hi
    all_goals
      simp only [diffConds, tally, arrSet, customPins] at heq ⊢
      simp at heq ⊢
      simp [heq]
      try omega
  exact ⟨key.1, by omega, key.2⟩

/-- Witness for C7: the rumble box (index 1) of the loaded state is checked
(`Qt::Checked` is 2) and unchecked again. -/
theorem toggle_flip_counts_witness :
    (1 : Fin 8) ≠ 0 ∧ loadedState.boolSettings 1 = loadedState.boolSettings_orig 1 ∧
    toBool 2 = (!loadedState.boolSettings 1) ∧ toBool 0 = loadedState.boolSettings 1 ∧
    ((on_toggle_stateChanged 1 loadedState 2).settingsDiff = diffCount loadedState + 1 ∧
     1 ≤ (on_toggle_stateChanged 1 loadedState 2).settingsDiff ∧
     (on_toggle_stateChanged 1 (on_toggle_stateChanged 1 loadedState 2) 0).settingsDiff
       = diffCount loadedState) :=
  ⟨by decide, rfl, by decide, by decide,
    toggle_flip_counts loadedState 1 2 0 (by decide) rfl (by decide) (by decide)⟩

theorem QMap.value_set (m : QMap) (k j : U8) (v : I8) :
    (m.set k v).value j = if j = k then v else m.value j := by
  unfold QMap.value QMap.set
  split_ifs <;> rfl

theorem QMap.value_swept (m : QMap) (v : I8) (j : U8) :
    (sweptPins m v).value j = if m j = some v then i8 btnUnmapped else m.value j := by
  unfold QMap.value sweptPins
  split_ifs <;> rfl

theorem mem_keys (m : QMap) (v : I8) (k : U8) : k ∈ m.keys v ↔ m k = some v := by
  simp [QMap.keys, mem_allKeys]

theorem sweep_fold (l : List U8) : ∀ s : State,
    (l.foldl (fun s k =>
        let s := { s with currentPins := s.currentPins.set k (i8 btnUnmapped) }
        { s with pinBoxesOldIndex := Function.update s.pinBoxesOldIndex k btnUnmapped }) s)
      = { s with
          currentPins := fun k => if k ∈ l then some (i8 btnUnmapped) else s.currentPins k
          pinBoxesOldIndex := fun k => if k ∈ l then btnUnmapped else s.pinBoxesOldIndex k } := by
  induction l with
  | nil => intro s; simp
  | cons a l ih =>
    intro s
    rw [List.foldl_cons, ih]
    congr 1
    · funext k
      by_cases h1 : k ∈ l
      · simp [h1]
      · by_cases h2 : k = a
        · simp [h2, QMap.set]
        · simp [h1, h2, QMap.set]
    · funext k
      by_cases h1 : k ∈ l
      · simp [h1]
      · by_cases h2 : k = a
        · subst h2; simp
        · simp [h1, h2, Function.update]

/-- The pin tables that `pinBoxes_activated` leaves. -/
theorem pinBoxes_activated_maps (s : State) (pin : U8) (index : Int) :
    (pinBoxes_activated s pin index).currentPins =
      (if index = 0 then s.currentPins.set pin (i8 btnUnmapped)
       else if s.pinBoxesOldIndex pin ≠ index then
         (sweptPins s.currentPins (i8 index)).set pin (i8 index)
       else s.currentPins) ∧
    (pinBoxes_activated s pin index).inputsMap =
      (if index = 0 then s.inputsMap.set (u8 ((s.currentPins.value pin).val - 1)) (i8 (-1))
       else if s.pinBoxesOldIndex pin ≠ index then
         (if (s.currentPins.value pin).val > 0 then
            ((s.inputsMap.set (u8 (i8 (index - 1)).val) (i8 (-1))).set
              (u8 ((s.currentPins.value pin).val - 1)) (i8 (-1))).set
              (u8 (i8 (index - 1)).val) (i8 pin.toInt)
          else (s.inputsMap.set (u8 (i8 (index - 1)).val) (i8 (-1))).set
              (u8 (i8 (index - 1)).val) (i8 pin.toInt))
       else s.inputsMap) := by
  unfold pinBoxes_activated
  by_cases h0 : index = 0
  · simp [h0, DiffUpdate]
  · by_cases h1 : s.pinBoxesOldIndex pin = index
    · simp [h0, h1, DiffUpdate]
    · simp only [beq_iff_eq, h0, if_false, bne_iff_ne, ne_eq, h1, not_false_eq_true, if_true,
        sweep_fold, DiffUpdate]
      constructor
      · by_cases hv : (s.currentPins.value pin).val > 0
        · simp only [hv, if_true]
          simp only [mem_keys]
          rfl
        · simp only [hv, if_false]
          simp only [mem_keys]
          rfl
      · by_cases hv : (s.currentPins.value pin).val > 0
        · simp [hv]
        · simp [hv]

theorem u8_pred_inj (a b : I8) (h : u8 (a.val - 1) = u8 (b.val - 1)) : a = b := by
  have ha := a.property
  have hb := b.property
  apply Subtype.ext
  simp only [u8, Fin.mk.injEq] at h
  omega

theorem u8_i8_pred (index : Int) : u8 (i8 (index - 1)).val = u8 ((i8 index).val - 1) := by
  simp only [u8, i8, Fin.mk.injEq]
  omega

theorem i8_toInt (p : U8) (h : p.val < 128) : (i8 p.toInt).val = p.toInt := by
  simp only [i8, U8.toInt]
  omega

theorem toInt_inj (p q : U8) (h : p.toInt = q.toInt) : p = q := by
  apply Fin.ext
  simp only [U8.toInt] at h
  omega

theorem i8_neg_one : (i8 (-1)).val = -1 := by decide

theorem i8_zero : (i8 btnUnmapped).val = 0 := by decide

/-- C8. Inductive step of the pin invariant: if every pin `p` in 0..29 whose
entry `i` in `currentPins` is not "unmapped" has `inputsMap[i-1] = p`, the
same holds after `pinBoxes_activated(pin, index)` for every pin in 0..29 and
every index (0..25 included), reassignment collisions included. -/
theorem pinBoxes_activated_preserves_PinInv (s : State) (pin : U8) (index : Int)
    (hpin : pin.val < 30) (hinv : PinInv s) :
    PinInv (pinBoxes_activated s pin index) := by
  intro p hp
  have hpinInv := hinv pin hpin
  have hpInv := hinv p hp
  rw [(pinBoxes_activated_maps s pin index).1, (pinBoxes_activated_maps s pin index).2]
  simp only [btnUnmapped] at *
  by_cases h0 : index = 0
  · simp only [h0, if_true]
    by_cases hpp : p = pin
    · subst hpp
      simp [QMap.value_set, i8]
    · simp only [QMap.value_set, hpp, if_false]
      intro hne
      by_cases hk : u8 ((s.currentPins.value p).val - 1) = u8 ((s.currentPins.value pin).val - 1)
      · exfalso
        have e := u8_pred_inj _ _ hk
        have h1 := hpInv hne
        rw [e] at h1 hne
        have h2 := hpinInv hne
        exact hpp (toInt_inj _ _ (by rw [← h1, ← h2]))
      · rw [if_neg hk]
        exact hpInv hne
  · simp only [h0, if_false]
    by_cases h1 : s.pinBoxesOldIndex pin = index
    · simp only [h1, ne_eq, not_true_eq_false, if_false]
      exact hpInv
    · simp only [ne_eq, h1, not_false_eq_true, if_true]
      by_cases hpp : p = pin
      · subst hpp
        intro _
        have hk : u8 ((((sweptPins s.currentPins (i8 index)).set p (i8 index)).value p).val - 1)
            = u8 (i8 (index - 1)).val := by
          rw [QMap.value_set, if_pos rfl, u8_i8_pred]
        rw [hk]
        split_ifs <;> simp only [QMap.value_set, if_true] <;> exact i8_toInt p (by omega)
      · simp only [QMap.value_set, hpp, if_false, QMap.value_swept]
        by_cases hsw : s.currentPins p = some (i8 index)
        · simp only [hsw, if_true]
          intro hne
          exact absurd i8_zero hne
        · simp only [hsw, if_false]
          intro hne
          have hkb : u8 ((s.currentPins.value p).val - 1) ≠ u8 (i8 (index - 1)).val := by
            rw [u8_i8_pred]
            intro hk
            have e := u8_pred_inj _ _ hk
            apply hsw
            unfold QMap.value at e hne
            cases hc : s.currentPins p with
            | none => rw [hc] at hne; exact absurd rfl hne
            | some x => rw [hc] at e; simp only [Option.getD_some] at e; rw [e]
          have hkv : (s.currentPins.value pin).val > 0 →
              u8 ((s.currentPins.value p).val - 1) ≠ u8 ((s.currentPins.value pin).val - 1) := by
            intro hv hk
            have e := u8_pred_inj _ _ hk
            have h1 := hpInv hne
            rw [e] at h1
            have h2 := hpinInv (by omega)
            exact hpp (toInt_inj _ _ (by rw [← h1, ← h2]))
          by_cases hv : (s.currentPins.value pin).val > 0
          · simp only [hv, if_true, QMap.value_set, hkb, hkv hv, if_false]
            exact hpInv hne
          · simp only [hv, if_false, QMap.value_set, hkb]
            exact hpInv hne


theorem unmappedPins_value (i : Nat) (h : i < 25) : (unmappedPins.value (u8 i)).val = -1 := by
  have e : unmappedPins = clearedPins QMap.empty := clearedPins_loop QMap.empty
  rw [e]
  simp only [QMap.value, clearedPins, u8_natCast_val i (by omega), h, if_true, Option.getD_some]
  exact i8_neg_one

theorem u8_natCast_inj (i j : Nat) (hi : i < 256) (hj : j < 256) (h : u8 (i : Int) = u8 (j : Int)) :
    i = j := by
  have := congrArg Fin.val h
  rwa [u8_natCast_val i hi, u8_natCast_val j hj] at this

theorem PinInverse_step (s : State) (pin : U8) (index : Int) (hinv : PinInverse s) :
    PinInverse (pinBoxes_activated s pin index) := by
  intro i hi
  have hI := hinv i hi
  rw [(pinBoxes_activated_maps s pin index).1, (pinBoxes_activated_maps s pin index).2]
  by_cases h0 : index = 0
  · simp only [h0, if_true, QMap.value_set]
    by_cases hk : u8 (i : Int) = u8 ((s.currentPins.value pin).val - 1)
    · rw [if_pos hk]
      intro hneg
      rw [i8_neg_one] at hneg
      omega
    · rw [if_neg hk]
      intro hpos
      by_cases hx : u8 (s.inputsMap.value (u8 i)).val = pin
      · exfalso
        have h1 := hI hpos
        rw [hx] at h1
        apply hk
        rw [h1]
        congr 1
        omega
      · rw [if_neg hx]
        exact hI hpos
  · simp only [h0, if_false]
    by_cases h1 : s.pinBoxesOldIndex pin = index
    · simp only [h1, ne_eq, not_true_eq_false, if_false]
      exact hI
    · simp only [ne_eq, h1, not_false_eq_true, if_true]
      have hval : (if (s.currentPins.value pin).val > 0 then
            ((s.inputsMap.set (u8 (i8 (index - 1)).val) (i8 (-1))).set
              (u8 ((s.currentPins.value pin).val - 1)) (i8 (-1))).set
              (u8 (i8 (index - 1)).val) (i8 pin.toInt)
          else (s.inputsMap.set (u8 (i8 (index - 1)).val) (i8 (-1))).set
              (u8 (i8 (index - 1)).val) (i8 pin.toInt)).value (u8 i)
          = if u8 (i : Int) = u8 (i8 (index - 1)).val then i8 pin.toInt
            else if (s.currentPins.value pin).val > 0 ∧
                u8 (i : Int) = u8 ((s.currentPins.value pin).val - 1) then i8 (-1)
            else s.inputsMap.value (u8 i) := by
        by_cases hb : u8 (i : Int) = u8 (i8 (index - 1)).val
        · split_ifs <;> simp only [QMap.value_set, hb, if_true]
        · by_cases hv : (s.currentPins.value pin).val > 0
          · by_cases hkv : u8 (i : Int) = u8 ((s.currentPins.value pin).val - 1)
            · simp only [hv, if_true, QMap.value_set, hb, if_false, hkv, and_self]
            · simp only [hv, if_true, QMap.value_set, hb, if_false, hkv, and_false]
          · simp only [hv, if_false, QMap.value_set, hb, false_and]
      rw [hval]
      by_cases hb : u8 (i : Int) = u8 (i8 (index - 1)).val
      · rw [if_pos hb]
        intro hpos
        have hpv : (i8 pin.toInt).val = pin.toInt := by
          have := (i8 pin.toInt).property
          simp only [i8, U8.toInt] at hpos ⊢
          omega
        have hkey : u8 (i8 pin.toInt).val = pin := by
          rw [hpv]; exact u8_val pin
        rw [hkey, QMap.value_set, if_pos rfl]
        have hbv := congrArg Fin.val hb
        rw [u8_natCast_val i (by omega)] at hbv
        simp only [u8, i8] at hbv ⊢
        omega
      · rw [if_neg hb]
        by_cases hkv : (s.currentPins.value pin).val > 0 ∧
            u8 (i : Int) = u8 ((s.currentPins.value pin).val - 1)
        · rw [if_pos hkv]
          intro hneg
          rw [i8_neg_one] at hneg
          omega
        · rw [if_neg hkv]
          intro hpos
          have hcp := hI hpos
          rw [QMap.value_set]
          by_cases hx : u8 (s.inputsMap.value (u8 i)).val = pin
          · exfalso
            rw [hx] at hcp
            apply hkv
            refine ⟨by omega, ?_⟩
            rw [hcp]
            congr 1
            omega
          · rw [if_neg hx, QMap.value_swept]
            by_cases hsw : s.currentPins (u8 (s.inputsMap.value (u8 i)).val) = some (i8 index)
            · exfalso
              apply hb
              rw [u8_i8_pred]
              have : s.currentPins.value (u8 (s.inputsMap.value (u8 i)).val) = i8 index :=
                congrArg (fun o => Option.getD o (i8 0)) hsw
              rw [this] at hcp
              rw [hcp]
              congr 1
              omega
            · rw [if_neg hsw]
              exact hcp


/-- Witness for C8: Trigger is put on pin 5 and then moved to pin 6, a
reassignment collision. -/
theorem pinBoxes_activated_preserves_PinInv_witness :
    (5 : U8).val < 30 ∧ PinInv (pinBoxes_activated loadedState 5 1) ∧
    PinInv (pinBoxes_activated (pinBoxes_activated loadedState 5 1) 6 1) :=
  ⟨by decide,
    pinBoxes_activated_preserves_PinInv loadedState 5 1 (by decide)
      (fun _ _ hne => absurd rfl hne),
    pinBoxes_activated_preserves_PinInv (pinBoxes_activated loadedState 5 1) 6 1 (by decide)
      (pinBoxes_activated_preserves_PinInv loadedState 5 1 (by decide)
        (fun _ _ hne => absurd rfl hne))⟩

/-- C9. In every state reached from an all-unmapped state by calls of
`pinBoxes_activated`, a logical input in 0..24 mapped to a pin `p` is the
entry of `p` in `currentPins`; hence no pin is the value of two inputs. -/
theorem reachable_pins_inverse (s0 s : State) (h0 : AllUnmapped s0)
    (hr : PinReachable s0 s) :
    PinInverse s ∧
    (∀ i j : Nat, i < 25 → j < 25 → 0 ≤ (s.inputsMap.value (u8 i)).val →
      s.inputsMap.value (u8 i) = s.inputsMap.value (u8 j) → i = j) := by
  have hinv : PinInverse s := by
    induction hr with
    | start =>
      intro i hi hpos
      rw [h0.1, unmappedPins_value i hi] at hpos
      omega
    | step s pin index _ ih => exact PinInverse_step s pin index ih
  refine ⟨hinv, ?_⟩
  intro i j hi hj hpos heq
  have h1 := hinv i hi hpos
  have h2 := hinv j hj (by rw [← heq]; exact hpos)
  rw [← heq, h1] at h2
  omega

/-- Witness for C9: Trigger on pin 5, then moved to pin 6. -/
theorem reachable_pins_inverse_witness :
    AllUnmapped loadedState ∧
    PinReachable loadedState (pinBoxes_activated (pinBoxes_activated loadedState 5 1) 6 1) ∧
    PinInverse (pinBoxes_activated (pinBoxes_activated loadedState 5 1) 6 1) :=
  ⟨⟨rfl, rfl⟩,
    PinReachable.step _ 6 1 (PinReachable.step _ 5 1 PinReachable.start),
    (reachable_pins_inverse loadedState _ ⟨rfl, rfl⟩
      (PinReachable.step _ 6 1 (PinReachable.step _ 5 1 PinReachable.start))).1⟩

set_option maxRecDepth 1000000 in
/-- C10, the code at the failing input: pin 5 holds Trigger; choosing
"Unmapped" once restores the synced map (count 0), choosing it a second time
adds the key 255 to `inputsMap` and the count becomes 1. -/
theorem unmap_twice_differs :
    (pinBoxes_activated triggerState 5 0).settingsDiff = 0 ∧
    (pinBoxes_activated (pinBoxes_activated triggerState 5 0) 5 0).settingsDiff = 1 ∧
    (pinBoxes_activated triggerState 5 0).inputsMap 255 = none ∧
    (pinBoxes_activated (pinBoxes_activated triggerState 5 0) 5 0).inputsMap 255
      = some (i8 (-1)) := by
  decide

theorem diffCount_DiffUpdate (s : State) : diffCount (DiffUpdate s) = diffCount s := rfl

/-- For a request other than "Unmapped", a second call with the same
arguments changes nothing. -/
theorem pinBoxes_activated_idem_mapped (s : State) (pin : U8) (index : Int) (h : index ≠ 0) :
    pinBoxes_activated (pinBoxes_activated s pin index) pin index
      = pinBoxes_activated s pin index := by
  have hold : (pinBoxes_activated s pin index).pinBoxesOldIndex pin = index := by
    unfold pinBoxes_activated
    simp [DiffUpdate]
  generalize hs1 : pinBoxes_activated s pin index = s1 at hold
  have hd : DiffUpdate s1 = s1 := by
    rw [← hs1]
    unfold pinBoxes_activated
    rfl
  unfold pinBoxes_activated
  simp only [beq_iff_eq, h, if_false, bne_iff_ne, ne_eq, hold, not_true_eq_false]
  have : Function.update s1.pinBoxesOldIndex pin index = s1.pinBoxesOldIndex := by
    rw [← hold]; exact Function.update_eq_self pin s1.pinBoxesOldIndex
  rw [this]
  exact hd

/-- The table `pinBoxesOldIndex` that `pinBoxes_activated` leaves. -/
theorem pinBoxes_activated_oldIndex (s : State) (pin : U8) (index : Int) :
    (pinBoxes_activated s pin index).pinBoxesOldIndex =
      Function.update
        (if index = 0 then s.pinBoxesOldIndex
         else if s.pinBoxesOldIndex pin ≠ index then
           (fun k => if s.currentPins k = some (i8 index) then btnUnmapped
                     else s.pinBoxesOldIndex k)
         else s.pinBoxesOldIndex) pin index := by
  unfold pinBoxes_activated
  by_cases h0 : index = 0
  · simp [h0, DiffUpdate]
  · by_cases h1 : s.pinBoxesOldIndex pin = index
    · simp [h0, h1, DiffUpdate]
    · simp only [beq_iff_eq, h0, if_false, bne_iff_ne, ne_eq, h1, not_false_eq_true, if_true,
        sweep_fold, DiffUpdate]
      by_cases hv : (s.currentPins.value pin).val > 0
      · simp only [hv, if_true, mem_keys]
      · simp only [hv, if_false, mem_keys]

theorem i8_val_of_range (z : Int) (h1 : -128 ≤ z) (h2 : z ≤ 127) : (i8 z).val = z := by
  simp only [i8]
  omega

theorem value_eq_i8_of_val (m : QMap) (k : U8) (z : Int) (h1 : -128 ≤ z) (h2 : z ≤ 127)
    (h : (m.value k).val = z) : m.value k = i8 z :=
  Subtype.ext (by rw [h, i8_val_of_range z h1 h2])

theorem entry_of_value_ne_zero (m : QMap) (k : U8) (v : I8) (hv : v ≠ i8 0)
    (h : m.value k = v) : m k = some v := by
  unfold QMap.value at h
  cases hc : m k with
  | none => rw [hc] at h; exact absurd h.symm hv
  | some x => rw [hc] at h; exact congrArg some h

theorem value_ne_of_entry_ne (m : QMap) (k : U8) (v : I8) (hv : v ≠ i8 0)
    (h : m k ≠ some v) : m.value k ≠ v :=
  fun hval => h (entry_of_value_ne_zero m k v hv hval)

/-- C11. Reassignment collision: in a state where every bound pin is the
value of its input in `inputsMap` and `pinBoxesOldIndex` agrees with
`currentPins`, choosing the entry `f` (1..25) on pin `p` and then on another
pin `q` leaves `p` unmapped, `q` bound to `f` and `inputsMap[f-1] = q`. -/
theorem reassign_collision (s : State) (p q : U8) (f : Int)
    (hp : p.val < 30) (hq : q.val < 30) (hpq : p ≠ q) (hf1 : 1 ≤ f) (hf2 : f ≤ 25)
    (hinv : PinInv s)
    (hold : ∀ k : U8, k.val < 30 → s.pinBoxesOldIndex k = (s.currentPins.value k).val) :
    ((pinBoxes_activated (pinBoxes_activated s p f) q f).currentPins.value p).val = btnUnmapped ∧
    ((pinBoxes_activated (pinBoxes_activated s p f) q f).currentPins.value q).val = f ∧
    ((pinBoxes_activated (pinBoxes_activated s p f) q f).inputsMap.value (u8 (f - 1))).val
      = q.toInt := by
  have hf0 : f ≠ 0 := by omega
  have hi8f : (i8 f).val = f := i8_val_of_range f (by omega) (by omega)
  have hi8ne : i8 f ≠ i8 0 := by
    intro h
    have := congrArg Subtype.val h
    rw [hi8f, i8_val_of_range 0 (by omega) (by omega)] at this
    exact hf0 this
  have hqp : q ≠ p := fun h => hpq h.symm
  -- the first call
  have hcp1 : (pinBoxes_activated s p f).currentPins p = some (i8 f) := by
    rw [(pinBoxes_activated_maps s p f).1, if_neg hf0]
    by_cases h1 : s.pinBoxesOldIndex p = f
    · rw [if_neg (by simpa using h1)]
      apply entry_of_value_ne_zero _ _ _ hi8ne
      exact value_eq_i8_of_val _ _ f (by omega) (by omega) (by rw [← hold p hp, h1])
    · rw [if_pos h1]
      simp [QMap.set]
  have hold1 : (pinBoxes_activated s p f).pinBoxesOldIndex q ≠ f := by
    rw [pinBoxes_activated_oldIndex, Function.update_noteq hqp, if_neg hf0]
    by_cases h1 : s.pinBoxesOldIndex p = f
    · rw [if_neg (by simpa using h1), hold q hq]
      intro hqf
      have hpv : (s.currentPins.value p).val = f := by rw [← hold p hp, h1]
      have e1 := hinv p hp (by rw [hpv]; exact hf0)
      have e2 := hinv q hq (by rw [hqf]; exact hf0)
      rw [hpv] at e1
      rw [hqf] at e2
      exact hpq (toInt_inj _ _ (by rw [← e1, ← e2]))
    · rw [if_pos h1]
      by_cases hsw : s.currentPins q = some (i8 f)
      · simp only [hsw, if_true, btnUnmapped]
        omega
      · simp only [hsw, if_false]
        rw [hold q hq]
        intro hqf
        exact value_ne_of_entry_ne _ _ _ hi8ne hsw
          (value_eq_i8_of_val _ _ f (by omega) (by omega) hqf)
  -- the second call
  generalize pinBoxes_activated s p f = s1 at hcp1 hold1
  rw [(pinBoxes_activated_maps s1 q f).1, (pinBoxes_activated_maps s1 q f).2, if_neg hf0,
    if_neg hf0, if_pos hold1, if_pos hold1]
  have hkey : u8 (i8 (f - 1)).val = u8 (f - 1) := by
    rw [i8_val_of_range (f - 1) (by omega) (by omega)]
  refine ⟨?_, ?_, ?_⟩
  · rw [QMap.value_set, if_neg hpq, QMap.value_swept, if_pos hcp1]
    exact i8_zero
  · rw [QMap.value_set, if_pos rfl]
    exact hi8f
  · split_ifs <;> rw [hkey, QMap.value_set, if_pos rfl] <;> exact i8_toInt q (by omega)

/-- Witness for C11: Trigger (entry 1) is chosen on pin 5 and then on pin 6. -/
theorem reassign_collision_witness :
    (5 : U8) ≠ 6 ∧ PinInv loadedState ∧
    ((pinBoxes_activated (pinBoxes_activated loadedState 5 1) 6 1).currentPins.value 5).val
      = btnUnmapped ∧
    ((pinBoxes_activated (pinBoxes_activated loadedState 5 1) 6 1).currentPins.value 6).val = 1 ∧
    ((pinBoxes_activated (pinBoxes_activated loadedState 5 1) 6 1).inputsMap.value (u8 (1 - 1))).val
      = (6 : U8).toInt :=
  ⟨by decide, fun _ _ hne => absurd rfl hne,
    reassign_collision loadedState 5 6 1 (by decide) (by decide) (by decide) (by decide)
      (by decide) (fun _ _ hne => absurd rfl hne) (fun _ _ => rfl)⟩

/-- C12. Unmapping: when `pin` is bound to the logical input `f` (its entry in
`currentPins` is `f + 1`), `pinBoxes_activated(pin, 0)` sets `inputsMap[f]` to
-1 and `currentPins[pin]` to unmapped, and leaves every other entry of
`inputsMap` and every other pin of `currentPins` as it was. -/
theorem unmap_bound_pin (s : State) (pin : U8) (f : Nat)
    (hb : (s.currentPins.value pin).val = (f : Int) + 1) :
    ((pinBoxes_activated s pin 0).inputsMap.value (u8 f)).val = -1 ∧
    ((pinBoxes_activated s pin 0).currentPins.value pin).val = btnUnmapped ∧
    (∀ j : U8, j ≠ u8 f → (pinBoxes_activated s pin 0).inputsMap j = s.inputsMap j) ∧
    (∀ k : U8, k ≠ pin → (pinBoxes_activated s pin 0).currentPins k = s.currentPins k) := by
  rw [(pinBoxes_activated_maps s pin 0).1, (pinBoxes_activated_maps s pin 0).2]
  simp only [if_true]
  have hkey : u8 ((s.currentPins.value pin).val - 1) = u8 (f : Int) := by
    rw [hb]; congr 1; omega
  rw [hkey]
  refine ⟨?_, ?_, ?_, ?_⟩
  · rw [QMap.value_set, if_pos rfl]; exact i8_neg_one
  · rw [QMap.value_set, if_pos rfl]; exact i8_zero
  · intro j hj
    simp only [QMap.set, hj, if_false]
  · intro k hk
    simp only [QMap.set, hk, if_false]

set_option maxRecDepth 1000000 in
/-- Witness for C12: Trigger (input 0) sits on pin 5 and is unmapped. -/
theorem unmap_bound_pin_witness :
    (triggerState.currentPins.value 5).val = ((0 : Nat) : Int) + 1 ∧
    ((pinBoxes_activated triggerState 5 0).inputsMap.value (u8 (0 : Nat))).val = -1 ∧
    ((pinBoxes_activated triggerState 5 0).currentPins.value 5).val = btnUnmapped :=
  ⟨by decide, (unmap_bound_pin triggerState 5 0 (by decide)).1,
    (unmap_bound_pin triggerState 5 0 (by decide)).2.1⟩

theorem foldl_snoc_map {α : Type} (f : Nat → α) (l : List Nat) : ∀ q : List α,
    l.foldl (fun acc i => acc ++ [f i]) q = q ++ l.map f := by
  induction l with
  | nil => intro q; simp
  | cons a l ih => intro q; rw [List.foldl_cons, ih]; simp

theorem foldl_snoc2_map {α : Type} (f g : Nat → α) (l : List Nat) : ∀ q : List α,
    l.foldl (fun acc i => acc ++ [f i] ++ [g i]) q = q ++ (l.map (fun i => [f i, g i])).flatten := by
  induction l with
  | nil => intro q; simp
  | cons a l ih => intro q; rw [List.foldl_cons, ih]; simp

/-- C13. The queue built by `on_confirmButton_clicked` is the one described:
it equals `specQueue`, ends with `XS` in every state, and has 26 or 27
entries without custom pins and 51 or 52 with them (the larger number when
the device name is not empty). -/
theorem buildQueue_spec (s : State) :
    buildQueue s = specQueue s ∧
    (buildQueue s).getLast? = some "XS" ∧
    (buildQueue s).length =
      (if s.boolSettings customPins = true then 51 else 26) +
      (if s.tinyUSBtable.tinyUSBname.isEmpty = true then 0 else 1) := by
  have e : buildQueue s = specQueue s := by
    unfold buildQueue specQueue
    simp only [forLoop, INPUTS_COUNT, foldl_snoc_map, foldl_snoc2_map]
    cases hc : s.boolSettings customPins <;> cases hn : s.tinyUSBtable.tinyUSBname.isEmpty <;>
      simp
  refine ⟨e, ?_, ?_⟩
  · unfold buildQueue
    simp
  · rw [e]
    unfold specQueue
    cases hc : s.boolSettings customPins <;> cases hn : s.tinyUSBtable.tinyUSBname.isEmpty <;>
      simp [List.range']

theorem QMap.ne_of_ne (a b : QMap) (h : a ≠ b) : a.ne b = true := (QMap.ne_iff a b).2 h

/-- C18. The pin map counts as one unit: against the same state with two
equal maps, the count is one more when custom pins are on and the maps differ
(in however many entries), and the same when they are equal or when custom
pins are off. -/
theorem pin_map_counts_once (s : State) (m m' : QMap) :
    (s.boolSettings customPins = true → m' ≠ m →
      diffCount (withMaps s m m') = diffCount (withMaps s QMap.empty QMap.empty) + 1) ∧
    (s.boolSettings customPins = true → m' = m →
      diffCount (withMaps s m m') = diffCount (withMaps s QMap.empty QMap.empty)) ∧
    (s.boolSettings customPins = false →
      diffCount (withMaps s m m') = diffCount (withMaps s QMap.empty QMap.empty)) := by
  simp only [diffCount_eq, diffConds, tally, withMaps]
  refine ⟨?_, ?_, ?_⟩
  · intro hc hne
    simp only [hc, QMap.ne_of_ne _ _ hne, QMap.ne_self, Bool.and_true, Bool.and_false,
      Bool.toNat_true, Bool.toNat_false]
    omega
  · intro hc he
    simp only [hc, he, QMap.ne_self, Bool.and_false]
  · intro hc
    simp only [hc, Bool.false_and]

set_option maxRecDepth 1000000 in
/-- C19 as stated fails: in `strayPinState` (custom pins off, working pin map
changed) setting only the working custom-pins flag raises the count from 0
to 1. -/
theorem custom_flag_changes_count :
    diffCount strayPinState = 0 ∧ diffCount (setFlag strayPinState true) = 1 := by
  decide

/-- C19 (as amended). The flag's own difference is never counted: changing
only the working custom-pins flag leaves the count unchanged when the two pin
maps are equal; when they differ, the count with the flag set is one more
than with the flag cleared (the pin-map unit). -/
theorem custom_flag_gates_pin_unit (s : State) (b : Bool) :
    (s.inputsMap_orig = s.inputsMap → diffCount (setFlag s b) = diffCount s) ∧
    (s.inputsMap_orig ≠ s.inputsMap →
      diffCount (setFlag s true) = diffCount (setFlag s false) + 1) := by
  simp only [diffCount_eq, diffConds, tally, setFlag, arrSet, customPins]
  refine ⟨?_, ?_⟩
  · intro he
    simp [he, QMap.ne_self]
  · intro hne
    simp [QMap.ne_of_ne _ _ hne]
    omega

theorem diffCount_of_synced (s : State) (h : Synced s) : diffCount s = 0 := by
  obtain ⟨h1, h2, h3, h4, h5, h6⟩ := h
  rw [diffCount_eq]
  simp [diffConds, tally, h1, h2, h3, h4, h5, h6, QMap.ne_self]

theorem diffCount_flip_bool (s : State) (i : Fin 8) (b : Bool) (hi : i ≠ 0)
    (heq : s.boolSettings i = s.boolSettings_orig i) (hb : b = !s.boolSettings i) :
    diffCount { s with boolSettings := arrSet s.boolSettings i b } = diffCount s + 1 := by
  simp only [diffCount_eq, hb]
  fin_cases i
  · exact absurd rfl hi
  all_goals
    simp only [diffConds, tally, arrSet, customPins] at heq ⊢
    simp at heq ⊢
    simp [heq]
    try omega

/-- C15. In a state where every working copy equals its synced copy, the
toggle slot of a flag `i` in 1..7 with the opposite value gives a count of
exactly 1; after a commit that ends with `success` set the synced flag is the
edited value and the count is 0. -/
theorem edit_then_commit (s : State) (i : Fin 8) (arg1 : Int) (p : SerialPort)
    (hi : i ≠ 0) (hs : Synced s) (hflip : toBool arg1 = !s.boolSettings i)
    (hopen : p.isOpen = true)
    (hok : (commitRun (on_toggle_stateChanged i s arg1) p).1 = true) :
    (on_toggle_stateChanged i s arg1).settingsDiff = 1 ∧
    (on_confirmButton_clicked (on_toggle_stateChanged i s arg1) p true).1.boolSettings_orig i
      = toBool arg1 ∧
    (on_confirmButton_clicked (on_toggle_stateChanged i s arg1) p true).1.settingsDiff = 0 := by
  have hcount : (on_toggle_stateChanged i s arg1).settingsDiff = 1 := by
    have := diffCount_flip_bool s i (toBool arg1) hi (by rw [hs.1]) hflip
    rw [diffCount_of_synced s hs] at this
    simpa [on_toggle_stateChanged, DiffUpdate] using this
  refine ⟨hcount, ?_, ?_⟩
  · rw [on_confirmButton_clicked_eq _ p hopen, if_pos hok]
    simp [DiffUpdate, SyncSettings_eq, on_toggle_stateChanged, arrSet]
  · rw [on_confirmButton_clicked_eq _ p hopen, if_pos hok]
    have h := diffCount_SyncSettings
      { (on_toggle_stateChanged i s arg1) with serialActive := true, confirmEnabled := false }
      (fun j => by
        have e : (on_toggle_stateChanged i s arg1).profilesTable_orig = (on_toggle_stateChanged i s arg1).profilesTable := hs.2.2.2.2.1
        simp only [e, and_self])
    simpa [DiffUpdate] using h

/-- Witness for C15: rumble (index 1) is switched on in the loaded state and
committed on a port that acknowledges everything. -/
theorem edit_then_commit_witness :
    (1 : Fin 8) ≠ 0 ∧ Synced loadedState ∧ toBool 2 = (!loadedState.boolSettings 1) ∧
    ackPort.isOpen = true ∧ (commitRun (on_toggle_stateChanged 1 loadedState 2) ackPort).1 = true ∧
    ((on_toggle_stateChanged 1 loadedState 2).settingsDiff = 1 ∧
     (on_confirmButton_clicked (on_toggle_stateChanged 1 loadedState 2) ackPort true).1.boolSettings_orig 1
       = toBool 2 ∧
     (on_confirmButton_clicked (on_toggle_stateChanged 1 loadedState 2) ackPort true).1.settingsDiff = 0) :=
  ⟨by decide, ⟨rfl, rfl, rfl, rfl, rfl, rfl⟩, by decide, rfl, by decide,
    edit_then_commit loadedState 1 2 ackPort (by decide) ⟨rfl, rfl, rfl, rfl, rfl, rfl⟩
      (by decide) rfl (by decide)⟩

theorem syncedCopies_DiffUpdate (s : State) : syncedCopies (DiffUpdate s) = syncedCopies s := rfl

theorem syncedCopies_pinBoxes (s : State) (pin : U8) (index : Int) :
    syncedCopies (pinBoxes_activated s pin index) = syncedCopies s := by
  unfold pinBoxes_activated
  by_cases h0 : index = 0
  · simp [h0, DiffUpdate, syncedCopies]
  · by_cases h1 : s.pinBoxesOldIndex pin = index
    · simp [h0, h1, DiffUpdate, syncedCopies]
    · by_cases hv : (s.currentPins.value pin).val > 0 <;>
        simp [h0, h1, hv, sweep_fold, DiffUpdate, syncedCopies]

theorem syncedCopies_isChecked (s : State) (p : SerialPort) (slot : Fin 4) (c : Bool) :
    syncedCopies (selectedProfile_isChecked s p slot c).1 = syncedCopies s := by
  unfold selectedProfile_isChecked
  split_ifs <;> rfl

theorem syncedCopies_statusEvent (s : State) (p : SerialPort) (line : String)
    (r : State × SerialPort) (h : statusEvent s p line = some r) :
    syncedCopies r.1 = syncedCopies s := by
  unfold statusEvent at h
  generalize u8 (toInt (trimmed (right line 3))) = sel at h
  by_cases c1 : contains line "Pressed:" = true
  · rw [if_pos c1] at h; cases h; rfl
  rw [if_neg c1] at h
  by_cases c2 : contains line "Released:" = true
  · rw [if_pos c2] at h; cases h; rfl
  rw [if_neg c2] at h
  by_cases c3 : contains line "Profile: " = true
  · rw [if_pos c3] at h
    simp only [Option.some.injEq] at h
    rw [← h]
    by_cases hs : (sel != s.board.selectedProfile) = true
    · rw [if_pos hs]; rfl
    · rw [if_neg hs]; rfl
  rw [if_neg c3] at h
  by_cases c4 : contains line "UpdatedProf: " = true
  · rw [if_pos c4] at h
    by_cases h4 : sel.val < 4
    · rw [dif_pos h4] at h
      simp only [Option.some.injEq] at h
      rw [← h]
      have hk := syncedCopies_isChecked s p ⟨sel.val, h4⟩ true
      by_cases hs : (sel != s.board.selectedProfile) = true
      · rw [if_pos hs]; exact hk
      · rw [if_neg hs]; rfl
    · rw [dif_neg h4] at h
      exact absurd h (by simp)
  · rw [if_neg c4] at h; cases h; rfl

theorem syncedCopies_idleLoop (fuel : Nat) : ∀ (s : State) (p : SerialPort)
    (r : State × SerialPort), idleLoop fuel s p = some r → syncedCopies r.1 = syncedCopies s := by
  induction fuel with
  | zero => intro s p r h; simp only [idleLoop, Option.some.injEq] at h; rw [← h]
  | succ n ih =>
    intro s p r h
    rw [idleLoop] at h
    by_cases he : p.atEnd = true
    · rw [if_pos he] at h; simp only [Option.some.injEq] at h; rw [← h]
    · rw [if_neg he] at h
      cases hev : statusEvent s p.readLine.2 p.readLine.1 with
      | none => rw [hev] at h; exact absurd h (by simp)
      | some sp =>
        rw [hev] at h
        rw [ih sp.1 sp.2 r h]
        exact syncedCopies_statusEvent s _ _ sp hev

theorem forLoop_inv {σ : Type} (P : σ → Prop) (lo hi : Nat) (body : Nat → σ → σ) (init : σ)
    (h0 : P init) (hstep : ∀ i x, P x → P (body i x)) : P (forLoop lo hi body init) := by
  unfold forLoop
  generalize List.range' lo (hi - lo) = l
  induction l generalizing init with
  | nil => exact h0
  | cons a l ih => exact ih _ (hstep a init h0)

theorem loadBoolean_frame (i : Nat) (sp : State × SerialPort) :
    maskBools (loadBoolean i sp).1 = maskBools sp.1 := rfl

theorem loadBooleans_frame (sp : State × SerialPort) :
    maskBools (loadBooleans sp).1 = maskBools sp.1 :=
  forLoop_inv (fun x : State × SerialPort => maskBools x.1 = maskBools sp.1) 1 8 loadBoolean sp rfl
    (fun i x h => (loadBoolean_frame i x).trans h)

theorem loadPinFlag_frame (sp : State × SerialPort) :
    maskBools (loadPinFlag sp).1 = maskBools sp.1 := rfl

theorem loadPinOn_frame (tm : Bool) (i : Nat) (sp : State × SerialPort) :
    maskPins (loadPinOn tm i sp).1 = maskPins sp.1 := rfl

theorem loadPinOff_frame (tm : Bool) (i : Nat) (sp : State × SerialPort) :
    maskPins (loadPinOff tm i sp).1 = maskPins sp.1 := rfl

theorem loadPinLines_frame (sp : State × SerialPort) :
    maskPins (loadPinLines sp).1 = maskPins sp.1 := by
  unfold loadPinLines
  split_ifs
  · exact forLoop_inv (fun x : State × SerialPort => maskPins x.1 = maskPins sp.1) 0 INPUTS_COUNT
      (loadPinOn sp.1.testMode) sp rfl (fun i x h => (loadPinOn_frame _ i x).trans h)
  · exact forLoop_inv (fun x : State × SerialPort => maskPins x.1 = maskPins sp.1) 0 INPUTS_COUNT
      (loadPinOff sp.1.testMode) sp rfl (fun i x h => (loadPinOff_frame _ i x).trans h)

theorem loadTunable_frame (i : Nat) (sp : State × SerialPort) :
    maskTunables (loadTunable i sp).1 = maskTunables sp.1 := rfl

theorem loadTunables_frame (sp : State × SerialPort) :
    maskTunables (loadTunables sp).1 = maskTunables sp.1 :=
  forLoop_inv (fun x : State × SerialPort => maskTunables x.1 = maskTunables sp.1) 0 8 loadTunable
    (sp.1, _) rfl (fun i x h => (loadTunable_frame i x).trans h)

theorem loadProfile_frame (i : Nat) (sp : State × SerialPort) :
    maskProfiles (loadProfile i sp).1 = maskProfiles sp.1 := rfl

theorem loadProfiles_frame (sp : State × SerialPort) :
    maskProfiles (loadProfiles sp).1 = maskProfiles sp.1 :=
  forLoop_inv (fun x : State × SerialPort => maskProfiles x.1 = maskProfiles sp.1) 0 4 loadProfile
    sp rfl (fun i x h => (loadProfile_frame i x).trans h)

theorem headD_drop (l : List String) (d : String) : ∀ i, (l.drop i).headD d = l.getD i d := by
  induction l with
  | nil => intro i; simp
  | cons a l ih =>
    intro i
    cases i with
    | zero => rfl
    | succ i => simp

theorem pinPing_ne (tm : Bool) (i : Nat) (p : SerialPort) (h : i ≠ 14) : pinPing tm i p = p := by
  simp [pinPing, h]

theorem pinPort_add (tm : Bool) (a b : Nat) : ∀ (lo : Nat) (p : SerialPort),
    pinPort tm lo (a + b) p = pinPort tm (lo + a) b (pinPort tm lo a p) := by
  induction a with
  | zero => intro lo p; simp [pinPort]
  | succ a ih =>
    intro lo p
    rw [show a + 1 + b = (a + b) + 1 by omega]
    simp only [pinPort]
    rw [ih (lo + 1)]
    rw [show lo + 1 + a = lo + (a + 1) by omega]

theorem pinPort_quiet (tm : Bool) (n : Nat) : ∀ (lo : Nat) (p : SerialPort),
    (lo + n ≤ 14 ∨ 14 < lo) → pinPort tm lo n p = { p with inbuf := p.inbuf.drop n } := by
  induction n with
  | zero => intro lo p _; simp [pinPort]
  | succ n ih =>
    intro lo p h
    simp only [pinPort]
    rw [pinPing_ne tm lo _ (by omega), ih (lo + 1) _ (by omega)]
    simp [SerialPort.readLine]

theorem pinPort_15 (tm : Bool) (p : SerialPort) : pinPort tm 0 15 p = pinPingPort tm p := by
  rw [show (15 : Nat) = 14 + 1 by rfl, pinPort_add tm 14 1 0 p, pinPort_quiet tm 14 0 p (by omega)]
  simp [pinPort, pinPingPort, SerialPort.readLine]

theorem pinPort_25 (tm : Bool) (p : SerialPort) :
    pinPort tm 0 25 p = { pinPingPort tm p with inbuf := (pinPingPort tm p).inbuf.drop 10 } := by
  rw [show (25 : Nat) = 15 + 10 by rfl, pinPort_add tm 15 10 0 p, pinPort_15,
    pinPort_quiet tm 10 (0 + 15) _ (by omega)]

theorem pinPort_line (tm : Bool) (p : SerialPort) (i : Nat) :
    (pinPort tm 0 i p).readLine.1 = pinLine tm p i := by
  unfold pinLine
  by_cases h : i < 15
  · rw [if_pos h, pinPort_quiet tm i 0 p (by omega)]
    exact headD_drop _ _ _
  · rw [if_neg h]
    have e : i = 15 + (i - 15) := by omega
    rw [e, pinPort_add tm 15 (i - 15) 0 p, pinPort_15, pinPort_quiet tm _ (0 + 15) _ (by omega)]
    rw [← e]
    exact headD_drop _ _ _

theorem pinOn_port (tm : Bool) (n : Nat) : ∀ (lo : Nat) (sp : State × SerialPort),
    ((List.range' lo n).foldl (fun acc i => loadPinOn tm i acc) sp).2 = pinPort tm lo n sp.2 := by
  induction n with
  | zero => intro lo sp; rfl
  | succ n ih =>
    intro lo sp
    simp only [List.range', List.foldl]
    rw [ih]
    rfl

theorem pinOff_port (tm : Bool) (n : Nat) : ∀ (lo : Nat) (sp : State × SerialPort),
    ((List.range' lo n).foldl (fun acc i => loadPinOff tm i acc) sp).2 = pinPort tm lo n sp.2 := by
  induction n with
  | zero => intro lo sp; rfl
  | succ n ih =>
    intro lo sp
    simp only [List.range', List.foldl]
    rw [ih]
    rfl

theorem pinOn_map (tm : Bool) (n : Nat) : ∀ (lo : Nat) (sp : State × SerialPort) (k : U8),
    lo + n ≤ 256 →
    ((List.range' lo n).foldl (fun acc i => loadPinOn tm i acc) sp).1.inputsMap_orig k =
      if lo ≤ k.val ∧ k.val < lo + n then
        some (i8 (toInt (pinPort tm lo (k.val - lo) sp.2).readLine.1))
      else sp.1.inputsMap_orig k := by
  induction n with
  | zero =>
    intro lo sp k _
    simp only [List.range', List.foldl]
    rw [if_neg (by omega)]
  | succ n ih =>
    intro lo sp k h
    simp only [List.range', List.foldl]
    rw [ih (lo + 1) _ k (by omega)]
    by_cases h1 : lo + 1 ≤ k.val
    · have e : k.val - lo = (k.val - (lo + 1)) + 1 := by omega
      have hk : ¬ k = u8 (lo : Int) := by
        rw [eq_u8_natCast_iff k lo (by omega)]; omega
      rw [e]
      simp only [pinPort, loadPinOn, QMap.set, if_neg hk]
      by_cases h2 : k.val < lo + 1 + n
      · rw [if_pos ⟨h1, h2⟩, if_pos ⟨by omega, by omega⟩]
      · rw [if_neg (by omega), if_neg (by omega)]
    · rw [if_neg (by omega)]
      by_cases h3 : k.val = lo
      · have hk : k = u8 (lo : Int) := (eq_u8_natCast_iff k lo (by omega)).2 h3
        rw [if_pos ⟨by omega, by omega⟩, h3, Nat.sub_self]
        simp only [pinPort, loadPinOn, QMap.set, hk, if_true]
      · have hk : ¬ k = u8 (lo : Int) := by
          rw [eq_u8_natCast_iff k lo (by omega)]; exact h3
        rw [if_neg (by omega)]
        simp only [loadPinOn, QMap.set, if_neg hk]

theorem pinOff_maps (tm : Bool) (n : Nat) : ∀ (lo : Nat) (sp : State × SerialPort),
    ((List.range' lo n).foldl (fun acc i => loadPinOff tm i acc) sp).1.inputsMap =
      (List.range' lo n).foldl (fun m (i : Nat) => QMap.set m (u8 (i : Int)) (i8 (-1))) sp.1.inputsMap ∧
    ((List.range' lo n).foldl (fun acc i => loadPinOff tm i acc) sp).1.inputsMap_orig =
      (List.range' lo n).foldl (fun m (i : Nat) => QMap.set m (u8 (i : Int)) (i8 (-1))) sp.1.inputsMap_orig := by
  induction n with
  | zero => intro lo sp; exact ⟨rfl, rfl⟩
  | succ n ih =>
    intro lo sp
    simp only [List.range', List.foldl]
    exact ih (lo + 1) _

theorem pinPingPort_inbuf (p : SerialPort) :
    (pinPingPort false p).inbuf = p.inbuf.drop 15 ++ nextArrival p := by
  unfold pinPingPort pinPing nextArrival SerialPort.waitForReadyRead SerialPort.write
  rcases h : p.arrivals with _ | ⟨a, rest⟩
  · simp
  · cases a <;> simp [readyReadBusy]

theorem loadPinLines_port (sp : State × SerialPort) :
    (loadPinLines sp).2 = { pinPingPort sp.1.testMode sp.2 with
      inbuf := (pinPingPort sp.1.testMode sp.2).inbuf.drop 10 } := by
  rw [← pinPort_25]
  unfold loadPinLines forLoop INPUTS_COUNT
  simp only [Nat.sub_zero]
  by_cases hon : sp.1.boolSettings customPins = true
  · rw [if_pos hon, pinOn_port]
  · rw [if_neg hon, pinOff_port]

/-- C17. The pin lines of `SerialLoad` (the part between the flag line and the
sentinel check), from any state and port. Whatever the flag, the port ends as
after 25 reads: fifteen lines are taken, the ping `.` is sent and waited for,
and ten more lines are taken. With the flag on, synced entry `i` (0..24) holds
the integer of the line read by pass `i`, as the signed 8-bit entry type stores
it (the integer itself when it lies in -128..127), and the working map ends
equal to the synced map. With the flag off, entries 0..24 of both maps are -1.
Outside test mode and with at least fifteen lines unread at the start, the
lines read are the first 25 of the unread lines followed by what arrives at
the ping, and exactly these are gone from the buffer afterwards. -/
theorem pin_load_lines (sp : State × SerialPort) :
    (loadPinLines sp).2 = { pinPingPort sp.1.testMode sp.2 with
        inbuf := (pinPingPort sp.1.testMode sp.2).inbuf.drop 10 } ∧
    (sp.1.boolSettings customPins = true →
      (∀ i : Nat, i < 25 →
        (loadPinLines sp).1.inputsMap_orig (u8 i)
            = some (i8 (toInt (pinLine sp.1.testMode sp.2 i))) ∧
        (-128 ≤ toInt (pinLine sp.1.testMode sp.2 i) → toInt (pinLine sp.1.testMode sp.2 i) ≤ 127 →
          ((loadPinLines sp).1.inputsMap_orig.value (u8 i)).val
            = toInt (pinLine sp.1.testMode sp.2 i))) ∧
      (loadPinLines sp).1.inputsMap = (loadPinLines sp).1.inputsMap_orig) ∧
    (sp.1.boolSettings customPins = false →
      ∀ i : Nat, i < 25 →
        (loadPinLines sp).1.inputsMap (u8 i) = some (i8 (-1)) ∧
        (loadPinLines sp).1.inputsMap_orig (u8 i) = some (i8 (-1)) ∧
        ((loadPinLines sp).1.inputsMap.value (u8 i)).val = -1 ∧
        ((loadPinLines sp).1.inputsMap_orig.value (u8 i)).val = -1) ∧
    (sp.1.testMode = false → 15 ≤ sp.2.inbuf.length →
      (loadPinLines sp).2.inbuf = (sp.2.inbuf ++ nextArrival sp.2).drop 25 ∧
      ∀ i : Nat, i < 25 →
        pinLine sp.1.testMode sp.2 i = (sp.2.inbuf ++ nextArrival sp.2).getD i "") := by
  have hport := loadPinLines_port sp
  refine ⟨hport, ?_, ?_, ?_⟩
  · intro hon
    have e : (loadPinLines sp).1.inputsMap_orig =
        ((List.range' 0 25).foldl (fun acc i => loadPinOn sp.1.testMode i acc) sp).1.inputsMap_orig := by
      unfold loadPinLines forLoop INPUTS_COUNT
      simp only [Nat.sub_zero]
      rw [if_pos hon]
    refine ⟨?_, ?_⟩
    · intro i hi
      have hv : (loadPinLines sp).1.inputsMap_orig (u8 i)
          = some (i8 (toInt (pinLine sp.1.testMode sp.2 i))) := by
        rw [e, pinOn_map _ 25 0 sp (u8 i) (by omega), u8_natCast_val i (by omega),
          if_pos ⟨by omega, by omega⟩, Nat.sub_zero, pinPort_line]
      refine ⟨hv, ?_⟩
      intro h1 h2
      rw [QMap.value, hv, Option.getD_some, i8_val_of_range _ h1 h2]
    · unfold loadPinLines
      rw [if_pos hon]
  · intro hoff
    have hoff2 : ¬ (sp.1.boolSettings customPins = true) := by simp [hoff]
    have e : (loadPinLines sp).1 =
        ((List.range' 0 25).foldl (fun acc i => loadPinOff sp.1.testMode i acc) sp).1 := by
      unfold loadPinLines forLoop INPUTS_COUNT
      simp only [Nat.sub_zero]
      rw [if_neg hoff2]
    intro i hi
    have h1 : (loadPinLines sp).1.inputsMap (u8 i) = some (i8 (-1)) := by
      rw [e, (pinOff_maps sp.1.testMode 25 0 sp).1,
        foldl_set_range (i8 (-1)) 25 0 sp.1.inputsMap (u8 i) (by omega),
        u8_natCast_val i (by omega), if_pos ⟨by omega, by omega⟩]
    have h2 : (loadPinLines sp).1.inputsMap_orig (u8 i) = some (i8 (-1)) := by
      rw [e, (pinOff_maps sp.1.testMode 25 0 sp).2,
        foldl_set_range (i8 (-1)) 25 0 sp.1.inputsMap_orig (u8 i) (by omega),
        u8_natCast_val i (by omega), if_pos ⟨by omega, by omega⟩]
    refine ⟨h1, h2, ?_, ?_⟩
    · rw [QMap.value, h1]; exact i8_neg_one
    · rw [QMap.value, h2]; exact i8_neg_one
  · intro htm hlen
    rw [hport, htm]
    refine ⟨?_, ?_⟩
    · show ((pinPingPort false sp.2).inbuf).drop 10 = _
      rw [pinPingPort_inbuf, ← List.drop_append_of_le_length hlen, List.drop_drop]
    · intro i hi
      unfold pinLine
      by_cases h : i < 15
      · rw [if_pos h, List.getD_append _ _ _ _ (by omega)]
      · rw [if_neg h, pinPingPort_inbuf, ← List.drop_append_of_le_length hlen,
          ← headD_drop, List.drop_drop, headD_drop]
        congr 1
        omega

/-- The pin lines at a concrete input (C17): from `customState` (flag on) and
`pinsPort`, only the sentinel is left unread, and synced entry 3 holds the
pin 5 named by the line of index 3. -/
theorem pin_load_lines_witness :
    (loadPinLines (customState, pinsPort)).2.inbuf = ["-127\r\n"] ∧
    (loadPinLines (customState, pinsPort)).1.inputsMap_orig (u8 3) = some (i8 5) ∧
    (loadPinLines (customState, pinsPort)).1.inputsMap (u8 24) = some (i8 (-1)) :=
  ⟨((pin_load_lines (customState, pinsPort)).2.2.2 rfl (by decide)).1.trans (by decide),
   (((pin_load_lines (customState, pinsPort)).2.1 rfl).1 3 (by decide)).1.trans (by decide),
   (congrFun ((pin_load_lines (customState, pinsPort)).2.1 rfl).2 (u8 24)).trans
     ((((pin_load_lines (customState, pinsPort)).2.1 rfl).1 24 (by decide)).1.trans (by decide))⟩

theorem loadBooleans_sent (sp : State × SerialPort) : (loadBooleans sp).2.sent = sp.2.sent :=
  forLoop_inv (fun x : State × SerialPort => x.2.sent = sp.2.sent) 1 8 loadBoolean sp rfl
    (fun _ _ h => h)

theorem loadPinFlag_sent (sp : State × SerialPort) :
    (loadPinFlag sp).2.sent = sp.2.sent ++ ["Xlp"] := by
  unfold loadPinFlag
  simp only [sent_readLine, sent_waitForReadyRead, sent_write]

theorem loadPinLines_sent (sp : State × SerialPort) :
    (loadPinLines sp).2.sent = sp.2.sent ++ ["."] := by
  rw [loadPinLines_port]
  show (pinPingPort sp.1.testMode sp.2).sent = _
  unfold pinPingPort pinPing
  rw [if_pos (by decide : ((14 : Nat) == 14) = true), sent_waitForReadyRead, sent_write]

theorem loadToSentinel_sent (s : State) (p : SerialPort) :
    (loadToSentinel s p).2.sent = p.sent ++ ["Xlp", "."] := by
  unfold loadToSentinel
  rw [loadPinLines_sent, loadPinFlag_sent, loadBooleans_sent]
  simp

theorem loadToSentinel_keeps {α : Type} (f : State → α) (hB : ∀ s, f (maskBools s) = f s)
    (hP : ∀ s, f (maskPins s) = f s) (s : State) (p : SerialPort) :
    f (loadToSentinel s p).1 = f s := by
  unfold loadToSentinel
  calc f (loadPinLines (loadPinFlag (loadBooleans (s, p)))).1
      = f (maskPins (loadPinLines (loadPinFlag (loadBooleans (s, p)))).1) := (hP _).symm
    _ = f (maskPins (loadPinFlag (loadBooleans (s, p))).1) := by rw [loadPinLines_frame]
    _ = f (loadPinFlag (loadBooleans (s, p))).1 := hP _
    _ = f (maskBools (loadPinFlag (loadBooleans (s, p))).1) := (hB _).symm
    _ = f (maskBools (loadBooleans (s, p)).1) := by rw [loadPinFlag_frame]
    _ = f (maskBools s) := by rw [loadBooleans_frame]
    _ = f s := hB _

seal loadToSentinel loadProfiles loadTunables trimmed in
theorem SerialLoad_eq (s : State) (p : SerialPort) : SerialLoad s p =
    if (p.write "Xlb").waitForBytesWritten.1 = true then
      if (((p.write "Xlb").waitForBytesWritten.2).waitForReadyRead s.testMode).1 = true then
        if (trimmed (sentinelPoint s p).2.readLine.1 != "-127") = true then
          ((sentinelPoint s p).1, (sentinelPoint s p).2.readLine.2)
        else
          ({ (loadProfiles (loadTunables ((sentinelPoint s p).1, (sentinelPoint s p).2.readLine.2))).1 with serialActive := false },
            (loadProfiles (loadTunables ((sentinelPoint s p).1, (sentinelPoint s p).2.readLine.2))).2)
      else ({ s with serialActive := true },
        (((p.write "Xlb").waitForBytesWritten.2).waitForReadyRead s.testMode).2)
    else ({ s with serialActive := true }, (p.write "Xlb").waitForBytesWritten.2) := rfl

theorem SerialLoad_no_sentinel (s : State) (p : SerialPort)
    (hw : (p.write "Xlb").waitForBytesWritten.1 = true)
    (hr : (((p.write "Xlb").waitForBytesWritten.2).waitForReadyRead s.testMode).1 = true)
    (hno : trimmed (sentinelPoint s p).2.readLine.1 ≠ "-127") :
    SerialLoad s p = ((sentinelPoint s p).1, (sentinelPoint s p).2.readLine.2) := by
  rw [SerialLoad_eq, if_pos hw, if_pos hr, if_pos (bne_iff_ne.2 hno)]

/-- C16. When `SerialLoad` has written `Xlb` and got an answer, and the line at
the sentinel position (the one after the 25 pin lines) is not `-127` after
trimming, the load ends at the sentinel check: the result is the state and
port of that check with only the checked line taken. The commands written
are `Xlb`, `Xlp` and the ping `.` (no `Xls`, no `XlP<n>`), no line after the
checked one is taken and no further wait is made, and both copies of the
tunables table and of the profile records are those of the start. -/
theorem missing_sentinel_stops_load (s : State) (p : SerialPort)
    (hw : (p.write "Xlb").waitForBytesWritten.1 = true)
    (hr : (((p.write "Xlb").waitForBytesWritten.2).waitForReadyRead s.testMode).1 = true)
    (hno : trimmed (sentinelPoint s p).2.readLine.1 ≠ "-127") :
    SerialLoad s p = ((sentinelPoint s p).1, (sentinelPoint s p).2.readLine.2) ∧
    (SerialLoad s p).2.sent = p.sent ++ ["Xlb", "Xlp", "."] ∧
    (SerialLoad s p).2.inbuf = (sentinelPoint s p).2.inbuf.tail ∧
    (SerialLoad s p).2.arrivals = (sentinelPoint s p).2.arrivals ∧
    (SerialLoad s p).2.writeAcks = (sentinelPoint s p).2.writeAcks ∧
    (SerialLoad s p).1.settingsTable = s.settingsTable ∧
    (SerialLoad s p).1.settingsTable_orig = s.settingsTable_orig ∧
    (SerialLoad s p).1.profilesTable = s.profilesTable ∧
    (SerialLoad s p).1.profilesTable_orig = s.profilesTable_orig := by
  have e := SerialLoad_no_sentinel s p hw hr hno
  have hk : (fun x : State => (x.settingsTable, x.settingsTable_orig, x.profilesTable,
      x.profilesTable_orig)) (sentinelPoint s p).1 = (s.settingsTable, s.settingsTable_orig,
      s.profilesTable, s.profilesTable_orig) :=
    loadToSentinel_keeps
      (fun x : State => (x.settingsTable, x.settingsTable_orig, x.profilesTable, x.profilesTable_orig))
      (fun _ => rfl) (fun _ => rfl) { s with serialActive := true }
      (((p.write "Xlb").waitForBytesWritten.2).waitForReadyRead s.testMode).2
  have hs : (sentinelPoint s p).2.sent = p.sent ++ ["Xlb", "Xlp", "."] := by
    unfold sentinelPoint
    rw [loadToSentinel_sent, sent_waitForReadyRead, sent_waitForBytesWritten, sent_write]
    simp
  rw [e]
  generalize sentinelPoint s p = x at hk hs
  simp only [Prod.mk.injEq] at hk
  exact ⟨rfl, hs, rfl, rfl, rfl, hk.1, hk.2.1, hk.2.2.1, hk.2.2.2⟩

set_option maxRecDepth 100000 in
/-- The missing sentinel at a concrete input (C16): from `editedState` and
`shortPort` the load stops after `Xlb`, `Xlp` and the ping; the eight tunable
lines the device would send are never asked for. -/
theorem missing_sentinel_stops_load_witness :
    (SerialLoad editedState shortPort).2.sent = ["Xlb", "Xlp", "."] ∧
    (SerialLoad editedState shortPort).2.inbuf = [] ∧
    (SerialLoad editedState shortPort).1.settingsTable = editedState.settingsTable ∧
    (SerialLoad editedState shortPort).1.profilesTable_orig = editedState.profilesTable_orig :=
  ⟨(missing_sentinel_stops_load editedState shortPort (by decide) (by decide) (by decide)).2.1,
   (missing_sentinel_stops_load editedState shortPort (by decide) (by decide)
      (by decide)).2.2.1.trans (by decide),
   (missing_sentinel_stops_load editedState shortPort (by decide) (by decide)
      (by decide)).2.2.2.2.2.1,
   (missing_sentinel_stops_load editedState shortPort (by decide) (by decide)
      (by decide)).2.2.2.2.2.2.2.2⟩

theorem foldl_keep {σ : Type} (Q : σ → Prop) (body : Nat → σ → σ)
    (hkeep : ∀ i x, Q x → Q (body i x)) (l : List Nat) :
    ∀ init, Q init → Q (l.foldl (fun acc i => body i acc) init) := by
  induction l with
  | nil => intro init h; exact h
  | cons a l ih => intro init h; exact ih _ (hkeep a init h)

theorem foldl_collect {σ ι : Type} (Q : σ → ι → Prop) (idx : Nat → ι) (body : Nat → σ → σ)
    (hkeep : ∀ i x j, Q x j → Q (body i x) j) (hset : ∀ i x, Q (body i x) (idx i))
    (l : List Nat) :
    ∀ init i, i ∈ l → Q (l.foldl (fun acc i => body i acc) init) (idx i) := by
  induction l with
  | nil => intro init i hi; cases hi
  | cons a l ih =>
    intro init i hi
    rcases List.mem_cons.1 hi with h | h
    · subst h
      exact foldl_keep (fun x => Q x (idx i)) body (fun k x hx => hkeep k x (idx i) hx) l _
        (hset i init)
    · exact ih _ i h

theorem fin_ofNat_val {n : Nat} (j : Fin (n + 1)) : Fin.ofNat j.val = j := by
  apply Fin.ext
  simp [Fin.ofNat, Nat.mod_eq_of_lt j.isLt]

theorem loadBoolean_set (i : Nat) (x : State × SerialPort) :
    (loadBoolean i x).1.boolSettings_orig (Fin.ofNat i) = (loadBoolean i x).1.boolSettings (Fin.ofNat i) := by
  simp [loadBoolean, arrSet]

theorem loadBoolean_keep (i : Nat) (x : State × SerialPort) (j : Fin 8)
    (h : x.1.boolSettings_orig j = x.1.boolSettings j) :
    (loadBoolean i x).1.boolSettings_orig j = (loadBoolean i x).1.boolSettings j := by
  by_cases hj : j = Fin.ofNat i
  · rw [hj]; exact loadBoolean_set i x
  · simp [loadBoolean, arrSet, hj, h]

theorem loadBooleans_agree (sp : State × SerialPort) (j : Fin 8) (hj : j ≠ 0) :
    (loadBooleans sp).1.boolSettings_orig j = (loadBooleans sp).1.boolSettings j := by
  have h := foldl_collect
    (fun (x : State × SerialPort) (j : Fin 8) => x.1.boolSettings_orig j = x.1.boolSettings j)
    (fun i => Fin.ofNat i) loadBoolean loadBoolean_keep loadBoolean_set (List.range' 1 7) sp j.val
    (List.mem_range'_1.2 ⟨Nat.pos_of_ne_zero (fun h0 => hj (Fin.ext h0)), by have := j.isLt; omega⟩)
  dsimp only at h
  rw [fin_ofNat_val] at h
  exact h

theorem loadPinFlag_agree (sp : State × SerialPort)
    (h : ∀ j : Fin 8, j ≠ 0 → sp.1.boolSettings_orig j = sp.1.boolSettings j) :
    (loadPinFlag sp).1.boolSettings_orig = (loadPinFlag sp).1.boolSettings := by
  funext j
  by_cases hj : j = customPins
  · simp [loadPinFlag, arrSet, hj]
  · have hj0 : j ≠ 0 := hj
    simp [loadPinFlag, arrSet, hj, h j hj0]

theorem loadPinLines_agree (sp : State × SerialPort)
    (h : (loadPinLines sp).1.boolSettings customPins = true) :
    (loadPinLines sp).1.inputsMap_orig = (loadPinLines sp).1.inputsMap := by
  have hb : (loadPinLines sp).1.boolSettings = sp.1.boolSettings := by
    have hm := congrArg State.boolSettings (loadPinLines_frame sp)
    exact hm
  rw [hb] at h
  unfold loadPinLines
  rw [if_pos h]

theorem loadTunable_set (i : Nat) (x : State × SerialPort) :
    (loadTunable i x).1.settingsTable_orig (Fin.ofNat i) = (loadTunable i x).1.settingsTable (Fin.ofNat i) := by
  simp [loadTunable, arrSet]

theorem loadTunable_keep (i : Nat) (x : State × SerialPort) (j : Fin 8)
    (h : x.1.settingsTable_orig j = x.1.settingsTable j) :
    (loadTunable i x).1.settingsTable_orig j = (loadTunable i x).1.settingsTable j := by
  by_cases hj : j = Fin.ofNat i
  · rw [hj]; exact loadTunable_set i x
  · simp [loadTunable, arrSet, hj, h]

theorem loadTunables_agree (sp : State × SerialPort) :
    (loadTunables sp).1.settingsTable_orig = (loadTunables sp).1.settingsTable := by
  funext j
  have h := foldl_collect
    (fun (x : State × SerialPort) (j : Fin 8) => x.1.settingsTable_orig j = x.1.settingsTable j)
    (fun i => Fin.ofNat i) loadTunable loadTunable_keep loadTunable_set (List.range' 0 8)
    (sp.1, ((sp.2.write "Xls").waitForBytesWritten.2.waitForReadyRead sp.1.testMode).2) j.val
    (List.mem_range'_1.2 ⟨Nat.zero_le _, by have := j.isLt; omega⟩)
  dsimp only at h
  rw [fin_ofNat_val] at h
  exact h

theorem loadProfile_set (i : Nat) (x : State × SerialPort) :
    (loadProfile i x).1.profilesTable_orig (Fin.ofNat i) = (loadProfile i x).1.profilesTable (Fin.ofNat i) := by
  simp [loadProfile, arrSet]

theorem loadProfile_keep (i : Nat) (x : State × SerialPort) (j : Fin 4)
    (h : x.1.profilesTable_orig j = x.1.profilesTable j) :
    (loadProfile i x).1.profilesTable_orig j = (loadProfile i x).1.profilesTable j := by
  by_cases hj : j = Fin.ofNat i
  · rw [hj]; exact loadProfile_set i x
  · simp [loadProfile, arrSet, hj, h]

theorem loadProfiles_agree (sp : State × SerialPort) :
    (loadProfiles sp).1.profilesTable_orig = (loadProfiles sp).1.profilesTable := by
  funext j
  have h := foldl_collect
    (fun (x : State × SerialPort) (j : Fin 4) => x.1.profilesTable_orig j = x.1.profilesTable j)
    (fun i => Fin.ofNat i) loadProfile loadProfile_keep loadProfile_set (List.range' 0 4) sp j.val
    (List.mem_range'_1.2 ⟨Nat.zero_le _, by have := j.isLt; omega⟩)
  dsimp only at h
  rw [fin_ofNat_val] at h
  exact h

theorem loadPinLines_bools (sp : State × SerialPort) :
    (loadPinLines sp).1.boolSettings_orig = sp.1.boolSettings_orig ∧
    (loadPinLines sp).1.boolSettings = sp.1.boolSettings := by
  have h1 := congrArg State.boolSettings_orig (loadPinLines_frame sp)
  have h2 := congrArg State.boolSettings (loadPinLines_frame sp)
  exact ⟨h1, h2⟩

theorem loadToSentinel_agree (s : State) (q : SerialPort) :
    (loadToSentinel s q).1.boolSettings_orig = (loadToSentinel s q).1.boolSettings ∧
    ((loadToSentinel s q).1.boolSettings customPins = true →
      (loadToSentinel s q).1.inputsMap_orig = (loadToSentinel s q).1.inputsMap) := by
  unfold loadToSentinel
  refine ⟨?_, loadPinLines_agree _⟩
  rw [(loadPinLines_bools _).1, (loadPinLines_bools _).2]
  exact loadPinFlag_agree _ (loadBooleans_agree (s, q))

theorem loadRest_keeps {α : Type} (f : State → α) (hT : ∀ s, f (maskTunables s) = f s)
    (hP : ∀ s, f (maskProfiles s) = f s) (y : State × SerialPort) :
    f (loadProfiles (loadTunables y)).1 = f y.1 := by
  calc f (loadProfiles (loadTunables y)).1
      = f (maskProfiles (loadProfiles (loadTunables y)).1) := (hP _).symm
    _ = f (maskProfiles (loadTunables y).1) := by rw [loadProfiles_frame]
    _ = f (loadTunables y).1 := hP _
    _ = f (maskTunables (loadTunables y).1) := (hT _).symm
    _ = f (maskTunables y.1) := by rw [loadTunables_frame]
    _ = f y.1 := hT _

theorem loadProfiles_tunables (sp : State × SerialPort) :
    (loadProfiles sp).1.settingsTable_orig = sp.1.settingsTable_orig ∧
    (loadProfiles sp).1.settingsTable = sp.1.settingsTable := by
  have h1 := congrArg State.settingsTable_orig (loadProfiles_frame sp)
  have h2 := congrArg State.settingsTable (loadProfiles_frame sp)
  exact ⟨h1, h2⟩

theorem loadRest_agree (y : State × SerialPort) :
    (loadProfiles (loadTunables y)).1.settingsTable_orig
      = (loadProfiles (loadTunables y)).1.settingsTable ∧
    (loadProfiles (loadTunables y)).1.profilesTable_orig
      = (loadProfiles (loadTunables y)).1.profilesTable := by
  refine ⟨?_, loadProfiles_agree _⟩
  have h1 : (loadProfiles (loadTunables y)).1.settingsTable_orig
      = (loadTunables y).1.settingsTable_orig := (loadProfiles_tunables _).1
  have h2 : (loadProfiles (loadTunables y)).1.settingsTable
      = (loadTunables y).1.settingsTable := (loadProfiles_tunables _).2
  rw [h1, h2]
  exact loadTunables_agree y

theorem diffCount_of_loaded (s : State) (h : Loaded s) : diffCount s = 0 := by
  obtain ⟨h1, h2, h3, h4, h5, h6⟩ := h
  rw [diffCount_eq]
  cases hc : s.boolSettings customPins
  · simp [diffConds, tally, h1, h2, h4, h5, h6, hc]
  · simp [diffConds, tally, h1, h2, h3 hc, h4, h5, h6, hc, QMap.ne_self]

theorem Loaded_flags (s : State) (a b : Bool) (h : Loaded s) :
    Loaded { s with serialActive := a, confirmEnabled := b } := h

seal loadToSentinel loadProfiles loadTunables trimmed in
/-- A load that clears `serialActive` ran to its end: both waits succeeded and
the sentinel was there; it leaves every working copy equal to its synced copy
when the identity strings and the profile selection were so before. -/
theorem SerialLoad_loaded (s : State) (p : SerialPort)
    (hid : s.tinyUSBtable_orig = s.tinyUSBtable)
    (hprof : s.board.previousProfile = s.board.selectedProfile)
    (h : (SerialLoad s p).1.serialActive = false) :
    Loaded (SerialLoad s p).1 ∧ trimmed (sentinelPoint s p).2.readLine.1 = "-127" := by
  have hx : (sentinelPoint s p).1.boolSettings_orig = (sentinelPoint s p).1.boolSettings ∧
      ((sentinelPoint s p).1.boolSettings customPins = true →
        (sentinelPoint s p).1.inputsMap_orig = (sentinelPoint s p).1.inputsMap) :=
    loadToSentinel_agree { s with serialActive := true }
      (((p.write "Xlb").waitForBytesWritten.2).waitForReadyRead s.testMode).2
  have hk : (fun x : State => (x.tinyUSBtable, x.tinyUSBtable_orig, x.board, x.serialActive))
      (sentinelPoint s p).1 = (s.tinyUSBtable, s.tinyUSBtable_orig, s.board, true) :=
    loadToSentinel_keeps
      (fun x : State => (x.tinyUSBtable, x.tinyUSBtable_orig, x.board, x.serialActive))
      (fun _ => rfl) (fun _ => rfl) { s with serialActive := true }
      (((p.write "Xlb").waitForBytesWritten.2).waitForReadyRead s.testMode).2
  rw [SerialLoad_eq] at h ⊢
  generalize sentinelPoint s p = x at hx hk h ⊢
  simp only [Prod.mk.injEq] at hk
  obtain ⟨k1, k2, k3, k4⟩ := hk
  by_cases hw : (p.write "Xlb").waitForBytesWritten.1 = true
  · rw [if_pos hw] at h ⊢
    by_cases hr : (((p.write "Xlb").waitForBytesWritten.2).waitForReadyRead s.testMode).1 = true
    · rw [if_pos hr] at h ⊢
      by_cases hb : (trimmed x.2.readLine.1 != "-127") = true
      · rw [if_pos hb] at h
        rw [k4] at h
        exact absurd h (by decide)
      · rw [if_neg hb]
        have hy := loadRest_agree (x.1, x.2.readLine.2)
        have hf := loadRest_keeps
          (fun t : State => (t.boolSettings, t.boolSettings_orig, t.inputsMap, t.inputsMap_orig,
            t.tinyUSBtable, t.tinyUSBtable_orig, t.board))
          (fun _ => rfl) (fun _ => rfl) (x.1, x.2.readLine.2)
        generalize loadProfiles (loadTunables (x.1, x.2.readLine.2)) = z at hy hf
        simp only [Prod.mk.injEq] at hf
        obtain ⟨f1, f2, f3, f4, f5, f6, f7⟩ := hf
        refine ⟨⟨?_, hy.1, ?_, ?_, hy.2, ?_⟩, ?_⟩
        · show z.1.boolSettings_orig = z.1.boolSettings
          rw [f1, f2]; exact hx.1
        · show z.1.boolSettings customPins = true → z.1.inputsMap_orig = z.1.inputsMap
          rw [f1, f3, f4]; exact hx.2
        · show z.1.tinyUSBtable_orig = z.1.tinyUSBtable
          rw [f5, f6, k1, k2]; exact hid
        · show z.1.board.previousProfile = z.1.board.selectedProfile
          rw [f7, k3]; exact hprof
        · simpa using hb
    · rw [if_neg hr] at h
      exact absurd (show true = false from h) (by decide)
  · rw [if_neg hw] at h
    exact absurd (show true = false from h) (by decide)

theorem isOpen_waitForReadyRead (p : SerialPort) (tm : Bool) :
    (p.waitForReadyRead tm).2.isOpen = p.isOpen := by
  unfold SerialPort.waitForReadyRead
  rcases h : p.arrivals with _ | ⟨a, rest⟩
  · rfl
  · cases a
    · rfl
    · cases tm <;> rfl

theorem pinPing_isOpen (tm : Bool) (i : Nat) (p : SerialPort) :
    (pinPing tm i p).isOpen = p.isOpen := by
  unfold pinPing
  split_ifs
  · rw [isOpen_waitForReadyRead]; rfl
  · rfl

theorem loadProfile_isOpen (i : Nat) (x : State × SerialPort) :
    (loadProfile i x).2.isOpen = x.2.isOpen :=
  isOpen_waitForReadyRead ((x.2.write ("XlP" ++ toString i)).waitForBytesWritten.2) x.1.testMode

theorem loadToSentinel_isOpen (s : State) (q : SerialPort) :
    (loadToSentinel s q).2.isOpen = q.isOpen := by
  unfold loadToSentinel
  have h1 : ∀ sp : State × SerialPort, (loadBooleans sp).2.isOpen = sp.2.isOpen := fun sp =>
    forLoop_inv (fun x : State × SerialPort => x.2.isOpen = sp.2.isOpen) 1 8 loadBoolean sp rfl
      (fun _ _ h => h)
  have h2 : ∀ sp : State × SerialPort, (loadPinFlag sp).2.isOpen = sp.2.isOpen := fun sp =>
    isOpen_waitForReadyRead (sp.2.write "Xlp") sp.1.testMode
  have h3 : ∀ sp : State × SerialPort, (loadPinLines sp).2.isOpen = sp.2.isOpen := by
    intro sp
    rw [loadPinLines_port]
    exact pinPing_isOpen _ _ _
  rw [h3, h2, h1]

theorem loadRest_isOpen (y : State × SerialPort) :
    (loadProfiles (loadTunables y)).2.isOpen = y.2.isOpen := by
  have h1 : ∀ sp : State × SerialPort, (loadProfiles sp).2.isOpen = sp.2.isOpen := fun sp =>
    forLoop_inv (fun x : State × SerialPort => x.2.isOpen = sp.2.isOpen) 0 4 loadProfile sp rfl
      (fun i x h => (loadProfile_isOpen i x).trans h)
  have h2 : (loadTunables y).2.isOpen = y.2.isOpen :=
    (forLoop_inv (fun x : State × SerialPort => x.2.isOpen =
        ((y.2.write "Xls").waitForBytesWritten.2.waitForReadyRead y.1.testMode).2.isOpen) 0 8
      loadTunable (y.1, ((y.2.write "Xls").waitForBytesWritten.2.waitForReadyRead y.1.testMode).2)
      rfl (fun _ _ h => h)).trans (isOpen_waitForReadyRead _ _)
  rw [h1, h2]

seal loadToSentinel loadProfiles loadTunables trimmed in
theorem SerialLoad_isOpen (s : State) (p : SerialPort) :
    (SerialLoad s p).2.isOpen = p.isOpen := by
  have hx : (sentinelPoint s p).2.isOpen = p.isOpen :=
    (loadToSentinel_isOpen { s with serialActive := true }
      (((p.write "Xlb").waitForBytesWritten.2).waitForReadyRead s.testMode).2).trans
      (isOpen_waitForReadyRead _ _)
  have hr : (((p.write "Xlb").waitForBytesWritten.2).waitForReadyRead s.testMode).2.isOpen
      = p.isOpen := isOpen_waitForReadyRead _ _
  rw [SerialLoad_eq]
  generalize sentinelPoint s p = x at hx ⊢
  have hy := loadRest_isOpen (x.1, x.2.readLine.2)
  generalize loadProfiles (loadTunables (x.1, x.2.readLine.2)) = z at hy ⊢
  split_ifs
  · exact hx
  · exact hy.trans hx
  · exact hr
  · rfl

seal SerialLoad trimmed toInt boardTypeOf in
/-- A probe that leaves `serialActive` cleared went through to `SerialLoad`:
its result is that of the load, started in a state whose identity strings and
profile selection agree with their synced copies, on an open port. -/
theorem SerialInit_done (s : State) (p : SerialPort)
    (h : (SerialInit s p true).2.1.serialActive = false) :
    ∃ s3 p3, s3.tinyUSBtable_orig = s3.tinyUSBtable ∧
      s3.board.previousProfile = s3.board.selectedProfile ∧ p3.isOpen = true ∧
      (SerialInit s p true).2 = SerialLoad s3 p3 := by
  unfold SerialInit at h ⊢
  rw [if_pos rfl] at h ⊢
  by_cases hw : (({ p with isOpen := true } : SerialPort).write "XP").waitForBytesWritten.1 = true
  · by_cases hr : ((({ p with isOpen := true } : SerialPort).write "XP").waitForBytesWritten.2.waitForReadyRead s.testMode).1 = true
    · simp only [hw, hr, if_true] at h ⊢
      split_ifs
      · refine ⟨_, _, ?_, ?_, ?_, rfl⟩
        · rfl
        · rfl
        · clear h hw hr
          simp [isOpen_waitForReadyRead, SerialPort.readLine, SerialPort.write,
            SerialPort.waitForBytesWritten]
      · refine ⟨_, _, ?_, ?_, ?_, rfl⟩
        · rfl
        · rfl
        · clear h hw hr
          simp [isOpen_waitForReadyRead, SerialPort.readLine, SerialPort.write,
            SerialPort.waitForBytesWritten]
    · simp only [hw, hr, if_true] at h
      exact absurd (show true = false from h) (by decide)
  · simp only [hw] at h
    exact absurd (show true = false from h) (by decide)

theorem buildQueue_last (s : State) : (buildQueue s).getLast? = some "XS" := by
  unfold buildQueue
  simp

theorem commitRun_sent (s : State) (p : SerialPort) (h : (commitRun s p).1 = true) :
    (commitRun s p).2.sent = p.sent ++ "Xm" :: buildQueue s := by
  unfold commitRun at h ⊢
  rw [commitLoop_sent _ _ _ _ _ _ h]
  simp [commitStart, sent_drain, sent_waitForBytesWritten, sent_write]

/-- C14. Round trip. When `SerialInit` on a port that opens ends with
`serialActive` cleared (which happens only when the probe was answered and
`SerialLoad` ran to its end, the sentinel being present), the count of
`DiffUpdate` on the resulting state is 0 and the port is open. The queue of a
commit issued in that state still ends with `XS`; when that commit succeeds
every command of the queue has been written, `XS` last, and the count it
stores is 0 again. -/
theorem load_commit_round_trip (s : State) (p : SerialPort)
    (hfull : (SerialInit s p true).2.1.serialActive = false) :
    diffCount (SerialInit s p true).2.1 = 0 ∧
    (buildQueue (SerialInit s p true).2.1).getLast? = some "XS" ∧
    (SerialInit s p true).2.2.isOpen = true ∧
    ((commitRun (SerialInit s p true).2.1 (SerialInit s p true).2.2).1 = true →
      (commitRun (SerialInit s p true).2.1 (SerialInit s p true).2.2).2.sent
        = (SerialInit s p true).2.2.sent ++ "Xm" :: buildQueue (SerialInit s p true).2.1 ∧
      (commitRun (SerialInit s p true).2.1 (SerialInit s p true).2.2).2.sent.getLast? = some "XS" ∧
      (on_confirmButton_clicked (SerialInit s p true).2.1 (SerialInit s p true).2.2 true).1.settingsDiff = 0 ∧
      diffCount (on_confirmButton_clicked (SerialInit s p true).2.1 (SerialInit s p true).2.2 true).1 = 0) := by
  obtain ⟨s3, p3, hid, hprof, hopen, he⟩ := SerialInit_done s p hfull
  rw [he] at hfull ⊢
  have hl := (SerialLoad_loaded s3 p3 hid hprof hfull).1
  have ho : (SerialLoad s3 p3).2.isOpen = true := (SerialLoad_isOpen s3 p3).trans hopen
  generalize SerialLoad s3 p3 = r at hl ho
  refine ⟨diffCount_of_loaded _ hl, buildQueue_last _, ho, ?_⟩
  intro hok
  have hs := commitRun_sent r.1 r.2 hok
  refine ⟨hs, ?_, ?_⟩
  · rw [hs]
    have hq := buildQueue_last r.1
    rw [show r.2.sent ++ "Xm" :: buildQueue r.1 = (r.2.sent ++ ["Xm"]) ++ buildQueue r.1 by simp]
    rw [List.getLast?_append, hq]
    rfl
  · rw [on_confirmButton_clicked_eq r.1 r.2 ho, if_pos hok]
    have hcal : ∀ i, (r.1.profilesTable_orig i).xScale = (r.1.profilesTable i).xScale ∧
        (r.1.profilesTable_orig i).yScale = (r.1.profilesTable i).yScale ∧
        (r.1.profilesTable_orig i).xCenter = (r.1.profilesTable i).xCenter ∧
        (r.1.profilesTable_orig i).yCenter = (r.1.profilesTable i).yCenter := by
      intro i
      rw [hl.2.2.2.2.1]
      exact ⟨rfl, rfl, rfl, rfl⟩
    have h := diffCount_SyncSettings { r.1 with serialActive := true, confirmEnabled := false } hcal
    exact ⟨h, h⟩

set_option maxRecDepth 1000000 in
/-- The round trip at a concrete input (C14): from `remappedState`, whose
count is 1, the probe and load of `devicePort` run to the end and give count
0; the commit that follows is acknowledged and stores count 0. -/
theorem load_commit_round_trip_witness :
    diffCount remappedState = 1 ∧
    (SerialInit remappedState devicePort true).2.1.serialActive = false ∧
    diffCount (SerialInit remappedState devicePort true).2.1 = 0 ∧
    (commitRun (SerialInit remappedState devicePort true).2.1
      (SerialInit remappedState devicePort true).2.2).1 = true ∧
    (on_confirmButton_clicked (SerialInit remappedState devicePort true).2.1
      (SerialInit remappedState devicePort true).2.2 true).1.settingsDiff = 0 :=
  ⟨by decide, by decide, (load_commit_round_trip remappedState devicePort (by decide)).1,
   by decide,
   ((load_commit_round_trip remappedState devicePort (by decide)).2.2.2 (by decide)).2.2.1⟩

seal loadToSentinel loadProfiles loadTunables trimmed in
/-- The converse of `SerialLoad_loaded`: when the request `Xlb` is written and
answered and the sentinel is present, `SerialLoad` runs to its end and clears
`serialActive`. -/
theorem SerialLoad_complete (s : State) (p : SerialPort)
    (hw : (p.write "Xlb").waitForBytesWritten.1 = true)
    (hr : (((p.write "Xlb").waitForBytesWritten.2).waitForReadyRead s.testMode).1 = true)
    (hs : trimmed (sentinelPoint s p).2.readLine.1 = "-127") :
    (SerialLoad s p).1.serialActive = false := by
  have hb : ¬ ((trimmed (sentinelPoint s p).2.readLine.1 != "-127") = true) := by
    rw [hs]; decide
  rw [SerialLoad_eq, if_pos hw, if_pos hr, if_neg hb]

seal loadToSentinel loadProfiles loadTunables trimmed in
theorem SerialLoad_busy (s : State) (p : SerialPort) :
    (SerialLoad s p).1.serialActive =
      !((p.write "Xlb").waitForBytesWritten.1 &&
        (((p.write "Xlb").waitForBytesWritten.2).waitForReadyRead s.testMode).1 &&
        trimmed (sentinelPoint s p).2.readLine.1 == "-127") := by
  have hk : (fun x : State => x.serialActive) (sentinelPoint s p).1 = true :=
    loadToSentinel_keeps (fun x : State => x.serialActive) (fun _ => rfl) (fun _ => rfl)
      { s with serialActive := true }
      (((p.write "Xlb").waitForBytesWritten.2).waitForReadyRead s.testMode).2
  rw [SerialLoad_eq]
  generalize sentinelPoint s p = x at hk ⊢
  by_cases hw : (p.write "Xlb").waitForBytesWritten.1 = true
  · rw [if_pos hw, hw]
    by_cases hr : (((p.write "Xlb").waitForBytesWritten.2).waitForReadyRead s.testMode).1 = true
    · rw [if_pos hr, hr]
      by_cases hb : (trimmed x.2.readLine.1 != "-127") = true
      · rw [if_pos hb]
        have hne : (trimmed x.2.readLine.1 == "-127") = false := by
          simpa [bne] using hb
        rw [hne]
        exact hk
      · rw [if_neg hb]
        have he : (trimmed x.2.readLine.1 == "-127") = true := by
          simpa [bne] using hb
        rw [he]
        rfl
    · rw [if_neg hr]
      have : (((p.write "Xlb").waitForBytesWritten.2).waitForReadyRead s.testMode).1 = false := by
        simpa using hr
      rw [this]
      rfl
  · rw [if_neg hw]
    have : (p.write "Xlb").waitForBytesWritten.1 = false := by simpa using hw
    rw [this]
    rfl

set_option maxRecDepth 100000 in
/-- C22, the code on its exit paths: `SerialLoad` sets `serialActive` on entry
and clears it only at the end of the complete path. After a write timeout, a
read timeout of the first reply, or a missing sentinel the flag is left set,
whatever it was before. At the failing inputs `stuckPort`, `mutePort` and
`shortPort` the load leaves the idle state `editedState` busy, and the status
feed then drops a profile event it would otherwise apply. -/
theorem load_failure_leaves_busy (s : State) (p : SerialPort) :
    ((p.write "Xlb").waitForBytesWritten.1 = false → (SerialLoad s p).1.serialActive = true) ∧
    ((p.write "Xlb").waitForBytesWritten.1 = true →
      (((p.write "Xlb").waitForBytesWritten.2).waitForReadyRead s.testMode).1 = false →
      (SerialLoad s p).1.serialActive = true) ∧
    ((p.write "Xlb").waitForBytesWritten.1 = true →
      (((p.write "Xlb").waitForBytesWritten.2).waitForReadyRead s.testMode).1 = true →
      trimmed (sentinelPoint s p).2.readLine.1 ≠ "-127" →
      (SerialLoad s p).1.serialActive = true) ∧
    ((p.write "Xlb").waitForBytesWritten.1 = true →
      (((p.write "Xlb").waitForBytesWritten.2).waitForReadyRead s.testMode).1 = true →
      trimmed (sentinelPoint s p).2.readLine.1 = "-127" →
      (SerialLoad s p).1.serialActive = false) ∧
    (editedState.serialActive = false ∧
      (SerialLoad editedState stuckPort).1.serialActive = true ∧
      (SerialLoad editedState mutePort).1.serialActive = true ∧
      (SerialLoad editedState shortPort).1.serialActive = true ∧
      (serialPort_readyRead editedState feedPort).map (fun r => r.1.board.selectedProfile)
        = some 1 ∧
      (serialPort_readyRead (SerialLoad editedState shortPort).1 feedPort).map
        (fun r => (r.1.board.selectedProfile, r.2.inbuf.length)) = some (0, 7)) := by
  rw [SerialLoad_busy]
  refine ⟨?_, ?_, ?_, ?_, ?_⟩
  · intro h; rw [h]; rfl
  · intro h1 h2; rw [h1, h2]; rfl
  · intro h1 h2 h3
    rw [h1, h2]
    have : (trimmed (sentinelPoint s p).2.readLine.1 == "-127") = false := by simpa using h3
    rw [this]; rfl
  · intro h1 h2 h3
    rw [h1, h2, h3]; rfl
  · decide

/-- C23. While `serialActive` is set, `serialPort_readyRead` interprets no
line, whatever the port holds: the state it leaves is the state it found
(selected profile, profile records, every settings field and every other
field), and the port is untouched outside test mode; in test mode the slot
takes one line for the overlay. -/
theorem busy_ignores_status (s : State) (p : SerialPort) (h : s.serialActive = true) :
    serialPort_readyRead s p = some (s, if s.testMode = true then p.readLine.2 else p) := by
  unfold serialPort_readyRead
  rw [h]
  cases s.testMode <;> rfl

/-- The busy flag at a concrete input (C23): the three events of `feedPort`,
which the idle state would apply, are left in the buffer. -/
theorem busy_ignores_status_witness :
    serialPort_readyRead busyState feedPort = some (busyState, feedPort) :=
  busy_ignores_status busyState feedPort rfl

seal loadToSentinel loadProfiles loadTunables trimmed in
theorem SerialLoad_keeps {α : Type} (f : State → α) (hB : ∀ s, f (maskBools s) = f s)
    (hP : ∀ s, f (maskPins s) = f s) (hT : ∀ s, f (maskTunables s) = f s)
    (hR : ∀ s, f (maskProfiles s) = f s) (hA : ∀ (s : State) (b : Bool), f { s with serialActive := b } = f s)
    (s : State) (p : SerialPort) : f (SerialLoad s p).1 = f s := by
  have hk : f (sentinelPoint s p).1 = f s :=
    (loadToSentinel_keeps f hB hP { s with serialActive := true }
      (((p.write "Xlb").waitForBytesWritten.2).waitForReadyRead s.testMode).2).trans (hA s true)
  rw [SerialLoad_eq]
  generalize sentinelPoint s p = x at hk ⊢
  have hy := loadRest_keeps f hT hR (x.1, x.2.readLine.2)
  generalize loadProfiles (loadTunables (x.1, x.2.readLine.2)) = z at hy ⊢
  split_ifs
  · exact hk
  · exact (hA z.1 false).trans (hy.trans hk)
  · exact hA s true
  · exact hA s true

theorem SerialLoad_board (s : State) (p : SerialPort) : (SerialLoad s p).1.board = s.board :=
  SerialLoad_keeps (fun x : State => x.board) (fun _ => rfl) (fun _ => rfl) (fun _ => rfl)
    (fun _ => rfl) (fun _ _ => rfl) s p

theorem headD_tail4 (l : List String) :
    l.tail.tail.headD "" = l.getD 2 "" ∧ l.tail.tail.tail.headD "" = l.getD 3 "" ∧
    l.tail.tail.tail.tail.headD "" = l.getD 4 "" := by
  rcases l with _ | ⟨a, _ | ⟨b, _ | ⟨c, _ | ⟨d, _ | ⟨e, l⟩⟩⟩⟩⟩ <;> exact ⟨rfl, rfl, rfl⟩

seal SerialLoad trimmed toInt boardTypeOf in
/-- The board record that `SerialInit` leaves when the probe is written and
answered: read from lines 2, 3 and 4 of the reply. -/
theorem SerialInit_board (s : State) (p : SerialPort)
    (hw : (({ p with isOpen := true } : SerialPort).write "XP").waitForBytesWritten.1 = true)
    (hr : ((({ p with isOpen := true } : SerialPort).write "XP").waitForBytesWritten.2.waitForReadyRead s.testMode).1 = true) :
    (SerialInit s p true).1 = true ∧
    (SerialInit s p true).2.1.board =
      { type := boardTypeOf (trimmed (probeLine s p 3))
        versionCodename := trimmed (probeLine s p 2)
        selectedProfile := u8 (toInt (trimmed (probeLine s p 4)))
        previousProfile := u8 (toInt (trimmed (probeLine s p 4))) } := by
  unfold SerialInit
  rw [if_pos rfl]
  simp only [hw, hr, if_true]
  rw [SerialLoad_board]
  unfold probeLine probePort
  generalize ((({ p with isOpen := true } : SerialPort).write "XP").waitForBytesWritten.2.waitForReadyRead s.testMode).2 = q
  have hl := headD_tail4 q.inbuf
  split_ifs <;> simp [SerialPort.readLine, hl]

/-- The three ways in which `SerialInit` ends before `SerialLoad`. -/
theorem SerialInit_early (s : State) (p : SerialPort) :
    SerialInit s p false = (false, s, p) ∧
    ((({ p with isOpen := true } : SerialPort).write "XP").waitForBytesWritten.1 = false →
      SerialInit s p true = (false, { s with serialActive := true },
        (({ p with isOpen := true } : SerialPort).write "XP").waitForBytesWritten.2)) ∧
    ((({ p with isOpen := true } : SerialPort).write "XP").waitForBytesWritten.1 = true →
      ((({ p with isOpen := true } : SerialPort).write "XP").waitForBytesWritten.2.waitForReadyRead s.testMode).1 = false →
      SerialInit s p true = (true, { s with serialActive := true }, probePort s p)) := by
  refine ⟨rfl, ?_, ?_⟩
  · intro hw
    unfold SerialInit
    rw [if_pos rfl]
    simp only [hw]
    rfl
  · intro hw hr
    unfold SerialInit
    rw [if_pos rfl]
    simp only [hw, hr]
    rfl

set_option maxRecDepth 100000 in
/-- C25, the code on its failure paths: `SerialInit` returns `false` when the
port does not open and when the probe write times out, but when the reply to
`XP` does not arrive in time it returns `true`, having only set `serialActive`
(nothing is read, `SerialLoad` is not run). At the failing input `silentPort`
the call reports success with `XP` as the only command written. -/
theorem probe_timeout_reports_success (s : State) (p : SerialPort) :
    (SerialInit s p false).1 = false ∧
    ((({ p with isOpen := true } : SerialPort).write "XP").waitForBytesWritten.1 = false →
      (SerialInit s p true).1 = false) ∧
    ((({ p with isOpen := true } : SerialPort).write "XP").waitForBytesWritten.1 = true →
      ((({ p with isOpen := true } : SerialPort).write "XP").waitForBytesWritten.2.waitForReadyRead s.testMode).1 = false →
      (SerialInit s p true).1 = true ∧
      (SerialInit s p true).2.1 = { s with serialActive := true }) ∧
    ((SerialInit loadedState silentPort true).1 = true ∧
      (SerialInit loadedState silentPort true).2.1.serialActive = true ∧
      (SerialInit loadedState silentPort true).2.2.sent = ["XP"] ∧
      (SerialInit loadedState silentPort true).2.2.inbuf = []) := by
  refine ⟨rfl, ?_, ?_, ?_⟩
  · intro hw
    rw [(SerialInit_early s p).2.1 hw]
  · intro hw hr
    rw [(SerialInit_early s p).2.2 hw hr]
    exact ⟨rfl, rfl⟩
  · decide

/-- C26. The board token is matched exactly: each of the four recognised
tokens gives its own board type and no other string gives it; every other
token (another case, extra characters, the empty string) gives `generic`.
When the probe is written and answered, the board type that `SerialInit`
leaves is the one of the trimmed fourth line of the reply. -/
theorem boardTypeOf_exact_match :
    (∀ t : String, boardTypeOf t = BoardType.rpipico ↔ t = "rpipico") ∧
    (∀ t : String, boardTypeOf t = BoardType.adafruitItsyRP2040 ↔ t = "adafruitItsyRP2040") ∧
    (∀ t : String, boardTypeOf t = BoardType.adafruitKB2040 ↔ t = "adafruitKB2040") ∧
    (∀ t : String, boardTypeOf t = BoardType.arduinoNanoRP2040 ↔ t = "arduinoNanoRP2040") ∧
    (∀ t : String, t ≠ "rpipico" → t ≠ "adafruitItsyRP2040" → t ≠ "adafruitKB2040" →
      t ≠ "arduinoNanoRP2040" → boardTypeOf t = BoardType.generic) ∧
    (boardTypeOf "RPiPico" = BoardType.generic ∧ boardTypeOf "rpipico2" = BoardType.generic ∧
      boardTypeOf " rpipico" = BoardType.generic ∧ boardTypeOf "" = BoardType.generic) ∧
    (∀ (s : State) (p : SerialPort),
      (({ p with isOpen := true } : SerialPort).write "XP").waitForBytesWritten.1 = true →
      ((({ p with isOpen := true } : SerialPort).write "XP").waitForBytesWritten.2.waitForReadyRead s.testMode).1 = true →
      (SerialInit s p true).2.1.board.type = boardTypeOf (trimmed (probeLine s p 3))) ∧
    ((SerialInit loadedState (tokenPort "adafruitKB2040" "0") true).2.1.board.type
        = BoardType.adafruitKB2040 ∧
      (SerialInit loadedState (tokenPort "AdafruitKB2040" "0") true).2.1.board.type
        = BoardType.generic) := by
  have key : ∀ t : String, boardTypeOf t =
      if t = "rpipico" then BoardType.rpipico
      else if t = "adafruitItsyRP2040" then BoardType.adafruitItsyRP2040
      else if t = "adafruitKB2040" then BoardType.adafruitKB2040
      else if t = "arduinoNanoRP2040" then BoardType.arduinoNanoRP2040
      else BoardType.generic := by
    intro t
    unfold boardTypeOf
    simp only [beq_iff_eq]
  refine ⟨?_, ?_, ?_, ?_, ?_, by decide, ?_, by decide⟩
  · intro t
    rw [key]
    constructor
    · intro h
      split_ifs at h with h1
      exact h1
    · intro h; rw [h]; rfl
  · intro t
    rw [key]
    constructor
    · intro h
      split_ifs at h with h1 h2
      exact h2
    · intro h; rw [h]; rfl
  · intro t
    rw [key]
    constructor
    · intro h
      split_ifs at h with h1 h2 h3
      exact h3
    · intro h; rw [h]; rfl
  · intro t
    rw [key]
    constructor
    · intro h
      split_ifs at h with h1 h2 h3 h4
      exact h4
    · intro h; rw [h]; rfl
  · intro t h1 h2 h3 h4
    rw [key, if_neg h1, if_neg h2, if_neg h3, if_neg h4]
  · intro s p hw hr
    rw [(SerialInit_board s p hw hr).2]

set_option maxRecDepth 100000 in
/-- C24, the code at the failing inputs: the selected profile is stored as the
device sends it, without a range check. After an answered probe it is the
number of the fifth line of the reply, and after a `Profile: ` event it is the
number at the end of the line, whatever they are; a reply `7` and an event
`Profile: 9` leave 7 and 9. Only `selectedProfile_isChecked` keeps a selection
that lies in 0..3 in 0..3. An `UpdatedProf: 9` event indexes `profilesTable`
out of range (no result in the model). -/
theorem selected_profile_unchecked :
    (∀ (s : State) (p : SerialPort),
      (({ p with isOpen := true } : SerialPort).write "XP").waitForBytesWritten.1 = true →
      ((({ p with isOpen := true } : SerialPort).write "XP").waitForBytesWritten.2.waitForReadyRead s.testMode).1 = true →
      (SerialInit s p true).2.1.board.selectedProfile = u8 (toInt (trimmed (probeLine s p 4)))) ∧
    (∀ (s : State) (p : SerialPort) (line : String), contains line "Pressed:" = false →
      contains line "Released:" = false → contains line "Profile: " = true →
      (statusEvent s p line).map (fun r => r.1.board.selectedProfile)
        = some (u8 (toInt (trimmed (right line 3))))) ∧
    (∀ (s : State) (p : SerialPort) (slot : Fin 4) (isChecked : Bool),
      s.board.selectedProfile.val < 4 →
      (selectedProfile_isChecked s p slot isChecked).1.board.selectedProfile.val < 4) ∧
    ((SerialInit loadedState (tokenPort "rpipico" "7") true).2.1.board.selectedProfile = 7 ∧
      (statusEvent loadedState feedPort "Profile: 9\r\n").map
        (fun r => r.1.board.selectedProfile) = some 9 ∧
      (statusEvent loadedState feedPort "UpdatedProf: 9\r\n").isSome = false) := by
  refine ⟨?_, ?_, ?_, by decide⟩
  · intro s p hw hr
    rw [(SerialInit_board s p hw hr).2]
  · intro s p line h1 h2 h3
    unfold statusEvent
    rw [h1, h2, h3]
    generalize u8 (toInt (trimmed (right line 3))) = sel
    simp only [Bool.false_eq_true, if_false, if_true, Option.map_some']
    by_cases hs : (sel != s.board.selectedProfile) = true
    · rw [if_pos hs]; rfl
    · rw [if_neg hs]
      have : sel = s.board.selectedProfile := by simpa using hs
      rw [this]; rfl
  · intro s p slot c h
    unfold selectedProfile_isChecked
    split_ifs
    · show (u8 (slot.val : Int)).val < 4
      rw [u8_natCast_val slot.val (by have := slot.isLt; omega)]
      exact slot.isLt
    · exact h
    · exact h

theorem arrSet_arrSet {n : Nat} {α : Type} (a : Fin n → α) (i : Fin n) (v w : α) :
    arrSet (arrSet a i v) i w = arrSet a i w := by
  funext j
  unfold arrSet
  split_ifs <;> rfl

theorem arrSet_same {n : Nat} {α : Type} (a : Fin n → α) (i : Fin n) (v : α) :
    arrSet a i v i = v := by
  unfold arrSet
  rw [if_pos rfl]

theorem tail_lines (l : List String) :
    l.headD "" = l.getD 0 "" ∧ l.tail.headD "" = l.getD 1 "" ∧
    l.tail.tail.headD "" = l.getD 2 "" ∧ l.tail.tail.tail.headD "" = l.getD 3 "" ∧
    l.tail.tail.tail.tail = l.drop 4 := by
  rcases l with _ | ⟨a, _ | ⟨b, _ | ⟨c, _ | ⟨d, l⟩⟩⟩⟩ <;> exact ⟨rfl, rfl, rfl, rfl, rfl⟩

theorem DiffUpdate_congr (a b : State) (h : maskDiff a = maskDiff b) : DiffUpdate a = DiffUpdate b := by
  have hc : ∀ x : State, diffCount x = diffCount (maskDiff x) := by
    intro x
    rw [diffCount_eq, diffCount_eq]
    rfl
  have hd : ∀ x : State, DiffUpdate x =
      { maskDiff x with settingsDiff := diffCount (maskDiff x), confirmEnabled := diffCount (maskDiff x) != 0 } := by
    intro x
    rw [← hc x]
    rfl
  rw [hd a, hd b, h]

theorem payloadStep_eq (sp : State × SerialPort) (sel : U8) (n : Fin 4) :
    payloadStep sp sel n =
      (DiffUpdate { sp.1 with board := { sp.1.board with selectedProfile := sel }, profilesTable := arrSet sp.1.profilesTable n { (sp.1.profilesTable n) with xScale := toInt (trimmed (sp.2.inbuf.getD 0 "")), yScale := toInt (trimmed (sp.2.inbuf.getD 1 "")), xCenter := toInt (trimmed (sp.2.inbuf.getD 2 "")), yCenter := toInt (trimmed (sp.2.inbuf.getD 3 "")) } },
        { sp.2 with inbuf := sp.2.inbuf.drop 4 }) := by
  obtain ⟨l0, l1, l2, l3, l4⟩ := tail_lines sp.2.inbuf
  unfold payloadStep
  simp only [arrSet_arrSet, arrSet_same, SerialPort.readLine, l0, l1, l2, l3, l4]

theorem isChecked_mask (s : State) (p : SerialPort) (slot : Fin 4) (c : Bool) :
    maskSelection (selectedProfile_isChecked s p slot c).1 = maskSelection s ∧
    (selectedProfile_isChecked s p slot c).2.inbuf = p.inbuf := by
  unfold selectedProfile_isChecked
  split_ifs <;> exact ⟨rfl, rfl⟩

theorem statusEvent_updatedProf (s : State) (p : SerialPort) (line : String) (n : Fin 4)
    (h1 : contains line "Pressed:" = false) (h2 : contains line "Released:" = false)
    (h3 : contains line "Profile: " = false) (h4 : contains line "UpdatedProf: " = true)
    (hn : u8 (toInt (trimmed (right line 3))) = u8 n.val) :
    (statusEvent s p line).map (fun r => r.1) =
      some (updatedProfState s n (toInt (trimmed (p.inbuf.getD 0 "")))
        (toInt (trimmed (p.inbuf.getD 1 ""))) (toInt (trimmed (p.inbuf.getD 2 "")))
        (toInt (trimmed (p.inbuf.getD 3 "")))) ∧
    (statusEvent s p line).map (fun r => r.2.inbuf) = some (p.inbuf.drop 4) := by
  have hv : (u8 (n.val : Int)).val = n.val := u8_natCast_val n.val (by have := n.isLt; omega)
  have hlt : (u8 (n.val : Int)).val < 4 := by rw [hv]; exact n.isLt
  have hslot : (⟨(u8 (n.val : Int)).val, hlt⟩ : Fin 4) = n := Fin.ext hv
  have e : statusEvent s p line = some (payloadStep
      (if (u8 (n.val : Int) != s.board.selectedProfile) = true then selectedProfile_isChecked s p n true
        else (s, p)) (u8 n.val) n) := by
    unfold statusEvent
    rw [h1, h2, h3, h4, hn]
    simp only [Bool.false_eq_true, if_false, if_true, dif_pos hlt, hslot]
    rfl
  have hsp : ∀ sp : State × SerialPort, maskSelection sp.1 = maskSelection s → sp.2.inbuf = p.inbuf →
      (payloadStep sp (u8 n.val) n).1 = updatedProfState s n (toInt (trimmed (p.inbuf.getD 0 "")))
        (toInt (trimmed (p.inbuf.getD 1 ""))) (toInt (trimmed (p.inbuf.getD 2 "")))
        (toInt (trimmed (p.inbuf.getD 3 ""))) ∧
      (payloadStep sp (u8 n.val) n).2.inbuf = p.inbuf.drop 4 := by
    intro sp hm hi
    rw [payloadStep_eq, hi]
    refine ⟨?_, rfl⟩
    unfold updatedProfState
    apply DiffUpdate_congr
    have hf : ∀ (x : State) (r : profilesTable_s → profilesTable_s),
        maskDiff { x with board := { x.board with selectedProfile := u8 n.val }, profilesTable := arrSet x.profilesTable n (r (x.profilesTable n)) }
        = { maskSelection x with board := { (maskSelection x).board with selectedProfile := u8 n.val }, profilesTable := arrSet (maskSelection x).profilesTable n (r ((maskSelection x).profilesTable n)) } :=
      fun _ _ => rfl
    rw [hf sp.1 (fun o => { o with xScale := toInt (trimmed (p.inbuf.getD 0 "")), yScale := toInt (trimmed (p.inbuf.getD 1 "")), xCenter := toInt (trimmed (p.inbuf.getD 2 "")), yCenter := toInt (trimmed (p.inbuf.getD 3 "")) }),
      hf s (fun o => { o with xScale := toInt (trimmed (p.inbuf.getD 0 "")), yScale := toInt (trimmed (p.inbuf.getD 1 "")), xCenter := toInt (trimmed (p.inbuf.getD 2 "")), yCenter := toInt (trimmed (p.inbuf.getD 3 "")) }),
      hm]
  rw [e]
  simp only [Option.map_some']
  by_cases hs : (u8 (n.val : Int) != s.board.selectedProfile) = true
  · rw [if_pos hs]
    have hm := isChecked_mask s p n true
    have := hsp _ hm.1 hm.2
    exact ⟨congrArg some this.1, congrArg some this.2⟩
  · rw [if_neg hs]
    have := hsp (s, p) rfl rfl
    exact ⟨congrArg some this.1, congrArg some this.2⟩

theorem statusEvent_profile (s : State) (p : SerialPort) (line : String)
    (h1 : contains line "Pressed:" = false) (h2 : contains line "Released:" = false)
    (h3 : contains line "Profile: " = true) :
    statusEvent s p line = some (profileEventState s (u8 (toInt (trimmed (right line 3)))), p) := by
  unfold statusEvent profileEventState
  rw [h1, h2, h3]
  generalize u8 (toInt (trimmed (right line 3))) = sel
  simp only [Bool.false_eq_true, if_false, if_true]
  by_cases hs : (sel != s.board.selectedProfile) = true
  · rw [if_pos hs]
  · rw [if_neg hs]
    have : sel = s.board.selectedProfile := by simpa using hs
    rw [this]

/-- C21. An `UpdatedProf: n` line (`n` in 0..3) followed by four payload lines
is accepted: the resulting state is `updatedProfState`, that is, profile `n`
is selected, the working `xScale`, `yScale`, `xCenter`, `yCenter` of profile
`n` are the integers of the four lines, `irSensitivity` and `runMode` of
profile `n`, the other three profiles, every synced copy and every other
working copy are as before, the stored count is the recomputed one, and the
four lines are gone from the buffer. A `Profile: ` line gives the state with
only the selection changed (and the count recomputed) and leaves the port as
it is. -/
theorem status_events_effect (s : State) (p : SerialPort) (line : String) (n : Fin 4)
    (h1 : contains line "Pressed:" = false) (h2 : contains line "Released:" = false)
    (h3 : contains line "Profile: " = false) (h4 : contains line "UpdatedProf: " = true)
    (hn : u8 (toInt (trimmed (right line 3))) = u8 n.val) :
    (∃ r : State × SerialPort, statusEvent s p line = some r ∧
      r.1 = updatedProfState s n (toInt (trimmed (p.inbuf.getD 0 "")))
        (toInt (trimmed (p.inbuf.getD 1 ""))) (toInt (trimmed (p.inbuf.getD 2 "")))
        (toInt (trimmed (p.inbuf.getD 3 ""))) ∧
      r.1.board.selectedProfile = u8 n.val ∧
      (r.1.profilesTable n).xScale = toInt (trimmed (p.inbuf.getD 0 "")) ∧
      (r.1.profilesTable n).yScale = toInt (trimmed (p.inbuf.getD 1 "")) ∧
      (r.1.profilesTable n).xCenter = toInt (trimmed (p.inbuf.getD 2 "")) ∧
      (r.1.profilesTable n).yCenter = toInt (trimmed (p.inbuf.getD 3 "")) ∧
      (r.1.profilesTable n).irSensitivity = (s.profilesTable n).irSensitivity ∧
      (r.1.profilesTable n).runMode = (s.profilesTable n).runMode ∧
      (∀ j : Fin 4, j ≠ n → r.1.profilesTable j = s.profilesTable j) ∧
      syncedCopies r.1 = syncedCopies s ∧
      (r.1.boolSettings = s.boolSettings ∧ r.1.settingsTable = s.settingsTable ∧
        r.1.inputsMap = s.inputsMap ∧ r.1.currentPins = s.currentPins ∧
        r.1.tinyUSBtable = s.tinyUSBtable ∧ r.1.board.type = s.board.type ∧
        r.1.board.versionCodename = s.board.versionCodename) ∧
      r.1.settingsDiff = diffCount r.1 ∧
      r.2.inbuf = p.inbuf.drop 4) ∧
    (∀ line2 : String, contains line2 "Pressed:" = false → contains line2 "Released:" = false →
      contains line2 "Profile: " = true →
      statusEvent s p line2
        = some (profileEventState s (u8 (toInt (trimmed (right line2 3)))), p) ∧
      maskSelection (profileEventState s (u8 (toInt (trimmed (right line2 3))))) = maskSelection s) := by
  refine ⟨?_, fun line2 g1 g2 g3 => ⟨statusEvent_profile s p line2 g1 g2 g3, rfl⟩⟩
  obtain ⟨e1, e2⟩ := statusEvent_updatedProf s p line n h1 h2 h3 h4 hn
  cases hr : statusEvent s p line with
  | none => rw [hr] at e1; exact absurd e1 (by simp)
  | some r =>
    rw [hr] at e1 e2
    simp only [Option.map_some', Option.some.injEq] at e1 e2
    refine ⟨r, rfl, e1, ?_, ?_, ?_, ?_, ?_, ?_, ?_, ?_, ?_, ?_, ?_, e2⟩
    all_goals rw [e1]
    · rfl
    · simp [updatedProfState, DiffUpdate, arrSet]
    · simp [updatedProfState, DiffUpdate, arrSet]
    · simp [updatedProfState, DiffUpdate, arrSet]
    · simp [updatedProfState, DiffUpdate, arrSet]
    · simp [updatedProfState, DiffUpdate, arrSet]
    · simp [updatedProfState, DiffUpdate, arrSet]
    · intro j hj
      simp [updatedProfState, DiffUpdate, arrSet, hj]
    · rfl
    · exact ⟨rfl, rfl, rfl, rfl, rfl, rfl, rfl⟩
    · rfl

/-- The status events at a concrete input (C21): in `editedState`, the line
`UpdatedProf: 1` with the payload of `payloadPort` selects profile 1 and stores
512, 384, 1000 and 800; the edited rumble flag and its synced copy stay. -/
theorem status_events_effect_witness :
    ∃ r : State × SerialPort, statusEvent editedState payloadPort "UpdatedProf: 1\r\n" = some r ∧
      r.1.board.selectedProfile = 1 ∧ (r.1.profilesTable 1).xScale = 512 ∧
      (r.1.profilesTable 1).yScale = 384 ∧ (r.1.profilesTable 1).xCenter = 1000 ∧
      (r.1.profilesTable 1).yCenter = 800 ∧ r.1.boolSettings = editedState.boolSettings ∧
      syncedCopies r.1 = syncedCopies editedState ∧ r.2.inbuf = [] :=
  match (status_events_effect editedState payloadPort "UpdatedProf: 1\r\n" 1 (by decide) (by decide)
    (by decide) (by decide) (by decide)).1 with
  | ⟨r, h0, _, h2, h3, h4, h5, h6, _, _, _, h10, h11, _, h13⟩ =>
    ⟨r, h0, h2.trans (by decide), h3.trans (by decide), h4.trans (by decide),
      h5.trans (by decide), h6.trans (by decide), h11.1, h10, h13.trans (by decide)⟩

theorem tally_eq_zero (l : List Bool) : tally l = 0 ↔ ∀ c ∈ l, c = false := by
  induction l with
  | nil => simp [tally]
  | cons c cs ih =>
    cases c <;> simp [tally, ih]

theorem profile_ext (o w : profilesTable_s) (h1 : o.xScale = w.xScale) (h2 : o.yScale = w.yScale)
    (h3 : o.xCenter = w.xCenter) (h4 : o.yCenter = w.yCenter)
    (h5 : o.irSensitivity = w.irSensitivity) (h6 : o.runMode = w.runMode) : o = w := by
  cases o; cases w; simp_all

theorem diffConds_false_iff (s : State) : (∀ c ∈ diffConds s, c = false) ↔ CountedEqual s := by
  constructor
  · intro h
    simp only [diffConds, List.mem_cons, List.mem_singleton, forall_eq_or_imp, forall_eq,
      bne_eq_false_iff_eq, List.not_mem_nil, false_implies, implies_true, and_true] at h
    obtain ⟨hp, b1, b2, b3, b4, b5, b6, b7, t0, t1, t2, t3, t4, t5, t6, t7, hid, hname, hsel,
      p0, p1, p2, p3, p4, p5, q0, q1, q2, q3, q4, q5, r0, r1, r2, r3, r4, r5,
      u0, u1, u2, u3, u4, u5⟩ := h
    refine ⟨?_, ?_, ?_, hid, hname, hsel, ?_⟩
    · intro hc
      rw [hc, Bool.true_and] at hp
      by_contra hne
      have := (QMap.ne_iff _ _).2 hne
      rw [hp] at this
      exact Bool.false_ne_true this
    · intro i hi
      fin_cases i
      · exact absurd rfl hi
      all_goals assumption
    · intro i
      fin_cases i <;> assumption
    · intro i
      fin_cases i
      · exact profile_ext _ _ p0 p1 p2 p3 p4 p5
      · exact profile_ext _ _ q0 q1 q2 q3 q4 q5
      · exact profile_ext _ _ r0 r1 r2 r3 r4 r5
      · exact profile_ext _ _ u0 u1 u2 u3 u4 u5
  · rintro ⟨hp, hb, ht, hid, hname, hsel, hprof⟩
    have hpin : (s.boolSettings customPins && s.inputsMap_orig.ne s.inputsMap) = false := by
      cases hc : s.boolSettings customPins
      · rfl
      · rw [hp hc, QMap.ne_self]; rfl
    simp only [diffConds, List.mem_cons, List.mem_singleton, forall_eq_or_imp, forall_eq,
      bne_eq_false_iff_eq, List.not_mem_nil, false_implies, implies_true, and_true]
    simp [hpin, hb, ht, hid, hname, hsel, hprof]

/-- C27. The count of `DiffUpdate` does not wrap: it is the number of the 43
comparisons (1 pin map, 7 booleans, 8 tunables, 2 identity strings, 1 profile
selection, 24 profile fields) that find a difference, at most 43. So the
stored count is 0 exactly when no counted field differs, and the confirm
button is enabled exactly when the stored count is not 0, that is, exactly
when some counted field differs. -/
theorem confirm_enabled_iff_differs (s : State) :
    (diffConds s).length = 43 ∧
    (DiffUpdate s).settingsDiff = tally (diffConds s) ∧
    (DiffUpdate s).settingsDiff ≤ 43 ∧
    ((DiffUpdate s).settingsDiff = 0 ↔ CountedEqual s) ∧
    ((DiffUpdate s).confirmEnabled = true ↔ (DiffUpdate s).settingsDiff ≠ 0) ∧
    ((DiffUpdate s).confirmEnabled = true ↔ ¬ CountedEqual s) := by
  have hlen : (diffConds s).length = 43 := rfl
  have hc : (DiffUpdate s).settingsDiff = tally (diffConds s) := diffCount_eq s
  have hz : (DiffUpdate s).settingsDiff = 0 ↔ CountedEqual s := by
    rw [hc, tally_eq_zero, diffConds_false_iff]
  have he : (DiffUpdate s).confirmEnabled = true ↔ (DiffUpdate s).settingsDiff ≠ 0 := by
    show (diffCount s != 0) = true ↔ diffCount s ≠ 0
    simp
  refine ⟨hlen, hc, ?_, hz, he, ?_⟩
  · rw [hc]
    have := tally_le (diffConds s)
    omega
  · rw [he, ne_eq, hz]

theorem clearedPins_idem (m : QMap) : clearedPins (clearedPins m) = clearedPins m := by
  funext k
  unfold clearedPins
  split_ifs <;> rfl

/-- C29. For every state: the count that `DiffUpdate` computes right after
`SyncSettings` is the number of calibration fields (`xScale`, `yScale`,
`xCenter`, `yCenter` of the four profiles) in which the synced and working
records differ, which `SyncSettings` itself does not change; `SyncSettings`
leaves every working copy (and every field that is not a synced copy) as it
was; and a second `SyncSettings` changes nothing. -/
theorem sync_count_is_calibration (s : State) :
    diffCount (SyncSettings s) = tally (calibConds s) ∧
    (DiffUpdate (SyncSettings s)).settingsDiff = tally (calibConds s) ∧
    calibConds (SyncSettings s) = calibConds s ∧
    workingCopies (SyncSettings s) = workingCopies s ∧
    SyncSettings (SyncSettings s) = SyncSettings s := by
  have hc : diffCount (SyncSettings s) = tally (calibConds s) := by
    rw [diffCount_eq, SyncSettings_eq]
    cases hf : s.boolSettings customPins <;>
      simp [diffConds, calibConds, tally, syncedProfile, hf, QMap.ne_self]
  refine ⟨hc, hc, ?_, ?_, ?_⟩
  · rw [SyncSettings_eq]
    rfl
  · rw [SyncSettings_eq]
    rfl
  · rw [SyncSettings_eq s]
    rw [SyncSettings_eq]
    cases hf : s.boolSettings customPins <;>
      simp [hf, clearedPins_idem, syncedProfile]

theorem u8_neg_one : u8 ((0 : Int) - 1) = 255 := by decide

theorem pinBoxes_activated_zero (s : State) (pin : U8) :
    pinBoxes_activated s pin 0 = DiffUpdate { s with
      inputsMap := s.inputsMap.set (u8 ((s.currentPins.value pin).val - 1)) (i8 (-1))
      currentPins := s.currentPins.set pin (i8 btnUnmapped)
      pinBoxesOldIndex := Function.update s.pinBoxesOldIndex pin 0 } := rfl

/-- C28, the code at the failing input: for every state in which `pin` is
unmapped in `currentPins`, choosing "Unmapped" for it writes -1 under the key
255 of `inputsMap` (the key `0 - 1` as `uint8_t`). The map is unchanged only
when it already held that entry; otherwise it differs from the previous map,
and with custom pins on and the two maps equal before, the count goes up by
one. -/
theorem unmap_unmapped_inserts (s : State) (pin : U8)
    (hu : (s.currentPins.value pin).val = btnUnmapped) :
    (pinBoxes_activated s pin 0).inputsMap = s.inputsMap.set 255 (i8 (-1)) ∧
    (s.inputsMap 255 = some (i8 (-1)) → (pinBoxes_activated s pin 0).inputsMap = s.inputsMap) ∧
    (s.inputsMap 255 ≠ some (i8 (-1)) → (pinBoxes_activated s pin 0).inputsMap ≠ s.inputsMap) ∧
    (s.inputsMap 255 ≠ some (i8 (-1)) → s.boolSettings customPins = true →
      s.inputsMap_orig = s.inputsMap →
      (pinBoxes_activated s pin 0).settingsDiff = diffCount s + 1) := by
  have hk : u8 ((s.currentPins.value pin).val - 1) = 255 := by
    rw [hu]; exact u8_neg_one
  have hm : (pinBoxes_activated s pin 0).inputsMap = s.inputsMap.set 255 (i8 (-1)) := by
    rw [pinBoxes_activated_zero, ← hk]
    rfl
  have hne : s.inputsMap 255 ≠ some (i8 (-1)) → s.inputsMap.set 255 (i8 (-1)) ≠ s.inputsMap := by
    intro h255 he
    apply h255
    have := congrFun he 255
    rw [← this]
    simp [QMap.set]
  refine ⟨hm, ?_, ?_, ?_⟩
  · intro h255
    rw [hm]
    funext k
    unfold QMap.set
    split_ifs with hk2
    · rw [hk2, h255]
    · rfl
  · intro h255
    rw [hm]
    exact hne h255
  · intro h255 hc ho
    have hd : s.inputsMap.ne (s.inputsMap.set 255 (i8 (-1))) = true := by
      rw [QMap.ne_iff]
      exact fun he => hne h255 he.symm
    rw [pinBoxes_activated_zero, hk]
    show diffCount _ = diffCount s + 1
    rw [diffCount_eq, diffCount_eq]
    simp only [diffConds, tally, hc, hd, ho, QMap.ne_self, Bool.and_true, Bool.and_false,
      Bool.toNat_true, Bool.toNat_false]
    omega

set_option maxRecDepth 1000000 in
/-- The failing input of C28: in `customState` (custom pins on, nothing
mapped, both maps equal, count 0) choosing "Unmapped" on the unmapped pin 5
adds the key 255 to `inputsMap` and makes the count 1. -/
theorem unmap_unmapped_inserts_witness :
    (customState.currentPins.value 5).val = btnUnmapped ∧ diffCount customState = 0 ∧
    customState.inputsMap 255 = none ∧
    (pinBoxes_activated customState 5 0).inputsMap 255 = some (i8 (-1)) ∧
    (pinBoxes_activated customState 5 0).inputsMap ≠ customState.inputsMap ∧
    (pinBoxes_activated customState 5 0).settingsDiff = 1 :=
  ⟨by decide, by decide, by decide,
   (congrFun (unmap_unmapped_inserts customState 5 (by decide)).1 255).trans (by decide),
   (unmap_unmapped_inserts customState 5 (by decide)).2.2.1 (by decide),
   ((unmap_unmapped_inserts customState 5 (by decide)).2.2.2 (by decide) (by decide)
      rfl).trans (by decide)⟩

theorem addPortItems_eq (l : List QSerialPortInfo) : ∀ acc : List String × Bool,
    addPortItems l acc = (acc.1 ++ (shownPorts l).map portLabel, acc.2 || !(shownPorts l).isEmpty) := by
  induction l with
  | nil => intro acc; simp [addPortItems, shownPorts]
  | cons a l ih =>
    intro acc
    have h := ih
    unfold addPortItems at h ⊢
    rw [List.foldl_cons, h]
    cases hl : piggieMap.lookup (a.vendorIdentifier, a.productIdentifier) with
    | none => simp [shownPorts, hl]
    | some d => simp [shownPorts, hl, portLabel]

theorem PortsSearch_eq (available : List QSerialPortInfo) (items : List String) :
    PortsSearch available items = (available,
      "Pick LightGun Here" :: (if (shownPorts available).isEmpty then ["Plug in LightGun"]
        else (shownPorts available).map portLabel)) := by
  have hi : (if (items.headD "" != "Pick LightGun Here") = true then ["Pick LightGun Here"]
      else items).take 1 = ["Pick LightGun Here"] := by
    by_cases h : (items.headD "" != "Pick LightGun Here") = true
    · rw [if_pos h]; rfl
    · rw [if_neg h]
      have e : items.headD "" = "Pick LightGun Here" := by simpa using h
      rcases items with _ | ⟨a, rest⟩
      · exact absurd e (by decide)
      · simp only [List.headD_cons] at e
        rw [e]; rfl
  unfold PortsSearch
  simp only [hi, addPortItems_eq]
  rcases available with _ | ⟨a, l⟩
  · simp [shownPorts]
  · cases he : (shownPorts (a :: l)).isEmpty
    · simp [he]
    · have hnil : shownPorts (a :: l) = [] := List.isEmpty_iff.1 he
      simp [hnil]

/-- C30, the code at the failing input: `PortsSearch` keeps every discovered
port in `serialFoundList` but adds dropdown entries only for the recognised
ones, so entry `k` shows the `k`-th recognised port while
`on_comPortSelector_currentIndexChanged(k)` opens `serialFoundList[k-1]`, the
`k`-th discovered port. With `mixedPorts` the only entry is
`Piggie 1 (COM7)`, and choosing it opens the adapter on COM3. When every
discovered port is recognised the two agree. -/
theorem opened_port_is_unfiltered :
    (∀ (available : List QSerialPortInfo) (items : List String),
      (PortsSearch available items).1 = available ∧
      (PortsSearch available items).2 = "Pick LightGun Here" ::
        (if (shownPorts available).isEmpty then ["Plug in LightGun"]
          else (shownPorts available).map portLabel)) ∧
    (∀ (available : List QSerialPortInfo) (items : List String) (k : Nat), 1 ≤ k →
      on_comPortSelector_currentIndexChanged_port (PortsSearch available items).1 k
        = available[k - 1]?) ∧
    (∀ (available : List QSerialPortInfo), shownPorts available = available →
      ∀ k : Nat, 1 ≤ k → k ≤ available.length →
        (PortsSearch available []).2[k]? = (available[k - 1]?).map portLabel) ∧
    ((PortsSearch mixedPorts []).2 = ["Pick LightGun Here", "Piggie 1 (COM7)"] ∧
      (shownPorts mixedPorts)[0]? = some
        { vendorIdentifier := 0x0321, productIdentifier := 0x0420, systemLocation := "\\\\.\\COM7" } ∧
      on_comPortSelector_currentIndexChanged_port (PortsSearch mixedPorts []).1 1 = some
        { vendorIdentifier := 0x1A86, productIdentifier := 0x7523, systemLocation := "\\\\.\\COM3" }) := by
  refine ⟨?_, ?_, ?_, by decide⟩
  · intro available items
    rw [PortsSearch_eq]
    exact ⟨rfl, rfl⟩
  · intro available items k hk
    rw [PortsSearch_eq]
    unfold on_comPortSelector_currentIndexChanged_port SerialInit_setPort
    rw [if_pos (by omega), if_pos (by omega)]
    congr 1
    omega
  · intro available hall k hk hlen
    rw [PortsSearch_eq, hall]
    have hne : available.isEmpty = false := by
      rcases available with _ | ⟨a, l⟩
      · simp at hlen; omega
      · rfl
    rw [hne]
    obtain ⟨j, rfl⟩ : ∃ j, k = j + 1 := ⟨k - 1, by omega⟩
    simp

theorem statusEvent_none_iff (s : State) (p : SerialPort) (line : String) :
    statusEvent s p line = none ↔
      (contains line "Pressed:" = false ∧ contains line "Released:" = false ∧
        contains line "Profile: " = false ∧ contains line "UpdatedProf: " = true ∧
        4 ≤ (u8 (toInt (trimmed (right line 3)))).val) := by
  constructor
  · intro h
    unfold statusEvent at h
    generalize u8 (toInt (trimmed (right line 3))) = sel at h ⊢
    by_cases c1 : contains line "Pressed:" = true
    · rw [if_pos c1] at h; exact absurd h (by simp)
    rw [if_neg c1] at h
    by_cases c2 : contains line "Released:" = true
    · rw [if_pos c2] at h; exact absurd h (by simp)
    rw [if_neg c2] at h
    by_cases c3 : contains line "Profile: " = true
    · rw [if_pos c3] at h; exact absurd h (by simp)
    rw [if_neg c3] at h
    by_cases c4 : contains line "UpdatedProf: " = true
    · rw [if_pos c4] at h
      by_cases h4 : sel.val < 4
      · rw [dif_pos h4] at h; exact absurd h (by simp)
      · exact ⟨by simpa using c1, by simpa using c2, by simpa using c3, c4, by omega⟩
    · rw [if_neg c4] at h; exact absurd h (by simp)
  · rintro ⟨c1, c2, c3, c4, h4⟩
    have n1 : ¬ contains line "Pressed:" = true := by rw [c1]; decide
    have n2 : ¬ contains line "Released:" = true := by rw [c2]; decide
    have n3 : ¬ contains line "Profile: " = true := by rw [c3]; decide
    unfold statusEvent
    generalize u8 (toInt (trimmed (right line 3))) = sel at h4 ⊢
    rw [if_neg n1, if_neg n2, if_neg n3, if_pos c4, dif_neg (by omega)]

set_option maxRecDepth 100000 in
/-- C20, the code at the failing input. The editing operations (the boolean
toggles, the tunable slots, `pinBoxes_activated`, `irBoxes_activated`,
`runModeBoxes_activated`, `selectedProfile_isChecked`) leave the synced copies
as they were, and so does every status event that is not an `UpdatedProf`
line naming a profile of 4 or more: such an event has a result, with the
synced copies unchanged. An `UpdatedProf` line naming a profile of 4 or more
is accepted without a range check and writes `profilesTable[selection]`,
which has four records: the event has no defined result (`none`), and these
are the only lines for which that is so. The line `UpdatedProf: 4` is one,
and a feed that holds it (`strayFeedPort`) leaves `serialPort_readyRead`
without a defined result from the idle state `loadedState`. -/
theorem status_event_out_of_range :
    (∀ (s : State) (p : SerialPort) (line : String),
      statusEvent s p line = none ↔
        (contains line "Pressed:" = false ∧ contains line "Released:" = false ∧
          contains line "Profile: " = false ∧ contains line "UpdatedProf: " = true ∧
          4 ≤ (u8 (toInt (trimmed (right line 3)))).val)) ∧
    (u8 (toInt (trimmed (right "UpdatedProf: 4\r\n" 3))) = 4 ∧
      loadedState.serialActive = false ∧
      (statusEvent loadedState payloadPort "UpdatedProf: 4\r\n").isSome = false ∧
      (serialPort_readyRead loadedState strayFeedPort).isSome = false) ∧
    (∀ (s : State) (p : SerialPort) (line : String),
      ¬ (contains line "Pressed:" = false ∧ contains line "Released:" = false ∧
          contains line "Profile: " = false ∧ contains line "UpdatedProf: " = true ∧
          4 ≤ (u8 (toInt (trimmed (right line 3)))).val) →
      ∃ r : State × SerialPort, statusEvent s p line = some r ∧
        syncedCopies r.1 = syncedCopies s) ∧
    (∀ (s : State) (p : SerialPort) (r : State × SerialPort),
      serialPort_readyRead s p = some r → syncedCopies r.1 = syncedCopies s) ∧
    (∀ s : State,
      (∀ (flag : Fin 8) (arg1 : Int),
        syncedCopies (on_toggle_stateChanged flag s arg1) = syncedCopies s) ∧
      (∀ (nunChuck : Fin 8) (p : SerialPort) (arg1 : Int),
        syncedCopies (on_nunChuckToggle_stateChanged nunChuck s p arg1).1 = syncedCopies s) ∧
      (∀ (slot : Fin 8) (arg1 : Int),
        syncedCopies (on_box_valueChanged slot s arg1) = syncedCopies s) ∧
      (∀ (pin : U8) (index : Int),
        syncedCopies (pinBoxes_activated s pin index) = syncedCopies s) ∧
      (∀ (slot : Fin 4) (index : Int),
        syncedCopies (irBoxes_activated s slot index) = syncedCopies s) ∧
      (∀ (slot : Fin 4) (index : Int),
        syncedCopies (runModeBoxes_activated s slot index) = syncedCopies s) ∧
      (∀ (p : SerialPort) (slot : Fin 4) (isChecked : Bool),
        syncedCopies (selectedProfile_isChecked s p slot isChecked).1 = syncedCopies s)) := by
  refine ⟨statusEvent_none_iff, by decide, ?_, ?_, ?_⟩
  · intro s p line hno
    cases hr : statusEvent s p line with
    | none => exact absurd ((statusEvent_none_iff s p line).1 hr) hno
    | some r => exact ⟨r, rfl, syncedCopies_statusEvent s p line r hr⟩
  · intro s p r h
    unfold serialPort_readyRead at h
    split_ifs at h
    · exact syncedCopies_idleLoop _ s p r h
    · cases h; rfl
    · cases h; rfl
  · intro s
    refine ⟨fun _ _ => rfl, fun _ _ _ => rfl, fun _ _ => rfl, syncedCopies_pinBoxes s, ?_, ?_,
      syncedCopies_isChecked s⟩
    · intro slot index
      unfold irBoxes_activated
      split_ifs <;> rfl
    · intro slot index
      unfold runModeBoxes_activated
      split_ifs <;> rfl

end PIGS
